import Mathlib

/-!
# Gaku: the metadata scan engine, the playback controller and the playlist parser

A shallow embedding of `tag-reader.c` (the scan queue, the probe pipeline's
source stage, the per-job error and tag accumulators, and the handlers that
GStreamer's bus and the decodebin invoke), of `audio-player.c` (the player
around one playbin element) and of `playlist-parser.c` (the M3U reader).  All
definitions come first, the theorems follow.

Conventions of the embedding of the tag reader.

* The private struct `TagReaderPrivate` is a record that is passed through
  every function.  Everything the code does to the outside world (pipeline
  calls, the `uri-scanned` signal, warnings) is appended to the field `trace`
  in program order.
* A `ScanUriData` is allocated with `g_slice_new`; the queue stores the
  pointer.  The record therefore carries `addr`, the pointer value, next to
  the two fields of the C struct, because `find_scan_uri_data` looks at the
  pointer value.
* `guint` is a natural number reduced modulo `2 ^ 32`.
* Dereferencing `NULL` and using a released element are faults: the
  functions that can do so return `Except Fault _`.
* The media framework is outside the repository.  Its functions are modelled
  by their documented contract: a tag list is a structure of named fields, and
  `GST_TAG_MERGE_REPLACE` overwrites a field of the same name and appends a
  new one.  Whether `gst_element_make_from_uri` yields a source element for a
  URI, or `NULL`, depends on the URI and on the elements installed: the
  framework is a parameter `g` of the reader, and `feed_head` stores what it
  answers without a check, as the C code does.
-/

namespace Gaku

/-- GLib error value: domain, code and message. -/
structure GError where
  domain : String
  code : Nat
  message : String
deriving DecidableEq, Repr

/-- Values a tag can hold. -/
inductive GValue where
  | string (s : String)
  | uint (n : Nat)
  | int64 (n : Int)
deriving DecidableEq, Repr

/-- A tag list is a `GstStructure`: an ordered list of named fields. -/
abbrev GstTagList := List (String × GValue)

/-- States of a GStreamer element. -/
inductive GstState where
  | VOID_PENDING
  | NULL
  | READY
  | PAUSED
  | PLAYING
deriving DecidableEq, Repr

/-- The name of the duration tag, `GST_TAG_DURATION`. -/
def GST_TAG_DURATION : String := "duration"

/-- Field names of a tag list, in field order. -/
def gst_tag_list_names (l : GstTagList) : List String := l.map Prod.fst

/-- Value of the field `name`, if the list has one. -/
def gst_tag_list_lookup : GstTagList → String → Option GValue
  | [], _ => none
  | (k, v) :: rest, name => if k = name then some v else gst_tag_list_lookup rest name

/-- Sets a field of a structure: a field of that name is overwritten in place,
otherwise the field is appended. -/
def gst_structure_set_value : GstTagList → String → GValue → GstTagList
  | [], name, v => [(name, v)]
  | (k, w) :: rest, name, v =>
      if k = name then (k, v) :: rest else (k, w) :: gst_structure_set_value rest name v

/-- Adds one tag in mode `GST_TAG_MERGE_REPLACE`. -/
def gst_tag_list_add (l : GstTagList) (tag : String) (v : GValue) : GstTagList :=
  gst_structure_set_value l tag v

/-- Inserts every tag of `src` into `into` in mode `GST_TAG_MERGE_REPLACE`. -/
def gst_tag_list_insert (into src : GstTagList) : GstTagList :=
  src.foldl (fun acc kv => gst_tag_list_add acc kv.1 kv.2) into

/-- Merges two possibly absent tag lists in mode `GST_TAG_MERGE_REPLACE`: the
result is a copy of `list1` into which the tags of `list2` are inserted; it is
absent only when both arguments are. -/
def gst_tag_list_merge (list1 list2 : Option GstTagList) : Option GstTagList :=
  match list1, list2 with
  | none, none => none
  | l1, l2 => some (gst_tag_list_insert (l1.getD []) (l2.getD []))

namespace TagReader

/-- The error code `TAG_READER_ERROR_UNKNOWN_TYPE` of `tag-reader.h`. -/
def TAG_READER_ERROR_UNKNOWN_TYPE : Nat := 0

/-- The error the reader records when decodebin reports an unknown type. -/
def unknown_type_error : GError :=
  { domain := "tag-reader-error", code := TAG_READER_ERROR_UNKNOWN_TYPE,
    message := "Unknown type" }

/-- One scan job.  `addr` is the pointer `g_slice_new` returned for the
struct; `uri` and `id` are the fields of the C struct. -/
structure ScanUriData where
  addr : Nat
  uri : String
  id : Nat
deriving DecidableEq, Repr

/-- What the field `priv->src` points at. -/
inductive SrcPtr where
  /-- The pointer is `NULL`: no source element was made yet, or the last call
  of `gst_element_make_from_uri` returned `NULL`. -/
  | null
  /-- The source made for the given URI; it is in the pipeline and linked. -/
  | attached (uri : String)
  /-- The pointer is stale: the element was removed from the pipeline. -/
  | released
deriving DecidableEq, Repr

/-- Observable actions of the reader, in program order. -/
inductive Effect where
  /-- Call of `gst_element_set_state` on the pipeline. -/
  | set_state (s : GstState)
  /-- Call of `gst_element_make_from_uri (GST_URI_SRC, uri, "src")`. -/
  | make_from_uri (uri : String)
  /-- Call of `gst_bin_add` with the source made for `uri`. -/
  | bin_add (uri : String)
  /-- Call of `gst_element_link (src, decodebin)`. -/
  | link (uri : String)
  /-- Call of `gst_element_unlink (src, decodebin)`. -/
  | unlink (uri : String)
  /-- Call of `gst_bin_remove` with the source made for `uri`. -/
  | bin_remove (uri : String)
  /-- Emission of the signal `uri-scanned`. -/
  | uri_scanned (uri : String) (error : Option GError) (tag_list : Option GstTagList)
  /-- The warning `Not scanning URI with ID %u`. -/
  | warning (scan_id : Nat)
  /-- A failed `g_return_if_fail` precondition, of the reader or of a framework
  function that is handed `NULL` for an element. -/
  | critical
deriving DecidableEq, Repr

/-- Ways the C code can leave defined behaviour. -/
inductive Fault where
  /-- A null pointer is dereferenced. -/
  | null_deref
  /-- A released element is used. -/
  | use_after_free
deriving DecidableEq, Repr

/-- The struct `_TagReaderPrivate`, with the state of the pipeline it owns and
the trace of actions. -/
structure TagReaderPrivate where
  src : SrcPtr
  queue : List ScanUriData
  next_id : Nat
  current_error : Option GError
  current_tag_list : Option GstTagList
  /-- The state last requested of the pipeline. -/
  pipeline_state : GstState
  trace : List Effect
deriving DecidableEq, Repr

/-- Result of a handler: the new state or a fault. -/
abbrev Result := Except Fault TagReaderPrivate

/-- The state `tag_reader_init` builds. -/
def tag_reader_init : TagReaderPrivate :=
  { src := .null, queue := [], next_id := 1, current_error := none,
    current_tag_list := none, pipeline_state := .NULL, trace := [] }

/-- The media framework, as far as the reader depends on what is installed. -/
structure GStreamer where
  /-- Whether `gst_element_make_from_uri (GST_URI_SRC, uri, "src")` returns an
  element for `uri`.  It returns `NULL` when the URI is not valid or when no
  installed element handles its protocol. -/
  has_source : String → Bool

/-- The pointer `gst_element_make_from_uri (GST_URI_SRC, uri, "src")`
returns. -/
def gst_element_make_from_uri (g : GStreamer) (uri : String) : SrcPtr :=
  if g.has_source uri then .attached uri else .null

/-- Feed the head of the queue to the pipeline.  The result of
`gst_element_make_from_uri` is stored and passed on without a check: when it
is `NULL`, `gst_bin_add` and `gst_element_link` each refuse it with a critical
and the pipeline is set to playing all the same. -/
def feed_head (g : GStreamer) (t : TagReaderPrivate) : TagReaderPrivate :=
  match t.queue with
  | [] => t
  | data :: _ =>
      if g.has_source data.uri then
        { t with
          src := .attached data.uri
          pipeline_state := .PLAYING
          trace := t.trace ++ [.make_from_uri data.uri, .bin_add data.uri, .link data.uri,
                               .set_state .PLAYING] }
      else
        { t with
          src := .null
          pipeline_state := .PLAYING
          trace := t.trace ++ [.make_from_uri data.uri, .critical, .critical,
                               .set_state .PLAYING] }

/-- Purge the head of the queue. -/
def flush_head (t : TagReaderPrivate) : Result :=
  let stopped : TagReaderPrivate :=
    { t with pipeline_state := .NULL, trace := t.trace ++ [.set_state .NULL] }
  let removed : Except Fault TagReaderPrivate :=
    match stopped.src with
    | .attached u =>
        .ok { stopped with src := .released,
                           trace := stopped.trace ++ [.unlink u, .bin_remove u] }
    | .null => .ok { stopped with trace := stopped.trace ++ [.critical, .critical] }
    | .released => .error .use_after_free
  match removed with
  | .error f => .error f
  | .ok r =>
      match r.queue with
      | [] => .error .null_deref
      | data :: rest =>
          .ok { r with
                queue := rest
                trace := r.trace ++ [.uri_scanned data.uri r.current_error r.current_tag_list]
                current_error := none
                current_tag_list := none }

/-- An error occured. -/
def bus_message_error_cb (g : GStreamer) (t : TagReaderPrivate) (error : GError) : Result :=
  (flush_head { t with current_error := some error }).map (feed_head g)

/-- End of stream reached. -/
def bus_message_eos_cb (g : GStreamer) (t : TagReaderPrivate) : Result :=
  (flush_head t).map (feed_head g)

/-- Tag list available. -/
def bus_message_tag_cb (t : TagReaderPrivate) (tags : GstTagList) : TagReaderPrivate :=
  { t with current_tag_list := gst_tag_list_merge t.current_tag_list (some tags) }

/-- The block of `bus_message_application_cb` that runs when the duration
query succeeds: create the tag list if none exists yet, then merge the
duration into it. -/
def merge_duration (t : TagReaderPrivate) (duration : Int) : TagReaderPrivate :=
  let tag_list := t.current_tag_list.getD []
  { t with
    current_tag_list := some (gst_tag_list_add tag_list GST_TAG_DURATION (.int64 duration)) }

/-- Application message received.  `from_sink` says whether the message source is
the fakesink, `structure_name` is the name of the message structure, and
`duration` is the answer of the pipeline to the duration query (`none` when
the query fails). -/
def bus_message_application_cb (g : GStreamer) (t : TagReaderPrivate) (from_sink : Bool)
    (structure_name : String) (duration : Option Int) : Result :=
  if !from_sink then .ok t
  else if structure_name ≠ "handoff" then .ok t
  else
    let t1 : TagReaderPrivate :=
      match duration with
      | some d => merge_duration t d
      | none => t
    (flush_head t1).map (feed_head g)

/-- Data of an unknown type fed. -/
def decodebin_unknown_type_cb (g : GStreamer) (t : TagReaderPrivate) : Result :=
  (flush_head { t with current_error := some unknown_type_error }).map (feed_head g)

/-- Queues `uri` up for tag reading; `addr` is the pointer `g_slice_new` hands
out.  Returns the new state and the scan ID. -/
def tag_reader_scan_uri (g : GStreamer) (t : TagReaderPrivate) (uri : Option String) (addr : Nat) :
    TagReaderPrivate × Nat :=
  match uri with
  | none => ({ t with trace := t.trace ++ [.critical] }, 0)
  | some u =>
      let data : ScanUriData := { addr := addr, uri := u, id := t.next_id }
      let t1 : TagReaderPrivate :=
        { t with next_id := (t.next_id + 1) % 2 ^ 32, queue := t.queue ++ [data] }
      let t2 := if t1.queue.length = 1 then feed_head g t1 else t1
      (t2, data.id)

/-- Find a ScanUriData by its ID.  The arguments are the two pointers the
queue search passes: `a` is the queue element, `b` is the search key. -/
def find_scan_uri_data (a b : Nat) : Int :=
  let ai := a % 2 ^ 32
  let bi := b % 2 ^ 32
  if ai < bi then -1
  else if ai > bi then 1
  else 0

/-- GLib's `g_queue_find_custom`: the position of the first link whose element
pointer makes `func` return 0 against `data`. -/
def g_queue_find_custom : List ScanUriData → Nat → (Nat → Nat → Int) → Option Nat
  | [], _, _ => none
  | d :: rest, data, func =>
      if func d.addr data = 0 then some 0
      else (g_queue_find_custom rest data func).map (· + 1)

/-- Cancels the scanning of URI with ID `scan_id`. -/
def tag_reader_cancel_scan_uri (t : TagReaderPrivate) (scan_id : Nat) : Result :=
  match g_queue_find_custom t.queue scan_id find_scan_uri_data with
  | none => .ok { t with trace := t.trace ++ [.warning scan_id] }
  | some 0 => flush_head t
  | some (i + 1) => .ok { t with queue := t.queue.eraseIdx (i + 1) }

/-- One thing that happens to a reader: a public call or an event the media
framework delivers. -/
inductive Op where
  /-- Call of `tag_reader_scan_uri` with a URI; `addr` is the allocation. -/
  | scan_uri (uri : String) (addr : Nat)
  /-- Error message on the bus. -/
  | error (e : GError)
  /-- End-of-stream message on the bus. -/
  | eos
  /-- The signal `unknown-type` of decodebin. -/
  | unknown_type
  /-- Application message `handoff` from the fakesink, with the answer to the
  duration query. -/
  | handoff (duration : Option Int)
  /-- Tag message on the bus. -/
  | tag (tags : GstTagList)
  /-- Call of `tag_reader_cancel_scan_uri`. -/
  | cancel (scan_id : Nat)
deriving DecidableEq, Repr

/-- Runs one operation. -/
def step (g : GStreamer) (t : TagReaderPrivate) : Op → Result
  | .scan_uri uri addr => .ok (tag_reader_scan_uri g t (some uri) addr).1
  | .error e => bus_message_error_cb g t e
  | .eos => bus_message_eos_cb g t
  | .unknown_type => decodebin_unknown_type_cb g t
  | .handoff d => bus_message_application_cb g t true "handoff" d
  | .tag tags => .ok (bus_message_tag_cb t tags)
  | .cancel scan_id => tag_reader_cancel_scan_uri t scan_id

/-- Runs a sequence of operations, stopping at the first fault. -/
def run (g : GStreamer) (t : TagReaderPrivate) : List Op → Result
  | [] => .ok t
  | op :: rest =>
      match step g t op with
      | .ok t1 => run g t1 rest
      | .error f => .error f

/-- The job-terminating events. -/
def Op.terminates : Op → Bool
  | .error _ => true
  | .eos => true
  | .unknown_type => true
  | .handoff _ => true
  | _ => false

/-- The `uri-scanned` notifications of a trace, in emission order. -/
def notifications : List Effect → List (String × Option GError × Option GstTagList)
  | [] => []
  | .uri_scanned uri e tl :: rest => (uri, e, tl) :: notifications rest
  | _ :: rest => notifications rest

/-- The URIs of the `uri-scanned` notifications of a trace. -/
def scanned_uris (tr : List Effect) : List String :=
  (notifications tr).map (fun n => n.1)

/-- The URIs a sequence of operations submits, in submission order. -/
def submitted : List Op → List String
  | [] => []
  | .scan_uri uri _ :: rest => uri :: submitted rest
  | _ :: rest => submitted rest

/-- A sequence of submits, tag events and job-terminating events in which
every job-terminating event arrives while a job is queued, given that `n`
jobs are queued at its start.  It contains no cancellation. -/
def events_while_queued : Nat → List Op → Bool
  | _, [] => true
  | n, .scan_uri _ _ :: rest => events_while_queued (n + 1) rest
  | n, .tag _ :: rest => events_while_queued n rest
  | _, .cancel _ :: _ => false
  | 0, _ :: _ => false
  | n + 1, _ :: rest => events_while_queued n rest

/-- The source stage belongs to the head job: no source is attached when no
job is queued, and when a job is queued `priv->src` is what
`gst_element_make_from_uri` answered for the head's URI. -/
def SourceFollowsHead (g : GStreamer) (t : TagReaderPrivate) : Prop :=
  match t.queue with
  | [] => ∀ u, t.src ≠ .attached u
  | d :: _ => t.src = gst_element_make_from_uri g d.uri

/-- The invariant `SourceFollowsHead` can be computed. -/
instance (g : GStreamer) (t : TagReaderPrivate) : Decidable (SourceFollowsHead g t) :=
  match hq : t.queue, hs : t.src with
  | [], .attached u => isFalse (by simp [SourceFollowsHead, hq, hs])
  | [], .null => isTrue (by simp [SourceFollowsHead, hq, hs])
  | [], .released => isTrue (by simp [SourceFollowsHead, hq, hs])
  | d :: _, src =>
      if h : src = gst_element_make_from_uri g d.uri then
        isTrue (by simp [SourceFollowsHead, hq, hs, h])
      else isFalse (by simp [SourceFollowsHead, hq, hs, h])

/-- The events by which a job completes without an error: end of stream, or
the handoff of the first buffer. -/
def Op.completes : Op → Bool
  | .eos => true
  | .handoff _ => true
  | _ => false

/-- The URI and the error of every `uri-scanned` notification of a trace. -/
def outcomes (tr : List Effect) : List (String × Option GError) :=
  (notifications tr).map (fun n => (n.1, n.2.1))

/-- A media framework that has a source element for every URI. -/
def all_uris : GStreamer := { has_source := fun _ => true }

/-- A media framework that has a source element for `file` URIs only. -/
def file_uris_only : GStreamer :=
  { has_source := fun uri => "file://".toList.isPrefixOf uri.toList }

/-- An error the media framework may report. -/
def decode_error : GError := { domain := "gst-stream-error", code := 7, message := "decode" }

/-- Three submits, with the first job completed and the second failed in
between. -/
def three_submits_two_done : List Op :=
  [.scan_uri "a" 94355207492144, .scan_uri "b" 94355207492176, .eos,
   .scan_uri "c" 94355207492208, .error decode_error]

/-- Seven jobs submitted and completed one after the other; the reader is idle
afterwards and the next id is 8. -/
def seven_jobs_done : List Op :=
  (List.replicate 7 [Op.scan_uri "w" 4294967304, Op.eos]).flatten

/-- A reader whose head job sits at an address with low 32 bits equal to its
id, with a partial tag list read. -/
def head_at_matching_address : TagReaderPrivate :=
  { src := .attached "a"
    queue := [{ addr := 4294967304, uri := "a", id := 8 }]
    next_id := 9
    current_error := none
    current_tag_list := some [("title", .string "x")]
    pipeline_state := .PLAYING
    trace := [] }

/-- A live job with a title read and a job queued behind it. -/
def live_a_with_title : TagReaderPrivate :=
  { src := .attached "a"
    queue := [{ addr := 94355207492144, uri := "a", id := 1 },
              { addr := 94355207492176, uri := "b", id := 2 }]
    next_id := 3
    current_error := none
    current_tag_list := some [("title", .string "x")]
    pipeline_state := .PLAYING
    trace := [] }

/-- The scan ids that the calls of `tag_reader_scan_uri` in a run return, in
call order. -/
def returned_ids (g : GStreamer) (t : TagReaderPrivate) : List Op → List Nat
  | [] => []
  | .scan_uri uri addr :: rest =>
      (tag_reader_scan_uri g t (some uri) addr).2 ::
        returned_ids g (tag_reader_scan_uri g t (some uri) addr).1 rest
  | op :: rest =>
      match step g t op with
      | .ok t1 => returned_ids g t1 rest
      | .error _ => []

/-- A batch of `n` jobs, each submitted and then completed by end of stream
before the next is submitted. -/
def jobs_in_turn (n : Nat) : List Op :=
  (List.replicate n [Op.scan_uri "a" 94355207492144, Op.eos]).flatten

/-- The value that the last event containing `name` gives it, in a sequence
of tag events listed in arrival order. -/
def last_value : List GstTagList → String → Option GValue
  | [], _ => none
  | e :: rest, name =>
      match last_value rest name with
      | some v => some v
      | none => gst_tag_list_lookup e name

/-- The reader after a sequence of tag events. -/
def tag_events (t : TagReaderPrivate) (es : List GstTagList) : TagReaderPrivate :=
  es.foldl bus_message_tag_cb t

/-- A job that has just been fed. -/
def fresh_live_a : TagReaderPrivate :=
  { src := .attached "a"
    queue := [{ addr := 94355207492144, uri := "a", id := 1 }]
    next_id := 2
    current_error := none
    current_tag_list := none
    pipeline_state := .PLAYING
    trace := [] }

/-- Three tag events for one job: the title is overwritten by the third
event, the artist of the second event stays. -/
def three_tag_events : List GstTagList :=
  [[("title", .string "x")], [("artist", .string "y")],
   [("title", .string "z"), ("bitrate", .uint 128)]]

end TagReader

/-! # The playback controller (`audio-player.c`)

The player owns one `playbin` element.  The element is outside the
repository; it is modelled by the contract the player relies on.

* The element has a current state and a pending state; the pending state is
  `VOID_PENDING` when no transition is in flight.  `gst_element_get_state`
  with a zero timeout reads both.
* `gst_element_set_state` requests a target state.  The request either
  completes within the call (the current state becomes the target and nothing
  is pending) or stays in flight (the target becomes the pending state).  Which
  of the two happens is the element's choice and is passed in as a
  `StateChange`.  A refused state change is outside the contract.
* Queries are answered by the element; the answer is passed in, `none` when
  the query fails.
* A `double` is a rational number, an infinity or a NaN; the player only
  compares it with `0.0` and `4.0` and stores it.
* `int` is a 32-bit and `gint64` a 64-bit two's complement integer.
-/

/-- The number of nanoseconds in a second, `GST_SECOND`. -/
def GST_SECOND : Int := 1000000000

/-- Conversion of an integer to `int`: reduction to 32-bit two's complement. -/
def to_gint (n : Int) : Int := (n + 2 ^ 31) % 2 ^ 32 - 2 ^ 31

/-- Conversion of an integer to `gint64`. -/
def to_gint64 (n : Int) : Int := (n + 2 ^ 63) % 2 ^ 64 - 2 ^ 63

/-- A value of type `double`. -/
inductive GDouble where
  | finite (q : ℚ)
  | inf
  | neg_inf
  | nan
deriving DecidableEq

/-- The comparison `a <= b` on `double`; false when either side is a NaN. -/
def GDouble.le : GDouble → GDouble → Bool
  | .nan, _ => false
  | _, .nan => false
  | .neg_inf, _ => true
  | _, .inf => true
  | .finite a, .finite b => decide (a ≤ b)
  | _, _ => false

/-- The comparison `a >= b` on `double`. -/
def GDouble.ge (a b : GDouble) : Bool := GDouble.le b a

/-- Formats of a query or a duration message. -/
inductive GstFormat where
  | UNDEFINED
  | DEFAULT
  | BYTES
  | TIME
  | BUFFERS
  | PERCENT
deriving DecidableEq, Repr

/-- GLib's `g_str_has_prefix`; it answers `FALSE` for a `NULL` string. -/
def g_str_has_prefix (str : Option String) (pre : String) : Bool :=
  match str with
  | none => false
  | some s => pre.toList.isPrefixOf s.toList

namespace AudioPlayer

/-- The constant `GST_VOL_DEFAULT`. -/
def GST_VOL_DEFAULT : GDouble := .finite 1

/-- The constant `GST_VOL_MAX`. -/
def GST_VOL_MAX : GDouble := .finite 4

/-- The playbin element as the player sees it. -/
structure Playbin where
  /-- The current state. -/
  state : GstState
  /-- The pending state, `VOID_PENDING` when no transition is in flight. -/
  pending : GstState
  /-- The property `uri`. -/
  uri : Option String
  /-- The property `volume`. -/
  volume : GDouble
deriving DecidableEq

/-- How the element takes a state request: it completes it within the call,
or leaves it in flight while being in state `current`. -/
inductive StateChange where
  | done
  | in_flight (current : GstState)
deriving DecidableEq, Repr

/-- The element after `gst_element_set_state (playbin, target)`. -/
def gst_element_set_state (e : Playbin) (target : GstState) (how : StateChange) : Playbin :=
  match how with
  | .done => { e with state := target, pending := .VOID_PENDING }
  | .in_flight current => { e with state := current, pending := target }

/-- Observable actions of the player, in program order. -/
inductive Effect where
  /-- Call of `gst_element_set_state` on the playbin. -/
  | set_state (s : GstState)
  /-- Call of `g_object_set (playbin, "uri", uri, NULL)`. -/
  | set_uri (uri : Option String)
  /-- Call of `g_object_set (playbin, "volume", volume, NULL)`. -/
  | set_volume (volume : GDouble)
  /-- Call of `gst_element_seek` with rate 1.0, format time, the flush flag and
  seek type set; `cur` is the position argument in nanoseconds. -/
  | seek (cur : Int)
  /-- Call of `g_object_notify` for the named property. -/
  | notify (property : String)
  /-- Emission of the signal `error`. -/
  | error (e : GError)
  /-- Emission of the signal `eos`. -/
  | eos
  /-- Emission of the signal `tag-list-available`. -/
  | tag_list_available (tag_list : GstTagList)
  /-- Call of `g_timeout_add`, with the source id it returned. -/
  | timeout_add (id : Nat)
  /-- Call of `g_source_remove`. -/
  | source_remove (id : Nat)
  /-- A warning, `g_warning`. -/
  | warning (msg : String)
  /-- A failed `g_return_if_fail` precondition. -/
  | critical
deriving DecidableEq

/-- The struct `_AudioPlayerPrivate`, with the element it owns, the source id
counter of the GLib main context and the trace of actions. -/
structure AudioPlayerPrivate where
  playbin : Option Playbin
  uri : Option String
  can_seek : Bool
  buffer_percent : Int
  duration : Int
  tick_timeout_id : Nat
  /-- The last source id GLib handed out; ids count from 1. -/
  last_source_id : Nat
  trace : List Effect
deriving DecidableEq

/-- The player `audio_player_init` builds: the private struct is zero filled,
and `construct_pipeline` makes the playbin if the factory has one. -/
def audio_player_init (has_playbin : Bool) : AudioPlayerPrivate :=
  { playbin :=
      if has_playbin then
        some { state := .NULL, pending := .VOID_PENDING, uri := none, volume := GST_VOL_DEFAULT }
      else none
    uri := none
    can_seek := false
    buffer_percent := 0
    duration := 0
    tick_timeout_id := 0
    last_source_id := 0
    trace := if has_playbin then [] else [.warning "No playbin found. Playback will not work."] }

/-- The state the player stores before it changes the state of the element:
the pending state if there is one, else the current state. -/
def stored_state (e : Playbin) : GstState :=
  if e.pending ≠ .VOID_PENDING then e.pending else e.state

/-- An error occured. -/
def bus_message_error_cb (p : AudioPlayerPrivate) (error : GError) : AudioPlayerPrivate :=
  { p with trace := p.trace ++ [.error error] }

/-- End of stream reached. -/
def bus_message_eos_cb (p : AudioPlayerPrivate) : AudioPlayerPrivate :=
  { p with trace := p.trace ++ [.notify "position", .eos] }

/-- Tag list available. -/
def bus_message_tag_cb (p : AudioPlayerPrivate) (tag_list : GstTagList) : AudioPlayerPrivate :=
  { p with trace := p.trace ++ [.tag_list_available tag_list] }

/-- Buffering information available.  `str` is `none` when the message has no
structure; otherwise it holds the integer field `buffer-percent` of the
structure, `none` when there is no such field. -/
def bus_message_buffering_cb (p : AudioPlayerPrivate) (str : Option (Option Int)) :
    AudioPlayerPrivate :=
  match str with
  | none => p
  | some none => p
  | some (some percent) =>
      { p with buffer_percent := percent, trace := p.trace ++ [.notify "buffer-percent"] }

/-- Duration information available. -/
def bus_message_duration_cb (p : AudioPlayerPrivate) (format : GstFormat) (duration : Int) :
    AudioPlayerPrivate :=
  if format ≠ .TIME then p
  else
    { p with
      duration := to_gint (Int.tdiv duration GST_SECOND)
      trace := p.trace ++ [.notify "duration"] }

/-- A state change occured.  `src_is_playbin` says whether the message comes
from the playbin itself, `seeking` is the answer to the seeking query and
`duration` the answer to the duration query. -/
def bus_message_state_change_cb (p : AudioPlayerPrivate) (src_is_playbin : Bool)
    (old_state new_state : GstState) (seeking : Option Bool) (duration : Option Int) :
    AudioPlayerPrivate :=
  if !src_is_playbin then p
  else if old_state = .READY ∧ new_state = .PAUSED then
    let p1 : AudioPlayerPrivate :=
      match seeking with
      | some seekable => { p with can_seek := seekable, trace := p.trace ++ [.notify "can-seek"] }
      | none =>
          { p with
            can_seek := ! g_str_has_prefix p.uri "http://"
            trace := p.trace ++ (if p.uri.isNone then [.critical] else []) ++
              [.notify "can-seek"] }
    match duration with
    | some d =>
        { p1 with
          duration := to_gint (Int.tdiv d GST_SECOND)
          trace := p1.trace ++ [.notify "duration"] }
    | none => p1
  else p

/-- Called every `TICK_TIMEOUT` secs to notify of a position change. -/
def tick_timeout (p : AudioPlayerPrivate) : AudioPlayerPrivate :=
  { p with trace := p.trace ++ [.notify "position"] }

/-- Loads `uri`.  `to_null` and `restore` say how the element takes the two
state requests. -/
def audio_player_set_uri (p : AudioPlayerPrivate) (uri : Option String)
    (to_null restore : StateChange) : AudioPlayerPrivate :=
  match p.playbin with
  | none => p
  | some e =>
      let p1 : AudioPlayerPrivate :=
        match uri with
        | some u =>
            if p.tick_timeout_id = 0 then
              { p with
                uri := some u
                tick_timeout_id := p.last_source_id + 1
                last_source_id := p.last_source_id + 1
                trace := p.trace ++ [.timeout_add (p.last_source_id + 1)] }
            else { p with uri := some u }
        | none =>
            if p.tick_timeout_id > 0 then
              { p with
                uri := none
                tick_timeout_id := 0
                trace := p.trace ++ [.source_remove p.tick_timeout_id] }
            else { p with uri := none }
      let state := stored_state e
      let e1 := gst_element_set_state e .NULL to_null
      let e2 : Playbin := { e1 with uri := uri }
      let e3 := if uri.isSome then gst_element_set_state e2 state restore else e2
      { p1 with
        playbin := some e3
        can_seek := false
        duration := 0
        trace := p1.trace ++ [.set_state .NULL, .set_uri uri] ++
          (if uri.isSome then [.set_state state] else []) ++
          [.notify "uri", .notify "can-seek", .notify "duration", .notify "position"] }

/-- The loaded URI, or `none` if none set. -/
def audio_player_get_uri (p : AudioPlayerPrivate) : Option String := p.uri

/-- Sets the playback state of the player to `playing`. -/
def audio_player_set_playing (p : AudioPlayerPrivate) (playing : Bool) (how : StateChange) :
    AudioPlayerPrivate :=
  match p.playbin with
  | none => p
  | some e =>
      let p1 : AudioPlayerPrivate :=
        if p.uri.isSome then
          let state : GstState := if playing then .PLAYING else .PAUSED
          { p with
            playbin := some (gst_element_set_state e state how)
            trace := p.trace ++ [.set_state state] }
        else if playing then
          { p with trace := p.trace ++ [.warning "Tried to play, but no URI is loaded."] }
        else p
      { p1 with trace := p1.trace ++ [.notify "playing", .notify "position"] }

/-- Whether the player is playing. -/
def audio_player_get_playing (p : AudioPlayerPrivate) : Bool :=
  match p.playbin with
  | none => false
  | some e =>
      if e.pending ≠ .VOID_PENDING then decide (e.pending = .PLAYING)
      else decide (e.state = .PLAYING)

/-- Sets the position in the current stream to `position` seconds. -/
def audio_player_set_position (p : AudioPlayerPrivate) (position : Int)
    (to_paused restore : StateChange) : AudioPlayerPrivate :=
  match p.playbin with
  | none => p
  | some e =>
      let state := stored_state e
      let e1 := gst_element_set_state e .PAUSED to_paused
      let cur := to_gint64 (to_gint position * GST_SECOND)
      let e2 := gst_element_set_state e1 state restore
      { p with
        playbin := some e2
        trace := p.trace ++ [.set_state .PAUSED, .seek cur, .set_state state] }

/-- The position in the current file in seconds.  `query` is the answer of the
element to the position query, in nanoseconds. -/
def audio_player_get_position (p : AudioPlayerPrivate) (query : Option Int) : Int :=
  match p.playbin with
  | none => -1
  | some _ =>
      let position : Int :=
        match query with
        | some pos => pos
        | none => 0
      to_gint (Int.tdiv position GST_SECOND)

/-- Sets the current audio volume to `volume`. -/
def audio_player_set_volume (p : AudioPlayerPrivate) (volume : GDouble) : AudioPlayerPrivate :=
  if !(GDouble.ge volume (.finite 0) && GDouble.le volume GST_VOL_MAX) then
    { p with trace := p.trace ++ [.critical] }
  else
    match p.playbin with
    | none => p
    | some e =>
        { p with
          playbin := some { e with volume := volume }
          trace := p.trace ++ [.set_volume volume, .notify "volume"] }

/-- The current audio volume. -/
def audio_player_get_volume (p : AudioPlayerPrivate) : GDouble :=
  match p.playbin with
  | none => .finite 0
  | some e => e.volume

/-- Whether the current stream is seekable. -/
def audio_player_get_can_seek (p : AudioPlayerPrivate) : Bool := p.can_seek

/-- Percentage the current stream buffer is filled. -/
def audio_player_get_buffer_percent (p : AudioPlayerPrivate) : Int := p.buffer_percent

/-- The duration of the current stream in seconds. -/
def audio_player_get_duration (p : AudioPlayerPrivate) : Int := p.duration

/-- One thing that happens to a player: a public call, a message the bus
delivers, the tick, or the element moving on by itself. -/
inductive Op where
  /-- Call of `audio_player_set_uri`. -/
  | set_uri (uri : Option String) (to_null restore : StateChange)
  /-- Call of `audio_player_set_playing`. -/
  | set_playing (playing : Bool) (how : StateChange)
  /-- Call of `audio_player_set_position`. -/
  | set_position (position : Int) (to_paused restore : StateChange)
  /-- Call of `audio_player_set_volume`. -/
  | set_volume (volume : GDouble)
  /-- Error message on the bus. -/
  | error (e : GError)
  /-- End-of-stream message on the bus. -/
  | eos
  /-- Tag message on the bus. -/
  | tag (tag_list : GstTagList)
  /-- Buffering message on the bus. -/
  | buffering (str : Option (Option Int))
  /-- Duration message on the bus. -/
  | duration (format : GstFormat) (duration : Int)
  /-- State-changed message on the bus, with the answers to the two queries
  the handler may make. -/
  | state_changed (src_is_playbin : Bool) (old_state new_state : GstState)
      (seeking : Option Bool) (duration : Option Int)
  /-- The tick timeout fires. -/
  | tick
  /-- The element changes its current and pending state by itself, for
  instance when a transition in flight completes. -/
  | element_moves (state pending : GstState)
deriving DecidableEq

/-- Runs one operation.  The bus handlers are connected by
`construct_pipeline` only when the playbin was made, and the tick fires only
while its timeout is installed. -/
def step (p : AudioPlayerPrivate) : Op → AudioPlayerPrivate
  | .set_uri uri to_null restore => audio_player_set_uri p uri to_null restore
  | .set_playing playing how => audio_player_set_playing p playing how
  | .set_position position to_paused restore =>
      audio_player_set_position p position to_paused restore
  | .set_volume volume => audio_player_set_volume p volume
  | .error e => if p.playbin.isNone then p else bus_message_error_cb p e
  | .eos => if p.playbin.isNone then p else bus_message_eos_cb p
  | .tag tag_list => if p.playbin.isNone then p else bus_message_tag_cb p tag_list
  | .buffering str => if p.playbin.isNone then p else bus_message_buffering_cb p str
  | .duration format d => if p.playbin.isNone then p else bus_message_duration_cb p format d
  | .state_changed src_is_playbin old_state new_state seeking d =>
      if p.playbin.isNone then p
      else bus_message_state_change_cb p src_is_playbin old_state new_state seeking d
  | .tick => if p.tick_timeout_id = 0 then p else tick_timeout p
  | .element_moves state pending =>
      match p.playbin with
      | none => p
      | some e => { p with playbin := some { e with state := state, pending := pending } }

/-- Runs a sequence of operations. -/
def run (p : AudioPlayerPrivate) (ops : List Op) : AudioPlayerPrivate :=
  ops.foldl step p

/-- The state-changed messages that report the playbin going from ready to
paused. -/
def Op.reaches_paused : Op → Bool
  | .state_changed true .READY .PAUSED _ _ => true
  | _ => false

/-- The duration messages in time format. -/
def Op.time_duration : Op → Bool
  | .duration .TIME _ => true
  | _ => false

/-- The timeout sources that a trace installed and did not remove, in the
order of installation. -/
def live_sources (tr : List Effect) : List Nat :=
  tr.foldl
    (fun acc e =>
      match e with
      | .timeout_add id => acc ++ [id]
      | .source_remove id => acc.erase id
      | _ => acc)
    []

/-- The states a trace requested of the playbin, in call order. -/
def requested_states : List Effect → List GstState
  | [] => []
  | .set_state s :: rest => s :: requested_states rest
  | _ :: rest => requested_states rest

/-- The comparison `a < b` on `double`. -/
def double_lt (a b : GDouble) : Bool := GDouble.le a b && !GDouble.le b a

/-- What holds of every player that `audio_player_init` and the operations
produce: without a playbin nothing is loaded and the derived fields have their
initial values; the tick timeout is installed exactly when a URI is loaded, and
it is then the only timeout source the player has installed. -/
def Consistent (p : AudioPlayerPrivate) : Prop :=
  (p.playbin = none →
    p.uri = none ∧ p.can_seek = false ∧ p.duration = 0 ∧ p.buffer_percent = 0) ∧
  (p.tick_timeout_id ≠ 0 ↔ p.uri.isSome = true) ∧
  live_sources p.trace = (if p.uri.isSome then [p.tick_timeout_id] else [])

/-- The predicate `Consistent` can be computed. -/
instance (p : AudioPlayerPrivate) : Decidable (Consistent p) := by
  unfold Consistent; exact inferInstance

/-- A player that is playing a loaded stream. -/
def playing_a : AudioPlayerPrivate :=
  { playbin := some { state := .PLAYING, pending := .VOID_PENDING,
                      uri := some "file:///a.ogg", volume := .finite 1 }
    uri := some "file:///a.ogg"
    can_seek := true
    buffer_percent := 0
    duration := 200
    tick_timeout_id := 1
    last_source_id := 1
    trace := [] }

/-- A player whose element is on its way to playing after a load. -/
def starting_a : AudioPlayerPrivate :=
  { playbin := some { state := .READY, pending := .PLAYING,
                      uri := some "file:///a.ogg", volume := .finite 1 }
    uri := some "file:///a.ogg"
    can_seek := false
    buffer_percent := 0
    duration := 0
    tick_timeout_id := 1
    last_source_id := 1
    trace := [] }

/-- A player with a playbin and nothing loaded. -/
def idle_player : AudioPlayerPrivate := audio_player_init true

/-- A player whose playbin could not be made. -/
def player_without_playbin : AudioPlayerPrivate := audio_player_init false

end AudioPlayer

/-! # The tag reader: jobs with accumulators of their own, and handlers that
submit -/

namespace TagReader

/-- A scan job as the data model describes it: every job has its own
accumulated tags and its own error. -/
structure ScanJob where
  uri : String
  accumulated_tags : Option GstTagList
  error : Option GError
deriving DecidableEq, Repr

/-- The scan engine of the data model: the queue of jobs and the results
delivered so far. -/
structure ScanEngine where
  queue : List ScanJob
  delivered : List (String × Option GError × Option GstTagList)
deriving DecidableEq, Repr

/-- The idle scan engine. -/
def ScanEngine.idle : ScanEngine := { queue := [], delivered := [] }

/-- Delivers the head job with the given error and tags, and pops it. -/
def ScanEngine.deliver (s : ScanEngine) (error : Option GError)
    (tags : Option GstTagList → Option GstTagList) : ScanEngine :=
  match s.queue with
  | [] => s
  | j :: rest =>
      { queue := rest, delivered := s.delivered ++ [(j.uri, error, tags j.accumulated_tags)] }

/-- One operation on the scan engine of the data model.  Tag data go to the
head job only; a job-terminating event delivers the head job with its own
accumulated tags and with the error of that event, if it has one. -/
def ScanEngine.step (s : ScanEngine) : Op → ScanEngine
  | .scan_uri uri _ =>
      { s with queue := s.queue ++ [{ uri := uri, accumulated_tags := none, error := none }] }
  | .tag tags =>
      match s.queue with
      | [] => s
      | j :: rest =>
          { s with
            queue := { j with accumulated_tags :=
              gst_tag_list_merge j.accumulated_tags (some tags) } :: rest }
  | .error e => s.deliver (some e) id
  | .unknown_type => s.deliver (some unknown_type_error) id
  | .eos => s.deliver none id
  | .handoff none => s.deliver none id
  | .handoff (some d) =>
      s.deliver none (fun tags => some (gst_tag_list_add (tags.getD []) GST_TAG_DURATION (.int64 d)))
  | .cancel _ => s

/-- A sequence of operations on the scan engine of the data model. -/
def ScanEngine.run (s : ScanEngine) (ops : List Op) : ScanEngine :=
  ops.foldl ScanEngine.step s

/-- A sequence of submits, tag events and job-terminating events in which
every tag event and every job-terminating event arrives while a job is
queued, given that `n` jobs are queued at its start.  It contains no
cancellation. -/
def events_while_live : Nat → List Op → Bool
  | _, [] => true
  | n, .scan_uri _ _ :: rest => events_while_live (n + 1) rest
  | _, .cancel _ :: _ => false
  | 0, _ :: _ => false
  | n + 1, .tag _ :: rest => events_while_live (n + 1) rest
  | n + 1, _ :: rest => events_while_live n rest

/-- The reader and the scan engine of the data model agree: same URIs queued,
same results delivered, the accumulators of the reader are those of the head
job, no error is recorded between events, and every job behind the head has
empty accumulators. -/
def Agrees (g : GStreamer) (t : TagReaderPrivate) (s : ScanEngine) : Prop :=
  t.queue.map (fun d => d.uri) = s.queue.map (fun j => j.uri) ∧
  notifications t.trace = s.delivered ∧
  SourceFollowsHead g t ∧
  t.current_error = none ∧
  (∀ j ∈ s.queue, j.error = none) ∧
  (∀ j ∈ s.queue.tail, j.accumulated_tags = none) ∧
  t.current_tag_list = (s.queue.head?.bind (fun j => j.accumulated_tags))

/-- The error that a job-terminating event brings with it. -/
def Op.delivered_error : Op → Option GError
  | .error e => some e
  | .unknown_type => some unknown_type_error
  | _ => none

/-- What a job-terminating event does to the accumulated tags before they are
delivered: a handoff whose duration query succeeds adds the duration. -/
def Op.delivered_tags : Op → Option GstTagList → Option GstTagList
  | .handoff (some d) =>
      fun tags => some (gst_tag_list_add (tags.getD []) GST_TAG_DURATION (.int64 d))
  | _ => id

/-- The error that the notification of a job carries when the job ends by the
given operation: the error of the event, or else the error recorded so far. -/
def Op.notified_error (op : Op) (recorded : Option GError) : Option GError :=
  match op with
  | .error e => some e
  | .unknown_type => some unknown_type_error
  | _ => recorded

/-- The answer to the duration query, for a handoff whose query succeeds. -/
def Op.queried_duration : Op → Option Int
  | .handoff (some d) => some d
  | _ => none

/-- Two jobs: the first collects a title and fails, the second collects an
artist and completes. -/
def two_jobs_with_tags : List Op :=
  [.scan_uri "a" 94355207492144, .scan_uri "b" 94355207492176,
   .tag [("title", .string "x")], .error decode_error,
   .tag [("artist", .string "y")], .eos]

/-- The predicate `Agrees` can be computed. -/
instance (g : GStreamer) (t : TagReaderPrivate) (s : ScanEngine) : Decidable (Agrees g t s) := by
  unfold Agrees; exact inferInstance

/-- Purge the head of the queue, with a handler of `uri-scanned` that calls
`tag_reader_scan_uri` once for every entry of `calls` (a URI and the address
of the allocation) while the signal is emitted. -/
def flush_head_reentrant (g : GStreamer) (t : TagReaderPrivate)
    (calls : List (String × Nat)) : Result :=
  let stopped : TagReaderPrivate :=
    { t with pipeline_state := .NULL, trace := t.trace ++ [.set_state .NULL] }
  let removed : Except Fault TagReaderPrivate :=
    match stopped.src with
    | .attached u =>
        .ok { stopped with src := .released,
                           trace := stopped.trace ++ [.unlink u, .bin_remove u] }
    | .null => .ok { stopped with trace := stopped.trace ++ [.critical, .critical] }
    | .released => .error .use_after_free
  match removed with
  | .error f => .error f
  | .ok r =>
      match r.queue with
      | [] => .error .null_deref
      | data :: rest =>
          let emitted : TagReaderPrivate :=
            { r with
              queue := rest
              trace := r.trace ++ [.uri_scanned data.uri r.current_error r.current_tag_list] }
          let handled : TagReaderPrivate :=
            calls.foldl (fun acc c => (tag_reader_scan_uri g acc (some c.1) c.2).1) emitted
          .ok { handled with current_error := none, current_tag_list := none }

/-- End of stream reached, with a handler of `uri-scanned` that submits. -/
def bus_message_eos_cb_reentrant (g : GStreamer) (t : TagReaderPrivate)
    (calls : List (String × Nat)) :
    Result :=
  (flush_head_reentrant g t calls).map (feed_head g)

/-- The sources a trace made for the URI `uri`. -/
def sources_made (tr : List Effect) (uri : String) : Nat :=
  tr.count (.make_from_uri uri)

end TagReader

namespace AudioPlayer

/-- The calls of `audio_player_set_uri` that load a URI. -/
def Op.loads : Op → Bool
  | .set_uri (some _) _ _ => true
  | _ => false

/-- A player that is paused on a network stream whose query for seeking
failed. -/
def paused_on_http : AudioPlayerPrivate :=
  { playbin := some { state := .PAUSED, pending := .VOID_PENDING,
                      uri := some "http://radio/stream", volume := .finite 1 }
    uri := some "http://radio/stream"
    can_seek := false
    buffer_percent := 100
    duration := 0
    tick_timeout_id := 1
    last_source_id := 1
    trace := [] }

end AudioPlayer

/-! # The playlist parser (`playlist-parser.c`)

A `char *` is the list of its characters before the terminator.  The line that
`g_io_channel_read_line` returns is a buffer that `parse_m3u` writes into, so
it is a list of characters that may hold the character NUL; `c_str` gives the
string that the C library sees in such a buffer.  GLib is a parameter of the
parser: its path and URI functions and the files it can open. -/

namespace PlaylistParser

/-- The quark `PLAYLIST_PARSER_ERROR`. -/
def PLAYLIST_PARSER_ERROR : String := "playlist-parser-error"

/-- First value of the enum `PlaylistParserError`. -/
def PLAYLIST_PARSER_ERROR_UNKNOWN_TYPE : Nat := 0

/-- Second value of the enum `PlaylistParserError`. -/
def PLAYLIST_PARSER_ERROR_UNSUPPORTED_SCHEME : Nat := 1

/-- The signals of a playlist parser, in the order of `g_signal_emit`. -/
inductive Signal where
  /-- Signal `playlist-start`. -/
  | playlist_start
  /-- Signal `playlist-end`. -/
  | playlist_end
  /-- Signal `entry` with its URI. -/
  | entry (uri : String)
deriving DecidableEq, Repr

/-- The functions of GLib that the parser calls.  A channel is the list of the
lines that `g_io_channel_read_line` returns with status normal, each with its
line terminator. -/
structure GLib where
  /-- The URI of an absolute path, `none` for `NULL`. -/
  g_filename_to_uri : String → Option String
  /-- The path of a file URI, or the error set. -/
  g_filename_from_uri : String → Except GError String
  /-- Whether a path is absolute. -/
  g_path_is_absolute : String → Bool
  /-- The call `g_build_filename (first, second, NULL)`. -/
  g_build_filename : String → String → String
  /-- The directory part of a path. -/
  g_path_get_dirname : String → String
  /-- Opens a file for reading, or sets an error. -/
  g_io_channel_new_file : String → Except GError (List (List Char))

/-- The string the C library sees in a buffer: the characters before the first
NUL. -/
def c_str (buf : List Char) : String :=
  String.mk (buf.takeWhile (fun c => c ≠ '\x00'))

/-- The character a `char *` points at; the terminator at the end. -/
def cur (s : List Char) : Int :=
  match s with
  | [] => 0
  | c :: _ => c.toNat

/-- The C function `strrchr`, for a character that is not NUL: the string from
the last occurrence of `c`, `none` for `NULL`. -/
def strrchr (s : List Char) (c : Char) : Option (List Char) :=
  match s with
  | [] => none
  | x :: rest =>
      match strrchr rest c with
      | some r => some r
      | none => if x = c then some (x :: rest) else none

/-- The C function `strstr`: the string from the first occurrence of `needle`,
`none` for `NULL`. -/
def strstr (haystack needle : List Char) : Option (List Char) :=
  match haystack with
  | [] => if needle.isEmpty then some [] else none
  | c :: rest =>
      if needle.isPrefixOf (c :: rest) then some (c :: rest) else strstr rest needle

/-- The GLib function `g_ascii_tolower`. -/
def g_ascii_tolower (c : Char) : Char :=
  if 'A' ≤ c ∧ c ≤ 'Z' then Char.ofNat (c.toNat - 'A'.toNat + 'a'.toNat) else c

/-- The GLib function `g_ascii_strcasecmp`. -/
def g_ascii_strcasecmp (s1 s2 : List Char) : Int :=
  match s1, s2 with
  | x :: r1, y :: r2 =>
      let c1 : Int := (g_ascii_tolower x).toNat
      let c2 : Int := (g_ascii_tolower y).toNat
      if c1 ≠ c2 then c1 - c2 else g_ascii_strcasecmp r1 r2
  | [], s2 => cur [] - cur s2
  | s1, [] => cur s1 - cur []

/-- The GLib function `g_ascii_strncasecmp`. -/
def g_ascii_strncasecmp (s1 s2 : List Char) (n : Nat) : Int :=
  match n, s1, s2 with
  | 0, _, _ => 0
  | n + 1, x :: r1, y :: r2 =>
      let c1 : Int := (g_ascii_tolower x).toNat
      let c2 : Int := (g_ascii_tolower y).toNat
      if c1 ≠ c2 then c1 - c2 else g_ascii_strncasecmp r1 r2 n
  | _ + 1, [], s2 => cur [] - cur s2
  | _ + 1, s1, [] => cur s1 - cur []

/-- Emit the signal `entry` for `path` after converting it to an URI. -/
def got_absolute_path (g : GLib) (path : String) : List Signal :=
  match g.g_filename_to_uri path with
  | none => []
  | some uri => [.entry uri]

/-- The loop of `parse_m3u` that de-DOSes a line in place.  It stops at the
terminator of the line, and goes on after a NUL it has written. -/
def de_dos (line : List Char) : List Char :=
  match line with
  | [] => []
  | c :: rest =>
      if c = '\x00' then c :: rest
      else
        (if c = '\\' then '/' else if c = '\r' then '\x00' else if c = '\n' then '\x00' else c)
          :: de_dos rest

/-- The body of the loop of `parse_m3u`: the signals one line gives. -/
def parse_line (g : GLib) (dirname : String) (line : List Char) : List Signal :=
  if line.head? = some '#' then []
  else
    let l := c_str (de_dos line)
    if (strstr l.toList "://".toList).isSome then [.entry l]
    else if g.g_path_is_absolute l then got_absolute_path g l
    else got_absolute_path g (g.g_build_filename dirname l)

/-- The loop of `parse_m3u` over the lines of the channel. -/
def parse_lines (g : GLib) (dirname : String) (channel : List (List Char)) : List Signal :=
  match channel with
  | [] => []
  | line :: rest => parse_line g dirname line ++ parse_lines g dirname rest

/-- Parse the contents of `channel` as M3U. -/
def parse_m3u (g : GLib) (channel : List (List Char)) (dirname : String) : List Signal :=
  [.playlist_start] ++ parse_lines g dirname channel ++ [.playlist_end]

/-- What a call of `playlist_parser_parse` gives: the value returned, the error
set, the signals emitted, and whether a precondition failed. -/
structure Outcome where
  ret : Bool
  error : Option GError
  signals : List Signal
  critical : Bool
deriving DecidableEq, Repr

/-- Parse `uri`; `none` is `NULL`. -/
def playlist_parser_parse (g : GLib) (uri : Option String) : Outcome :=
  match uri with
  | none => { ret := false, error := none, signals := [], critical := true }
  | some uri =>
      let not_m3u : Bool :=
        match strrchr uri.toList '.' with
        | none => true
        | some ext => g_ascii_strcasecmp ext ".m3u".toList != 0
      if not_m3u then
        { ret := false
          error := some
            { domain := PLAYLIST_PARSER_ERROR
              code := PLAYLIST_PARSER_ERROR_UNKNOWN_TYPE
              message := "Unknown type" }
          signals := []
          critical := false }
      else if g_ascii_strncasecmp uri.toList "file:".toList 5 != 0 then
        { ret := false
          error := some
            { domain := PLAYLIST_PARSER_ERROR
              code := PLAYLIST_PARSER_ERROR_UNSUPPORTED_SCHEME
              message := "Unsupported scheme in URI \x27" ++ uri ++ "\x27" }
          signals := []
          critical := false }
      else
        match g.g_filename_from_uri uri with
        | .error e => { ret := false, error := some e, signals := [], critical := false }
        | .ok filename =>
            match g.g_io_channel_new_file filename with
            | .error e => { ret := false, error := some e, signals := [], critical := false }
            | .ok channel =>
                { ret := true
                  error := none
                  signals := parse_m3u g channel (g.g_path_get_dirname filename)
                  critical := false }

/-- What the text of a playlist says a line gives: nothing for a comment; else
the line is cut at its first CR or LF, its backslashes become slashes, and it
is taken as a URI, as an absolute path or as a path relative to the directory
of the playlist. -/
def line_entry (g : GLib) (dirname : String) (line : List Char) : Option String :=
  if line.head? = some '#' then none
  else
    let cut := line.takeWhile (fun c => c ≠ '\r' ∧ c ≠ '\n')
    let l := String.mk (cut.map (fun c => if c = '\\' then '/' else c))
    if "://".toList <:+: l.toList then some l
    else if g.g_path_is_absolute l then g.g_filename_to_uri l
    else g.g_filename_to_uri (g.g_build_filename dirname l)

/-- A GLib for examples: Unix paths of unreserved characters, and one playlist
on disk, `/music/list.m3u`. -/
def example_glib : GLib :=
  { g_filename_to_uri := fun path =>
      if path.toList.head? = some '/' then some ("file://" ++ path) else none
    g_filename_from_uri := fun uri =>
      if "file:///".toList.isPrefixOf uri.toList then .ok (String.mk (uri.toList.drop 7))
      else .error { domain := "g-convert-error", code := 4, message := "Not an absolute file URI" }
    g_path_is_absolute := fun path => path.toList.head? = some '/'
    g_build_filename := fun first second =>
      if second = "" then first else first ++ "/" ++ second
    g_path_get_dirname := fun path =>
      String.mk (path.toList.take
        (path.toList.length - ((strrchr path.toList '/').getD []).length))
    g_io_channel_new_file := fun filename =>
      if filename = "/music/list.m3u" then
        .ok ["#EXTM3U\r\n".toList, "one.ogg\r\n".toList, "\r\n".toList,
             "C:\\albums\\two.ogg\r\n".toList, "/srv/three.ogg\n".toList,
             "http://radio/stream\n".toList]
      else .error { domain := "g-file-error", code := 4, message := "No such file or directory" } }

end PlaylistParser

/-! # Theorems about the tag reader -/

namespace TagReader

/-! ## Basic facts about the handlers -/

theorem notifications_append (a b : List Effect) :
    notifications (a ++ b) = notifications a ++ notifications b := by
  induction a with
  | nil => rfl
  | cons e rest ih => cases e <;> simp [notifications, ih]

theorem scanned_uris_append (a b : List Effect) :
    scanned_uris (a ++ b) = scanned_uris a ++ scanned_uris b := by
  simp [scanned_uris, notifications_append]

/-- With a source attached and a job queued, `flush_head` succeeds and its
result is explicit. -/
theorem flush_head_attached (t : TagReaderPrivate) (u : String) (d : ScanUriData)
    (rest : List ScanUriData) (hs : t.src = .attached u) (hq : t.queue = d :: rest) :
    flush_head t = .ok
      { t with
        src := .released
        queue := rest
        current_error := none
        current_tag_list := none
        pipeline_state := .NULL
        trace := t.trace ++ [.set_state .NULL, .unlink u, .bin_remove u,
                             .uri_scanned d.uri t.current_error t.current_tag_list] } := by
  simp [flush_head, hs, hq]

/-- The flush followed by the feed, as every job-terminating handler runs it. -/
theorem flush_feed_attached (g : GStreamer) (t : TagReaderPrivate) (u : String) (d : ScanUriData)
    (rest : List ScanUriData) (hs : t.src = .attached u) (hq : t.queue = d :: rest) :
    (flush_head t).map (feed_head g) = .ok (feed_head g
      { t with
        src := .released
        queue := rest
        current_error := none
        current_tag_list := none
        pipeline_state := .NULL
        trace := t.trace ++ [.set_state .NULL, .unlink u, .bin_remove u,
                             .uri_scanned d.uri t.current_error t.current_tag_list] }) := by
  rw [flush_head_attached t u d rest hs hq]; rfl

theorem feed_head_queue (g : GStreamer) (t : TagReaderPrivate) :
    (feed_head g t).queue = t.queue := by
  unfold feed_head
  split
  · rfl
  · split <;> simp_all

theorem feed_head_notifications (g : GStreamer) (t : TagReaderPrivate) :
    notifications (feed_head g t).trace = notifications t.trace := by
  unfold feed_head
  split
  · rfl
  · split <;> simp [notifications_append, notifications]

theorem feed_head_scanned (g : GStreamer) (t : TagReaderPrivate) :
    scanned_uris (feed_head g t).trace = scanned_uris t.trace := by
  simp [scanned_uris, feed_head_notifications]

theorem feed_head_follows (g : GStreamer) (t : TagReaderPrivate)
    (h : ∀ u, t.src ≠ .attached u) :
    SourceFollowsHead g (feed_head g t) := by
  cases hq : t.queue with
  | nil => simpa [feed_head, SourceFollowsHead, hq] using h
  | cons d rest =>
      by_cases hg : g.has_source d.uri = true <;>
        simp [feed_head, SourceFollowsHead, gst_element_make_from_uri, hq, hg]

/-- The pointer that `gst_element_make_from_uri` returns is never stale. -/
theorem make_from_uri_ne_released (g : GStreamer) (uri : String) :
    gst_element_make_from_uri g uri ≠ .released := by
  unfold gst_element_make_from_uri
  split <;> simp

/-- With a `NULL` source pointer and a job queued, `flush_head` succeeds: the
framework refuses the two calls on the source, and the head is popped all the
same. -/
theorem flush_head_null (t : TagReaderPrivate) (d : ScanUriData)
    (rest : List ScanUriData) (hs : t.src = .null) (hq : t.queue = d :: rest) :
    flush_head t = .ok
      { t with
        queue := rest
        current_error := none
        current_tag_list := none
        pipeline_state := .NULL
        trace := t.trace ++ [.set_state .NULL, .critical, .critical,
                             .uri_scanned d.uri t.current_error t.current_tag_list] } := by
  simp [flush_head, hs, hq]

/-- With a job queued and a source pointer that is not stale, `flush_head`
succeeds: the head is popped and notified with the recorded error and tags,
the accumulators are cleared and no source stays attached. -/
theorem flush_head_live (t : TagReaderPrivate) (d : ScanUriData) (rest : List ScanUriData)
    (hq : t.queue = d :: rest) (hs : t.src ≠ .released) :
    ∃ t1, flush_head t = .ok t1 ∧ t1.queue = rest ∧ t1.next_id = t.next_id ∧
      t1.current_error = none ∧ t1.current_tag_list = none ∧
      (∀ u, t1.src ≠ .attached u) ∧
      notifications t1.trace =
        notifications t.trace ++ [(d.uri, t.current_error, t.current_tag_list)] := by
  cases hsrc : t.src with
  | released => exact absurd hsrc hs
  | null =>
      refine ⟨_, flush_head_null t d rest hsrc hq, rfl, rfl, rfl, rfl, ?_, ?_⟩
      · intro u; simp [hsrc]
      · simp [notifications_append, notifications]
  | attached u =>
      refine ⟨_, flush_head_attached t u d rest hsrc hq, rfl, rfl, rfl, rfl, ?_, ?_⟩
      · intro u; simp
      · simp [notifications_append, notifications]

/-- The flush followed by the feed on a queue whose head's source pointer is
not stale: one notification for the head, and the source follows the new
head. -/
theorem flush_feed_live (g : GStreamer) (t : TagReaderPrivate) (d : ScanUriData)
    (rest : List ScanUriData) (hq : t.queue = d :: rest) (hs : t.src ≠ .released) :
    ∃ t1, (flush_head t).map (feed_head g) = .ok t1 ∧ t1.queue = rest ∧
      t1.next_id = t.next_id ∧ t1.current_error = none ∧ t1.current_tag_list = none ∧
      notifications t1.trace =
        notifications t.trace ++ [(d.uri, t.current_error, t.current_tag_list)] ∧
      SourceFollowsHead g t1 := by
  obtain ⟨t1, h1, hq1, hid1, he1, hc1, hs1, hn1⟩ := flush_head_live t d rest hq hs
  refine ⟨feed_head g t1, by rw [h1]; rfl, ?_, ?_, ?_, ?_, ?_, feed_head_follows g t1 hs1⟩
  · rw [feed_head_queue, hq1]
  · unfold feed_head
    split
    · exact hid1
    · split <;> exact hid1
  · unfold feed_head
    split
    · exact he1
    · split <;> exact he1
  · unfold feed_head
    split
    · exact hc1
    · split <;> exact hc1
  · rw [feed_head_notifications, hn1]

/-- A handoff message from the sink whose duration query fails flushes and
feeds without touching the tag list. -/
theorem application_cb_handoff_none (g : GStreamer) (t : TagReaderPrivate) :
    bus_message_application_cb g t true "handoff" none = (flush_head t).map (feed_head g) := by
  simp [bus_message_application_cb]

/-- A handoff message from the sink whose duration query answers `d` adds the
duration tag, then flushes and feeds. -/
theorem application_cb_handoff_some (g : GStreamer) (t : TagReaderPrivate) (d : Int) :
    bus_message_application_cb g t true "handoff" (some d) =
      (flush_head (merge_duration t d)).map (feed_head g) := by
  simp [bus_message_application_cb]

/-- A job-terminating event on a state whose source follows a non-empty queue
succeeds, pops the head, notifies its URI and keeps the source following. -/
theorem step_terminates (g : GStreamer) (t : TagReaderPrivate) (op : Op) (d : ScanUriData)
    (rest : List ScanUriData) (hop : op.terminates = true) (hq : t.queue = d :: rest)
    (hinv : SourceFollowsHead g t) :
    ∃ t1, step g t op = .ok t1 ∧ t1.queue = rest ∧
      scanned_uris t1.trace = scanned_uris t.trace ++ [d.uri] ∧ SourceFollowsHead g t1 := by
  have hs : t.src ≠ .released := by
    have hsrc : t.src = gst_element_make_from_uri g d.uri := by
      simpa [SourceFollowsHead, hq] using hinv
    rw [hsrc]; exact make_from_uri_ne_released g d.uri
  cases op with
  | scan_uri uri addr => simp [Op.terminates] at hop
  | tag tags => simp [Op.terminates] at hop
  | cancel scan_id => simp [Op.terminates] at hop
  | error e =>
      obtain ⟨t1, h1, hq1, _, _, _, hn1, hinv1⟩ :=
        flush_feed_live g { t with current_error := some e } d rest hq hs
      exact ⟨t1, h1, hq1, by simp [scanned_uris, hn1], hinv1⟩
  | eos =>
      obtain ⟨t1, h1, hq1, _, _, _, hn1, hinv1⟩ := flush_feed_live g t d rest hq hs
      exact ⟨t1, h1, hq1, by simp [scanned_uris, hn1], hinv1⟩
  | unknown_type =>
      obtain ⟨t1, h1, hq1, _, _, _, hn1, hinv1⟩ :=
        flush_feed_live g { t with current_error := some unknown_type_error } d rest hq hs
      exact ⟨t1, h1, hq1, by simp [scanned_uris, hn1], hinv1⟩
  | handoff dur =>
      cases dur with
      | none =>
          obtain ⟨t1, h1, hq1, _, _, _, hn1, hinv1⟩ := flush_feed_live g t d rest hq hs
          exact ⟨t1, (application_cb_handoff_none g t).trans h1, hq1,
            by simp [scanned_uris, hn1], hinv1⟩
      | some n =>
          obtain ⟨t1, h1, hq1, _, _, _, hn1, hinv1⟩ :=
            flush_feed_live g (merge_duration t n) d rest hq hs
          exact ⟨t1, (application_cb_handoff_some g t n).trans h1, hq1,
            by simp [scanned_uris, hn1, merge_duration], hinv1⟩

/-- A submit appends the job, notifies nothing and keeps the source following
the head. -/
theorem step_scan_uri (g : GStreamer) (t : TagReaderPrivate) (uri : String) (addr : Nat)
    (hinv : SourceFollowsHead g t) :
    ∃ t1, step g t (.scan_uri uri addr) = .ok t1 ∧
      t1.queue = t.queue ++ [{ addr := addr, uri := uri, id := t.next_id }] ∧
      scanned_uris t1.trace = scanned_uris t.trace ∧ SourceFollowsHead g t1 := by
  refine ⟨_, rfl, ?_, ?_, ?_⟩
  · simp only [tag_reader_scan_uri]
    split <;> simp [feed_head_queue]
  · simp only [tag_reader_scan_uri]
    split
    · rw [feed_head_scanned]
    · rfl
  · simp only [tag_reader_scan_uri]
    cases hq : t.queue with
    | nil =>
        by_cases hg : g.has_source uri = true <;>
          simp [hq, feed_head, SourceFollowsHead, gst_element_make_from_uri, hg]
    | cons d rest =>
        have hs : t.src = gst_element_make_from_uri g d.uri := by
          simpa [SourceFollowsHead, hq] using hinv
        simp [hq, SourceFollowsHead, hs]

/-- A tag event changes neither the queue, nor the source, nor the trace. -/
theorem step_tag (g : GStreamer) (t : TagReaderPrivate) (tags : GstTagList)
    (hinv : SourceFollowsHead g t) :
    ∃ t1, step g t (.tag tags) = .ok t1 ∧ t1.queue = t.queue ∧ t1.trace = t.trace ∧
      SourceFollowsHead g t1 :=
  ⟨_, rfl, rfl, rfl, hinv⟩

theorem events_while_queued_terminating (n : Nat) (op : Op) (rest : List Op)
    (hop : op.terminates = true) :
    events_while_queued n (op :: rest) = true ↔
      0 < n ∧ events_while_queued (n - 1) rest = true := by
  cases op <;> cases n <;> simp_all [events_while_queued, Op.terminates]

theorem submitted_terminating (op : Op) (rest : List Op) (hop : op.terminates = true) :
    submitted (op :: rest) = submitted rest := by
  cases op <;> simp_all [submitted, Op.terminates]

/-- The step of `run_fifo` for a job-terminating event. -/
theorem run_fifo_terminating (g : GStreamer) {rest : List Op}
    (ih : ∀ (n : Nat) (t : TagReaderPrivate), t.queue.length = n → SourceFollowsHead g t →
      events_while_queued n rest = true →
      ∃ t1, run g t rest = .ok t1 ∧ SourceFollowsHead g t1 ∧
        scanned_uris t1.trace ++ t1.queue.map (fun d => d.uri) =
          scanned_uris t.trace ++ t.queue.map (fun d => d.uri) ++ submitted rest)
    (n : Nat) (t : TagReaderPrivate) (op : Op) (hop : op.terminates = true)
    (hn : t.queue.length = n) (hinv : SourceFollowsHead g t)
    (hev : events_while_queued n (op :: rest) = true) :
    ∃ t1, run g t (op :: rest) = .ok t1 ∧ SourceFollowsHead g t1 ∧
      scanned_uris t1.trace ++ t1.queue.map (fun d => d.uri) =
        scanned_uris t.trace ++ t.queue.map (fun d => d.uri) ++ submitted (op :: rest) := by
  obtain ⟨hpos, hev1⟩ := (events_while_queued_terminating n op rest hop).mp hev
  cases hq : t.queue with
  | nil => simp [hq] at hn; omega
  | cons d q =>
      obtain ⟨t1, h1, hq1, hs1, hinv1⟩ := step_terminates g t op d q hop hq hinv
      have hlen : t1.queue.length = n - 1 := by
        rw [hq1, ← hn, hq]; simp
      obtain ⟨t2, h2, hinv2, heq2⟩ := ih (n - 1) t1 hlen hinv1 hev1
      refine ⟨t2, ?_, hinv2, ?_⟩
      · simp only [run, h1]; exact h2
      · rw [heq2, hs1, hq1, submitted_terminating op rest hop]; simp

/-- The FIFO invariant of a run, from any state whose source follows the head. -/
theorem run_fifo (g : GStreamer) (ops : List Op) :
    ∀ (n : Nat) (t : TagReaderPrivate), t.queue.length = n → SourceFollowsHead g t →
      events_while_queued n ops = true →
      ∃ t1, run g t ops = .ok t1 ∧ SourceFollowsHead g t1 ∧
        scanned_uris t1.trace ++ t1.queue.map (fun d => d.uri) =
          scanned_uris t.trace ++ t.queue.map (fun d => d.uri) ++ submitted ops := by
  induction ops with
  | nil =>
      intro n t _ hinv _
      exact ⟨t, rfl, hinv, by simp [submitted]⟩
  | cons op rest ih =>
      intro n t hn hinv hev
      cases op with
      | scan_uri uri addr =>
          obtain ⟨t1, h1, hq1, hs1, hinv1⟩ := step_scan_uri g t uri addr hinv
          have hev1 : events_while_queued (n + 1) rest = true := by
            simpa [events_while_queued] using hev
          obtain ⟨t2, h2, hinv2, heq2⟩ := ih (n + 1) t1 (by simp [hq1, hn]) hinv1 hev1
          refine ⟨t2, ?_, hinv2, ?_⟩
          · simp only [run, h1]; exact h2
          · rw [heq2, hs1, hq1]; simp [submitted]
      | tag tags =>
          obtain ⟨t1, h1, hq1, htr1, hinv1⟩ := step_tag g t tags hinv
          have hev1 : events_while_queued n rest = true := by
            simpa [events_while_queued] using hev
          obtain ⟨t2, h2, hinv2, heq2⟩ := ih n t1 (by simp [hq1, hn]) hinv1 hev1
          refine ⟨t2, ?_, hinv2, ?_⟩
          · simp only [run, h1]; exact h2
          · rw [heq2, htr1, hq1]; simp [submitted]
      | cancel scan_id => simp [events_while_queued] at hev
      | error e => exact run_fifo_terminating g ih n t (.error e) rfl hn hinv hev
      | eos => exact run_fifo_terminating g ih n t .eos rfl hn hinv hev
      | unknown_type => exact run_fifo_terminating g ih n t .unknown_type rfl hn hinv hev
      | handoff d => exact run_fifo_terminating g ih n t (.handoff d) rfl hn hinv hev

/-! ## Delivery order -/

/-- C1. In every run from a fresh reader that is made of submits and
job-terminating events (tag events may be interleaved), has no cancellation
and has every job-terminating event arrive while a job is queued, the run
completes, and the URIs notified so far followed by the URIs still queued are
exactly the submitted URIs in submission order.  This holds whatever the
framework answers when it is asked for a source. -/
theorem scan_results_in_submission_order (g : GStreamer) (ops : List Op)
    (h : events_while_queued 0 ops = true) :
    ∃ t, run g tag_reader_init ops = .ok t ∧
      scanned_uris t.trace ++ t.queue.map (fun d => d.uri) = submitted ops := by
  obtain ⟨t, hrun, _, heq⟩ :=
    run_fifo g ops 0 tag_reader_init rfl (by simp [SourceFollowsHead, tag_reader_init]) h
  exact ⟨t, hrun, by simpa [tag_reader_init, scanned_uris, notifications] using heq⟩

/-- The run `three_submits_two_done`: the notified URIs and the queued one
together are the three URIs in submission order. -/
theorem scan_results_in_submission_order_witness :
    events_while_queued 0 three_submits_two_done = true ∧
      ∃ t, run all_uris tag_reader_init three_submits_two_done = .ok t ∧
        scanned_uris t.trace ++ t.queue.map (fun d => d.uri) =
          submitted three_submits_two_done :=
  ⟨by decide, scan_results_in_submission_order all_uris three_submits_two_done (by decide)⟩

/-! ## Errors terminate one job -/

/-- An error event on a state whose queue holds at least two jobs and whose
head is live (its source is attached) succeeds: it stops the pipeline,
detaches the head's source, emits one `uri-scanned` carrying the head's URI
and that error, asks the framework for a source for the next job's URI and
starts the pipeline.  The queue loses only its head and no error stays
recorded.  The source is added and linked when the framework makes one;
otherwise `priv->src` is `NULL` and the two calls are refused. -/
theorem error_terminates_only_head (g : GStreamer) (t : TagReaderPrivate) (e : GError)
    (d d2 : ScanUriData) (rest : List ScanUriData)
    (hq : t.queue = d :: d2 :: rest) (hs : t.src = .attached d.uri) :
    ∃ t1, bus_message_error_cb g t e = .ok t1 ∧
      t1.queue = d2 :: rest ∧
      notifications t1.trace = notifications t.trace ++ [(d.uri, some e, t.current_tag_list)] ∧
      t1.current_error = none ∧ t1.current_tag_list = none ∧
      t1.pipeline_state = .PLAYING ∧
      t1.src = gst_element_make_from_uri g d2.uri ∧
      t1.trace = t.trace ++
        [.set_state .NULL, .unlink d.uri, .bin_remove d.uri,
         .uri_scanned d.uri (some e) t.current_tag_list, .make_from_uri d2.uri] ++
        (if g.has_source d2.uri then [.bin_add d2.uri, .link d2.uri]
         else [.critical, .critical]) ++ [.set_state .PLAYING] := by
  refine ⟨_, flush_feed_attached g { t with current_error := some e } d.uri d (d2 :: rest) hs hq,
    ?_, ?_, ?_, ?_, ?_, ?_, ?_⟩ <;>
  by_cases hg : g.has_source d2.uri = true <;>
    simp [feed_head, gst_element_make_from_uri, notifications_append, notifications, hg]

/-- Three jobs A, B, C are submitted; A and C complete and B fails with the
error `e`: the notifications are A without error, B with `e`, C without error,
in that order, whatever the framework answers for the three URIs. -/
theorem error_scenario (g : GStreamer) (e : GError) (a b c : String) (pa pb pc : Nat)
    (fa fc : Op) (hfa : fa.completes = true) (hfc : fc.completes = true) :
    ∃ t3, run g tag_reader_init
        [.scan_uri a pa, .scan_uri b pb, .scan_uri c pc, fa, .error e, fc] = .ok t3 ∧
      outcomes t3.trace = [(a, none), (b, some e), (c, none)] ∧ t3.queue = [] := by
  by_cases ha : g.has_source a = true <;> by_cases hb : g.has_source b = true <;>
    by_cases hc : g.has_source c = true <;>
    cases fa <;> simp [Op.completes] at hfa <;> cases fc <;> simp [Op.completes] at hfc <;>
      first
        | (rename_i da dc
           cases da <;> cases dc <;>
             simp [run, step, tag_reader_scan_uri, tag_reader_init, feed_head, flush_head,
               bus_message_eos_cb, bus_message_error_cb, bus_message_application_cb,
               merge_duration, outcomes, notifications, Except.map, ha, hb, hc])
        | (rename_i da
           cases da <;>
             simp [run, step, tag_reader_scan_uri, tag_reader_init, feed_head, flush_head,
               bus_message_eos_cb, bus_message_error_cb, bus_message_application_cb,
               merge_duration, outcomes, notifications, Except.map, ha, hb, hc])
        | simp [run, step, tag_reader_scan_uri, tag_reader_init, feed_head, flush_head,
               bus_message_eos_cb, bus_message_error_cb, bus_message_application_cb,
               merge_duration, outcomes, notifications, Except.map, ha, hb, hc]

/-- C2. An error event on a queue of at least two jobs with a live head removes
only the head, notifies it once with that error, keeps the other jobs in
order and records no error for a later job, and the scenario A, B, C gives A
(no error), B (error), C (no error): all this holds for every framework.  But
the new head is fed without a check of what the framework answers.  In a
framework with sources for `file` URIs only, job `file:///a.ogg` is live and
job `mms://radio/b` waits behind it; an error for the first leaves
`priv->src` `NULL`: no source is made for the second job, `gst_bin_add` and
`gst_element_link` are called with `NULL`, and the pipeline is started without
a source. -/
theorem error_feeds_missing_source :
    (∀ (g : GStreamer) (t : TagReaderPrivate) (e : GError) (d d2 : ScanUriData)
        (rest : List ScanUriData),
      t.queue = d :: d2 :: rest → t.src = .attached d.uri →
      ∃ t1, bus_message_error_cb g t e = .ok t1 ∧
        t1.queue = d2 :: rest ∧
        notifications t1.trace =
          notifications t.trace ++ [(d.uri, some e, t.current_tag_list)] ∧
        t1.current_error = none ∧ t1.current_tag_list = none ∧
        t1.pipeline_state = .PLAYING ∧
        t1.src = gst_element_make_from_uri g d2.uri ∧
        t1.trace = t.trace ++
          [.set_state .NULL, .unlink d.uri, .bin_remove d.uri,
           .uri_scanned d.uri (some e) t.current_tag_list, .make_from_uri d2.uri] ++
          (if g.has_source d2.uri then [.bin_add d2.uri, .link d2.uri]
           else [.critical, .critical]) ++ [.set_state .PLAYING]) ∧
    (∀ (g : GStreamer) (e : GError) (a b c : String) (pa pb pc : Nat) (fa fc : Op),
      fa.completes = true → fc.completes = true →
      ∃ t3, run g tag_reader_init
          [.scan_uri a pa, .scan_uri b pb, .scan_uri c pc, fa, .error e, fc] = .ok t3 ∧
        outcomes t3.trace = [(a, none), (b, some e), (c, none)] ∧ t3.queue = []) ∧
    file_uris_only.has_source "file:///a.ogg" = true ∧
    file_uris_only.has_source "mms://radio/b" = false ∧
    run file_uris_only tag_reader_init
        [.scan_uri "file:///a.ogg" 94355207492144, .scan_uri "mms://radio/b" 94355207492176,
         .error decode_error] =
      .ok { src := .null
            queue := [{ addr := 94355207492176, uri := "mms://radio/b", id := 2 }]
            next_id := 3
            current_error := none
            current_tag_list := none
            pipeline_state := .PLAYING
            trace := [.make_from_uri "file:///a.ogg", .bin_add "file:///a.ogg",
                      .link "file:///a.ogg", .set_state .PLAYING,
                      .set_state .NULL, .unlink "file:///a.ogg", .bin_remove "file:///a.ogg",
                      .uri_scanned "file:///a.ogg" (some decode_error) none,
                      .make_from_uri "mms://radio/b", .critical, .critical,
                      .set_state .PLAYING] } :=
  ⟨error_terminates_only_head, error_scenario, by decide, by decide, rfl⟩

/-! ## Cancellation -/

/-- C3. Two submits on a fresh reader return the ids 1 and 2.  Cancelling with
id 2, the id of the queued job that is not the head, does not remove it: the
search compares the pointer of each queue element, not its `id` field, with
the id, finds nothing, and the call only warns.  Both jobs stay queued. -/
theorem cancel_queued_job_by_id_only_warns :
    (tag_reader_scan_uri all_uris tag_reader_init (some "a") 94355207492144).2 = 1 ∧
    (tag_reader_scan_uri all_uris
      (tag_reader_scan_uri all_uris tag_reader_init (some "a") 94355207492144).1
      (some "b") 94355207492176).2 = 2 ∧
    find_scan_uri_data 94355207492176 2 = 1 ∧
    run all_uris tag_reader_init
        [.scan_uri "a" 94355207492144, .scan_uri "b" 94355207492176, .cancel 2] =
      .ok { src := .attached "a"
            queue := [{ addr := 94355207492144, uri := "a", id := 1 },
                      { addr := 94355207492176, uri := "b", id := 2 }]
            next_id := 3
            current_error := none
            current_tag_list := none
            pipeline_state := .PLAYING
            trace := [.make_from_uri "a", .bin_add "a", .link "a", .set_state .PLAYING,
                      .warning 2] } :=
  ⟨rfl, rfl, by decide, rfl⟩

/-- C4. Cancelling the head job does not advance the queue.  First, with the
ids 1 and 2 that two submits returned, cancelling id 1 only warns: the head
stays attached and nothing is torn down.  Second, when the search does yield
the head link (the eighth job, allocated at an address whose low 32 bits are
8), `flush_head` runs alone: the pipeline is left stopped, without a source,
with job `b` still queued, whereas the end-of-stream handler on the same state
feeds `b`.  The first 60 actions of these two traces belong to the seven
earlier jobs and to the feed of `a`; the actions after them are shown. -/
theorem cancel_head_does_not_advance :
    run all_uris tag_reader_init
        [.scan_uri "a" 94355207492144, .scan_uri "b" 94355207492176, .cancel 1] =
      .ok { src := .attached "a"
            queue := [{ addr := 94355207492144, uri := "a", id := 1 },
                      { addr := 94355207492176, uri := "b", id := 2 }]
            next_id := 3
            current_error := none
            current_tag_list := none
            pipeline_state := .PLAYING
            trace := [.make_from_uri "a", .bin_add "a", .link "a", .set_state .PLAYING,
                      .warning 1] } ∧
    (run all_uris tag_reader_init (seven_jobs_done ++
        [.scan_uri "a" 4294967304, .scan_uri "b" 4294967336, .cancel 8])).map
        (fun t => (t.queue, t.src, t.pipeline_state, t.trace.drop 60)) =
      .ok ([{ addr := 4294967336, uri := "b", id := 9 }], .released, .NULL,
           [.set_state .NULL, .unlink "a", .bin_remove "a", .uri_scanned "a" none none]) ∧
    (run all_uris tag_reader_init (seven_jobs_done ++
        [.scan_uri "a" 4294967304, .scan_uri "b" 4294967336, .eos])).map
        (fun t => (t.queue, t.src, t.pipeline_state, t.trace.drop 60)) =
      .ok ([{ addr := 4294967336, uri := "b", id := 9 }], .attached "b", .PLAYING,
           [.set_state .NULL, .unlink "a", .bin_remove "a", .uri_scanned "a" none none,
            .make_from_uri "b", .bin_add "b", .link "b", .set_state .PLAYING]) :=
  ⟨rfl, rfl, rfl⟩

/-- C5, as stated, fails.  Seven jobs are submitted and completed, then job
`a` is submitted: it receives id 8, it is the head, its struct sits at an
address whose low 32 bits are 8, and a title tag is read for it.  Cancelling
with its id 8 emits a `uri-scanned` notification for it, carrying the partial
tag list. -/
theorem cancel_head_emits_notification :
    returned_ids all_uris tag_reader_init (seven_jobs_done ++ [.scan_uri "a" 4294967304]) =
      [1, 2, 3, 4, 5, 6, 7, 8] ∧
    (run all_uris tag_reader_init (seven_jobs_done ++
        [.scan_uri "a" 4294967304, .tag [("title", .string "x")]])).map
        (fun t => (t.queue, notifications t.trace)) =
      .ok ([{ addr := 4294967304, uri := "a", id := 8 }],
           List.replicate 7 ("w", none, none)) ∧
    (run all_uris tag_reader_init (seven_jobs_done ++
        [.scan_uri "a" 4294967304, .tag [("title", .string "x")], .cancel 8])).map
        (fun t => (t.queue, notifications t.trace)) =
      .ok ([], List.replicate 7 ("w", none, none) ++
                 [("a", none, some [("title", .string "x")])]) :=
  ⟨rfl, rfl, rfl⟩

/-- C5, amended.  When the search of `tag_reader_cancel_scan_uri` yields the
head link of a queue whose head is live, the standard flush runs: the call
succeeds, stops the pipeline, detaches the source and emits exactly one
`uri-scanned` notification for the head job, carrying its URI, the recorded
error and the accumulated tag list; the head is popped and both accumulators
are cleared. -/
theorem cancel_head_flushes (t : TagReaderPrivate) (scan_id : Nat) (d : ScanUriData)
    (rest : List ScanUriData) (hq : t.queue = d :: rest) (hs : t.src = .attached d.uri)
    (hfound : g_queue_find_custom t.queue scan_id find_scan_uri_data = some 0) :
    ∃ t1, tag_reader_cancel_scan_uri t scan_id = .ok t1 ∧
      t1.trace = t.trace ++
        [.set_state .NULL, .unlink d.uri, .bin_remove d.uri,
         .uri_scanned d.uri t.current_error t.current_tag_list] ∧
      notifications t1.trace =
        notifications t.trace ++ [(d.uri, t.current_error, t.current_tag_list)] ∧
      t1.queue = rest ∧ t1.current_error = none ∧ t1.current_tag_list = none := by
  have hflush : tag_reader_cancel_scan_uri t scan_id = flush_head t := by
    simp only [tag_reader_cancel_scan_uri, hfound]
  refine ⟨_, hflush.trans (flush_head_attached t d.uri d rest hs hq), rfl, ?_, rfl, rfl, rfl⟩
  simp [notifications_append, notifications]

/-- Cancelling id 8 on `head_at_matching_address` delivers the partial tag
list of job `a`. -/
theorem cancel_head_flushes_witness :
    head_at_matching_address.queue = { addr := 4294967304, uri := "a", id := 8 } :: [] ∧
      head_at_matching_address.src = .attached "a" ∧
      g_queue_find_custom head_at_matching_address.queue 8 find_scan_uri_data = some 0 ∧
      ∃ t1, tag_reader_cancel_scan_uri head_at_matching_address 8 = .ok t1 ∧
        t1.trace = head_at_matching_address.trace ++
          [.set_state .NULL, .unlink "a", .bin_remove "a",
           .uri_scanned "a" head_at_matching_address.current_error
             head_at_matching_address.current_tag_list] ∧
        notifications t1.trace =
          notifications head_at_matching_address.trace ++
            [("a", head_at_matching_address.current_error,
              head_at_matching_address.current_tag_list)] ∧
        t1.queue = [] ∧ t1.current_error = none ∧ t1.current_tag_list = none :=
  ⟨rfl, rfl, by decide, cancel_head_flushes head_at_matching_address 8
    { addr := 4294967304, uri := "a", id := 8 } [] rfl rfl (by decide)⟩

/-! ## Result delivery -/

/-- C6. Every job-terminating event handled while the head job is live
succeeds and adds exactly one `uri-scanned` notification, for the head's URI.
An error event delivers its error, an unknown-type signal delivers the
unknown-type error, end of stream and handoff deliver the recorded error
(absent if none).  The tag list delivered is the accumulated one, with the
duration added when the handoff's query succeeds; so it is absent when no tag
was accumulated and no duration was recorded.  A run in which a tag event is
followed by an error delivers the error and the non-empty tag list in one
notification.  This holds whatever the framework answers when it is asked for
the source of the next job. -/
theorem terminating_event_notifies_once (g : GStreamer) (t : TagReaderPrivate)
    (d : ScanUriData) (rest : List ScanUriData) (hq : t.queue = d :: rest) (hs : t.src = .attached d.uri) :
    (∀ e, ∃ t1, bus_message_error_cb g t e = .ok t1 ∧
      notifications t1.trace = notifications t.trace ++ [(d.uri, some e, t.current_tag_list)]) ∧
    (∃ t1, decodebin_unknown_type_cb g t = .ok t1 ∧
      notifications t1.trace =
        notifications t.trace ++ [(d.uri, some unknown_type_error, t.current_tag_list)]) ∧
    (∃ t1, bus_message_eos_cb g t = .ok t1 ∧
      notifications t1.trace =
        notifications t.trace ++ [(d.uri, t.current_error, t.current_tag_list)]) ∧
    (∃ t1, bus_message_application_cb g t true "handoff" none = .ok t1 ∧
      notifications t1.trace =
        notifications t.trace ++ [(d.uri, t.current_error, t.current_tag_list)]) ∧
    (∀ n, ∃ t1, bus_message_application_cb g t true "handoff" (some n) = .ok t1 ∧
      notifications t1.trace =
        notifications t.trace ++
          [(d.uri, t.current_error,
            some (gst_tag_list_add (t.current_tag_list.getD []) GST_TAG_DURATION (.int64 n)))]) ∧
    (∀ (uri : String) (addr : Nat) (e : GError) (name : String) (v : GValue),
      (run g tag_reader_init [.scan_uri uri addr, .tag [(name, v)], .error e]).map
          (fun r => notifications r.trace) = .ok [(uri, some e, some [(name, v)])]) := by
  refine ⟨fun e => ⟨_,
      flush_feed_attached g { t with current_error := some e } d.uri d rest hs hq,
      ?_⟩,
    ⟨_, flush_feed_attached g { t with current_error := some unknown_type_error } d.uri d rest
      hs hq, ?_⟩,
    ⟨_, flush_feed_attached g t d.uri d rest hs hq, ?_⟩,
    ⟨_, (application_cb_handoff_none g t).trans
      (flush_feed_attached g t d.uri d rest hs hq), ?_⟩,
    fun n => ⟨_, (application_cb_handoff_some g t n).trans
      (flush_feed_attached g (merge_duration t n) d.uri d rest hs hq), ?_⟩, ?_⟩
  · simp [feed_head_notifications, notifications_append, notifications]
  · simp [feed_head_notifications, notifications_append, notifications]
  · simp [feed_head_notifications, notifications_append, notifications]
  · simp [feed_head_notifications, notifications_append, notifications]
  · simp [feed_head_notifications, notifications_append, notifications, merge_duration]
  · intro uri addr e name v
    by_cases hg : g.has_source uri = true <;>
      simp [run, step, tag_reader_scan_uri, tag_reader_init, feed_head, flush_head,
        bus_message_error_cb, bus_message_tag_cb, gst_tag_list_merge, gst_tag_list_insert,
        gst_tag_list_add, gst_structure_set_value, notifications, Except.map, hg]

/-- The five job-terminating events on `live_a_with_title`. -/
theorem terminating_event_notifies_once_witness :
    live_a_with_title.queue =
        { addr := 94355207492144, uri := "a", id := 1 } ::
          [{ addr := 94355207492176, uri := "b", id := 2 }] ∧
      live_a_with_title.src = .attached "a" ∧
      ((∀ e, ∃ t1, bus_message_error_cb all_uris live_a_with_title e = .ok t1 ∧
        notifications t1.trace = notifications live_a_with_title.trace ++
          [("a", some e, live_a_with_title.current_tag_list)]) ∧
      (∃ t1, decodebin_unknown_type_cb all_uris live_a_with_title = .ok t1 ∧
        notifications t1.trace = notifications live_a_with_title.trace ++
          [("a", some unknown_type_error, live_a_with_title.current_tag_list)]) ∧
      (∃ t1, bus_message_eos_cb all_uris live_a_with_title = .ok t1 ∧
        notifications t1.trace = notifications live_a_with_title.trace ++
          [("a", live_a_with_title.current_error, live_a_with_title.current_tag_list)]) ∧
      (∃ t1, bus_message_application_cb all_uris live_a_with_title true "handoff" none =
          .ok t1 ∧
        notifications t1.trace = notifications live_a_with_title.trace ++
          [("a", live_a_with_title.current_error, live_a_with_title.current_tag_list)]) ∧
      (∀ n, ∃ t1,
        bus_message_application_cb all_uris live_a_with_title true "handoff" (some n) =
          .ok t1 ∧
        notifications t1.trace = notifications live_a_with_title.trace ++
          [("a", live_a_with_title.current_error,
            some (gst_tag_list_add (live_a_with_title.current_tag_list.getD [])
              GST_TAG_DURATION (.int64 n)))]) ∧
      (∀ (uri : String) (addr : Nat) (e : GError) (name : String) (v : GValue),
        (run all_uris tag_reader_init [.scan_uri uri addr, .tag [(name, v)], .error e]).map
            (fun r => notifications r.trace) = .ok [(uri, some e, some [(name, v)])])) :=
  ⟨rfl, rfl, terminating_event_notifies_once all_uris live_a_with_title
    { addr := 94355207492144, uri := "a", id := 1 }
    [{ addr := 94355207492176, uri := "b", id := 2 }] rfl rfl⟩

/-! ## The source stage -/

/-- C7. The source stage does not always follow the queue.  Two submits at
ordinary addresses, then a cancel whose argument equals the low 32 bits of the
head's pointer: the search yields the head link, `flush_head` detaches the
source, and nothing feeds job `b`.  The queue is then non-empty while no source
is attached, and it stays so after a further submit, which does not feed
because the queue length is 2.  The same happens when the argument is the
head's own id and the head sits at an address whose low 32 bits equal it. -/
theorem source_missing_after_cancel_of_head :
    94355207492144 % 2 ^ 32 = 3365933616 ∧
    (run all_uris tag_reader_init
        [.scan_uri "a" 94355207492144, .scan_uri "b" 94355207492176, .cancel 3365933616]).map
        (fun t => (t.queue, t.src, t.pipeline_state)) =
      .ok ([{ addr := 94355207492176, uri := "b", id := 2 }], .released, .NULL) ∧
    (run all_uris tag_reader_init
        [.scan_uri "a" 94355207492144, .scan_uri "b" 94355207492176, .cancel 3365933616,
         .scan_uri "c" 94355207492144]).map
        (fun t => (t.queue, t.src, t.pipeline_state)) =
      .ok ([{ addr := 94355207492176, uri := "b", id := 2 },
            { addr := 94355207492144, uri := "c", id := 3 }], .released, .NULL) ∧
    (run all_uris tag_reader_init (seven_jobs_done ++
        [.scan_uri "a" 4294967304, .scan_uri "b" 4294967336, .cancel 8])).map
        (fun t => (t.queue, t.src)) =
      .ok ([{ addr := 4294967336, uri := "b", id := 9 }], .released) :=
  ⟨by decide, rfl, rfl, rfl⟩

/-! ## Scan ids -/

theorem feed_head_next_id (g : GStreamer) (t : TagReaderPrivate) :
    (feed_head g t).next_id = t.next_id := by
  unfold feed_head
  split
  · rfl
  · split <;> rfl

theorem flush_head_next_id (t t1 : TagReaderPrivate) (h : flush_head t = .ok t1) :
    t1.next_id = t.next_id := by
  unfold flush_head at h
  cases hs : t.src <;> cases hq : t.queue <;> simp [hs, hq] at h <;> subst h <;> rfl

theorem flush_feed_next_id (g : GStreamer) (t t1 : TagReaderPrivate)
    (h : (flush_head t).map (feed_head g) = .ok t1) : t1.next_id = t.next_id := by
  cases hf : flush_head t with
  | error f => simp [hf, Except.map] at h
  | ok t2 =>
      simp [hf, Except.map] at h
      subst h
      rw [feed_head_next_id, flush_head_next_id t t2 hf]

/-- Only `tag_reader_scan_uri` changes the id counter. -/
theorem step_next_id (g : GStreamer) (t t1 : TagReaderPrivate) (op : Op) (h : step g t op = .ok t1)
    (hop : ∀ uri addr, op ≠ .scan_uri uri addr) : t1.next_id = t.next_id := by
  cases op with
  | scan_uri uri addr => exact absurd rfl (hop uri addr)
  | error e => exact flush_feed_next_id g { t with current_error := some e } t1 h
  | eos => exact flush_feed_next_id g t t1 h
  | unknown_type =>
      exact flush_feed_next_id g { t with current_error := some unknown_type_error } t1 h
  | handoff d =>
      cases d with
      | none => exact flush_feed_next_id g t t1 ((application_cb_handoff_none g t).symm.trans h)
      | some n =>
          exact flush_feed_next_id g (merge_duration t n) t1
            ((application_cb_handoff_some g t n).symm.trans h)
  | tag tags =>
      simp [step, bus_message_tag_cb] at h
      subst h; rfl
  | cancel scan_id =>
      simp only [step, tag_reader_cancel_scan_uri] at h
      split at h
      · simp at h; subst h; rfl
      · exact flush_head_next_id t t1 h
      · simp at h; subst h; rfl

theorem scan_uri_next_id (g : GStreamer) (t : TagReaderPrivate) (uri : String) (addr : Nat) :
    (tag_reader_scan_uri g t (some uri) addr).1.next_id = (t.next_id + 1) % 2 ^ 32 := by
  simp only [tag_reader_scan_uri]
  split
  · rw [feed_head_next_id]
  · rfl

/-- The ids a run returns are the consecutive values of the counter, reduced
modulo `2 ^ 32`. -/
theorem returned_ids_eq (g : GStreamer) (ops : List Op) :
    ∀ t : TagReaderPrivate, t.next_id < 2 ^ 32 →
      ∃ n, n ≤ (submitted ops).length ∧
        returned_ids g t ops = (List.range n).map (fun k => (t.next_id + k) % 2 ^ 32) := by
  induction ops with
  | nil => intro t _; exact ⟨0, by simp [submitted], rfl⟩
  | cons op rest ih =>
      intro t ht
      by_cases hop : ∃ uri addr, op = .scan_uri uri addr
      · obtain ⟨uri, addr, rfl⟩ := hop
        obtain ⟨n, hn, hids⟩ := ih (tag_reader_scan_uri g t (some uri) addr).1
          (by rw [scan_uri_next_id]; exact Nat.mod_lt _ (by decide))
        refine ⟨n + 1, by simpa [submitted] using hn, ?_⟩
        rw [returned_ids, hids, scan_uri_next_id, List.range_succ_eq_map]
        simp only [List.map_cons, List.map_map, tag_reader_scan_uri, Nat.add_zero]
        rw [Nat.mod_eq_of_lt ht]
        congr 1
        apply List.map_congr_left
        intro k _
        simp only [Function.comp, Nat.succ_eq_add_one]
        rw [Nat.mod_add_mod]; congr 1; omega
      · have hne : ∀ uri addr, op ≠ .scan_uri uri addr := fun uri addr h => hop ⟨uri, addr, h⟩
        have hsub : submitted (op :: rest) = submitted rest := by
          cases op <;> first | rfl | exact absurd rfl (hne _ _)
        have hret : returned_ids g t (op :: rest) =
            match step g t op with
            | .ok t1 => returned_ids g t1 rest
            | .error _ => [] := by
          cases op <;> first | rfl | exact absurd rfl (hne _ _)
        cases hstep : step g t op with
        | error f => exact ⟨0, by simp, by simp [hret, hstep]⟩
        | ok t1 =>
            have hid := step_next_id g t t1 op hstep hne
            obtain ⟨n, hn, hids⟩ := ih t1 (by rw [hid]; exact ht)
            exact ⟨n, by rw [hsub]; exact hn, by simp [hret, hstep, hids, hid]⟩

theorem jobs_in_turn_succ (n : Nat) :
    jobs_in_turn (n + 1) =
      Op.scan_uri "a" 94355207492144 :: Op.eos :: jobs_in_turn n := by
  simp [jobs_in_turn, List.replicate_succ]

/-- On an idle reader a submit followed by end of stream leaves the reader
idle. -/
theorem scan_then_eos_idle (g : GStreamer) (t : TagReaderPrivate) (uri : String) (addr : Nat)
    (hq : t.queue = []) :
    ∃ t2, step g (tag_reader_scan_uri g t (some uri) addr).1 .eos = .ok t2 ∧ t2.queue = [] ∧
      t2.next_id = (t.next_id + 1) % 2 ^ 32 := by
  have h1 : (tag_reader_scan_uri g t (some uri) addr).1.queue =
      [{ addr := addr, uri := uri, id := t.next_id }] := by
    simp [tag_reader_scan_uri, hq, feed_head_queue]
  have h2 : (tag_reader_scan_uri g t (some uri) addr).1.src ≠ .released := by
    by_cases hg : g.has_source uri = true <;> simp [tag_reader_scan_uri, hq, feed_head, hg]
  obtain ⟨t2, hstep, hq2, hid2, _⟩ :=
    flush_feed_live g _ { addr := addr, uri := uri, id := t.next_id } [] h1 h2
  exact ⟨t2, hstep, hq2, by rw [hid2, scan_uri_next_id]⟩

/-- A batch of `n` jobs in turn on an idle reader returns `n` ids. -/
theorem returned_ids_jobs_in_turn_length (g : GStreamer) (n : Nat) :
    ∀ t : TagReaderPrivate, t.queue = [] → (returned_ids g t (jobs_in_turn n)).length = n := by
  induction n with
  | zero => intro t _; rfl
  | succ n ih =>
      intro t hq
      obtain ⟨t2, hstep, hq2, _⟩ := scan_then_eos_idle g t "a" 94355207492144 hq
      rw [jobs_in_turn_succ, returned_ids, returned_ids, hstep]
      · simp [ih t2 hq2]
      · intro _ _ h; cases h

theorem submitted_jobs_in_turn_length (n : Nat) : (submitted (jobs_in_turn n)).length = n := by
  induction n with
  | zero => rfl
  | succ n ih => rw [jobs_in_turn_succ]; simp [submitted, ih]

/-- The ids of a batch of `n` jobs in turn on a fresh reader. -/
theorem returned_ids_jobs_in_turn (g : GStreamer) (n : Nat) :
    returned_ids g tag_reader_init (jobs_in_turn n) =
      (List.range n).map (fun k => (1 + k) % 2 ^ 32) := by
  obtain ⟨m, _, hids⟩ := returned_ids_eq g (jobs_in_turn n) tag_reader_init (by decide)
  have hlen := returned_ids_jobs_in_turn_length g n tag_reader_init rfl
  rw [hids] at hlen
  simp at hlen
  rw [hids, hlen]
  rfl

/-- C8, as stated, fails.  Submit `2 ^ 32` jobs, each completed before the
next is submitted: the ids returned are not strictly increasing, because the
counter wraps from `2 ^ 32 - 1` to 0. -/
theorem scan_ids_wrap_around :
    ¬ List.Pairwise (fun a b => a < b)
        (returned_ids all_uris tag_reader_init (jobs_in_turn (2 ^ 32))) := by
  rw [returned_ids_jobs_in_turn, List.pairwise_map, List.pairwise_iff_getElem]
  intro h
  have h1 := h (2 ^ 32 - 2) (2 ^ 32 - 1) (by simp) (by simp) (by decide)
  simp only [List.getElem_range] at h1
  exact absurd h1 (by decide)

/-- C8, amended.  In every run from a fresh reader with fewer than `2 ^ 32`
submits, the ids returned by `tag_reader_scan_uri` are 1, 2, 3, ... in call
order: strictly increasing, pairwise distinct, the first being 1.  This holds
in every framework. -/
theorem scan_ids_increase_below_wrap (g : GStreamer) (ops : List Op)
    (h : (submitted ops).length < 2 ^ 32) :
    ∃ n, returned_ids g tag_reader_init ops = List.range' 1 n ∧
      List.Pairwise (fun a b => a < b) (returned_ids g tag_reader_init ops) ∧
      (returned_ids g tag_reader_init ops).Nodup := by
  obtain ⟨n, hn, hids⟩ := returned_ids_eq g ops tag_reader_init (by decide)
  have heq : returned_ids g tag_reader_init ops = List.range' 1 n := by
    rw [hids, List.range'_eq_map_range]
    apply List.map_congr_left
    intro k hk
    have hk1 : k < n := List.mem_range.mp hk
    show (1 + k) % 2 ^ 32 = 1 + k
    exact Nat.mod_eq_of_lt (by omega)
  refine ⟨n, heq, ?_, ?_⟩
  · rw [heq]; exact List.pairwise_lt_range' 1 n
  · rw [heq]; exact List.nodup_range' 1 n

/-- Three submits with events in between return the ids 1, 2, 3. -/
theorem scan_ids_increase_below_wrap_witness :
    (submitted [.scan_uri "a" 94355207492144, .scan_uri "b" 94355207492176, .eos,
        .scan_uri "c" 94355207492144]).length < 2 ^ 32 ∧
      ∃ n, returned_ids all_uris tag_reader_init
          [.scan_uri "a" 94355207492144, .scan_uri "b" 94355207492176, .eos,
           .scan_uri "c" 94355207492144] = List.range' 1 n ∧
        List.Pairwise (fun a b => a < b) (returned_ids all_uris tag_reader_init
          [.scan_uri "a" 94355207492144, .scan_uri "b" 94355207492176, .eos,
           .scan_uri "c" 94355207492144]) ∧
        (returned_ids all_uris tag_reader_init
          [.scan_uri "a" 94355207492144, .scan_uri "b" 94355207492176, .eos,
           .scan_uri "c" 94355207492144]).Nodup :=
  ⟨by decide, scan_ids_increase_below_wrap all_uris _ (by decide)⟩

/-! ## Tag accumulation -/

theorem lookup_set_value (l : GstTagList) (n m : String) (v : GValue) :
    gst_tag_list_lookup (gst_structure_set_value l n v) m =
      if n = m then some v else gst_tag_list_lookup l m := by
  induction l with
  | nil => simp [gst_structure_set_value, gst_tag_list_lookup]
  | cons kv rest ih =>
      obtain ⟨k, w⟩ := kv
      by_cases hk : k = n
      · subst hk
        by_cases hm : k = m <;> simp [gst_structure_set_value, gst_tag_list_lookup, hm]
      · by_cases hm : k = m
        · subst hm
          have hne : ¬ n = k := fun h => hk h.symm
          simp [gst_structure_set_value, gst_tag_list_lookup, hk, hne]
        · simp [gst_structure_set_value, gst_tag_list_lookup, hk, hm, ih]

theorem lookup_eq_none_iff (l : GstTagList) (m : String) :
    gst_tag_list_lookup l m = none ↔ m ∉ gst_tag_list_names l := by
  induction l with
  | nil => simp [gst_tag_list_lookup, gst_tag_list_names]
  | cons kv rest ih =>
      obtain ⟨k, w⟩ := kv
      by_cases hm : k = m
      · simp [gst_tag_list_lookup, gst_tag_list_names, hm]
      · have hne : ¬ m = k := fun h => hm h.symm
        simp only [gst_tag_list_lookup, hm, if_false, ih]
        simp [gst_tag_list_names, hne]

/-- Inserting a well-formed tag list: its values win, the other names keep
their values. -/
theorem lookup_insert (e : GstTagList) :
    ∀ (acc : GstTagList) (m : String), (gst_tag_list_names e).Nodup →
      gst_tag_list_lookup (gst_tag_list_insert acc e) m =
        match gst_tag_list_lookup e m with
        | some v => some v
        | none => gst_tag_list_lookup acc m := by
  induction e with
  | nil => intro acc m _; simp [gst_tag_list_insert, gst_tag_list_lookup]
  | cons kv rest ih =>
      intro acc m hnd
      obtain ⟨k, w⟩ := kv
      have hnd1 : k ∉ gst_tag_list_names rest ∧ (gst_tag_list_names rest).Nodup := by
        simpa [gst_tag_list_names] using hnd
      have hstep : gst_tag_list_insert acc ((k, w) :: rest) =
          gst_tag_list_insert (gst_structure_set_value acc k w) rest := by
        simp [gst_tag_list_insert, gst_tag_list_add]
      rw [hstep, ih _ m hnd1.2, lookup_set_value]
      by_cases hm : k = m
      · subst hm
        have hnone := (lookup_eq_none_iff rest k).mpr hnd1.1
        simp [gst_tag_list_lookup, hnone]
      · simp [gst_tag_list_lookup, hm]

theorem tag_events_cons (t : TagReaderPrivate) (e : GstTagList) (es : List GstTagList) :
    tag_events t (e :: es) = tag_events (bus_message_tag_cb t e) es := rfl

/-- After a sequence of well-formed tag events every name has the value of the
last event that contains it, or else its earlier value. -/
theorem lookup_tag_events (es : List GstTagList) :
    ∀ (t : TagReaderPrivate) (m : String), (∀ e ∈ es, (gst_tag_list_names e).Nodup) →
      gst_tag_list_lookup ((tag_events t es).current_tag_list.getD []) m =
        match last_value es m with
        | some v => some v
        | none => gst_tag_list_lookup (t.current_tag_list.getD []) m := by
  induction es with
  | nil => intro t m _; simp [tag_events, last_value]
  | cons e rest ih =>
      intro t m hwf
      have hwf1 : ∀ e1 ∈ rest, (gst_tag_list_names e1).Nodup :=
        fun e1 h1 => hwf e1 (List.mem_cons_of_mem _ h1)
      have he : (gst_tag_list_names e).Nodup := hwf e (List.mem_cons_self _ _)
      rw [tag_events_cons, ih _ m hwf1]
      have hcur : (bus_message_tag_cb t e).current_tag_list.getD [] =
          gst_tag_list_insert (t.current_tag_list.getD []) e := by
        cases h : t.current_tag_list <;> simp [bus_message_tag_cb, gst_tag_list_merge, h]
      rw [hcur, lookup_insert e _ m he]
      cases hl : last_value rest m <;> simp [last_value, hl]

theorem tag_events_fields (es : List GstTagList) :
    ∀ t : TagReaderPrivate, (tag_events t es).queue = t.queue ∧ (tag_events t es).src = t.src ∧
      (tag_events t es).trace = t.trace ∧ (tag_events t es).current_error = t.current_error := by
  induction es with
  | nil => intro t; exact ⟨rfl, rfl, rfl, rfl⟩
  | cons e rest ih => intro t; rw [tag_events_cons]; exact ih (bus_message_tag_cb t e)

theorem run_tag_events (g : GStreamer) (es : List GstTagList) :
    ∀ (t : TagReaderPrivate) (ops : List Op),
      run g t (es.map Op.tag ++ ops) = run g (tag_events t es) ops := by
  induction es with
  | nil => intro t ops; rfl
  | cons e rest ih => intro t ops; simp only [List.map_cons, List.cons_append, run, step]; exact ih _ ops

theorem last_value_isSome (es : List GstTagList) (m : String) :
    (last_value es m ≠ none) ↔ ∃ e ∈ es, m ∈ gst_tag_list_names e := by
  induction es with
  | nil => simp [last_value]
  | cons e rest ih =>
      cases hl : last_value rest m with
      | some v =>
          have h1 : ∃ e1 ∈ rest, m ∈ gst_tag_list_names e1 := ih.mp (by simp [hl])
          obtain ⟨e1, he1, hm1⟩ := h1
          simp only [last_value, hl]
          exact ⟨fun _ => ⟨e1, List.mem_cons_of_mem _ he1, hm1⟩, fun _ => by simp⟩
      | none =>
          have h1 : ¬ ∃ e1 ∈ rest, m ∈ gst_tag_list_names e1 := fun h => (ih.mpr h) hl
          simp only [last_value, hl, ne_eq, lookup_eq_none_iff, not_not]
          constructor
          · intro h; exact ⟨e, List.mem_cons_self _ _, h⟩
          · rintro ⟨e1, he1, hm1⟩
            rcases List.mem_cons.mp he1 with rfl | h2
            · exact hm1
            · exact absurd ⟨e1, h2, hm1⟩ h1

/-- Swapping two adjacent events with disjoint names changes no last value. -/
theorem last_value_swap (pre post : List GstTagList) (x y : GstTagList) (m : String)
    (hdis : ∀ n, n ∈ gst_tag_list_names x → n ∉ gst_tag_list_names y) :
    last_value (pre ++ y :: x :: post) m = last_value (pre ++ x :: y :: post) m := by
  induction pre with
  | nil =>
      simp only [List.nil_append, last_value]
      cases last_value post m with
      | some v => rfl
      | none =>
          cases hx : gst_tag_list_lookup x m with
          | none => cases hy : gst_tag_list_lookup y m <;> simp
          | some v =>
              have hmx : m ∈ gst_tag_list_names x := by
                by_contra hc
                rw [(lookup_eq_none_iff x m).mpr hc] at hx
                cases hx
              have hy := (lookup_eq_none_iff y m).mpr (hdis m hmx)
              simp [hy]
  | cons e rest ih =>
      show (match last_value (rest ++ y :: x :: post) m with
          | some v => some v
          | none => gst_tag_list_lookup e m) =
        match last_value (rest ++ x :: y :: post) m with
          | some v => some v
          | none => gst_tag_list_lookup e m
      rw [ih]

/-- What `Op.delivered_tags` does, by the answer to the duration query. -/
theorem delivered_tags_eq (op : Op) (tags : Option GstTagList) :
    op.delivered_tags tags =
      match op.queried_duration with
      | some n => some (gst_tag_list_add (tags.getD []) GST_TAG_DURATION (.int64 n))
      | none => tags := by
  cases op with
  | handoff d => cases d <;> rfl
  | _ => rfl

/-- An operation that ends the head job, run while the head's source pointer is
not stale, succeeds and notifies the head once. -/
theorem step_ending_notifies (g : GStreamer) (t : TagReaderPrivate) (d : ScanUriData)
    (rest : List ScanUriData) (op : Op) (hq : t.queue = d :: rest) (hs : t.src ≠ .released)
    (hend : op.terminates = true ∨
      ∃ scan_id, op = .cancel scan_id ∧
        g_queue_find_custom t.queue scan_id find_scan_uri_data = some 0) :
    ∃ t1, step g t op = .ok t1 ∧
      notifications t1.trace =
        notifications t.trace ++
          [(d.uri, op.notified_error t.current_error, op.delivered_tags t.current_tag_list)] := by
  cases op with
  | scan_uri uri addr => simp [Op.terminates] at hend
  | tag tags => simp [Op.terminates] at hend
  | cancel scan_id =>
      rcases hend with hend | ⟨id2, heq, hfound⟩
      · simp [Op.terminates] at hend
      · cases heq
        obtain ⟨t1, h1, _, _, _, _, _, hn1⟩ := flush_head_live t d rest hq hs
        refine ⟨t1, ?_, hn1⟩
        simp only [step, tag_reader_cancel_scan_uri, hfound]
        exact h1
  | error e =>
      obtain ⟨t1, h1, _, _, _, _, hn1, _⟩ :=
        flush_feed_live g { t with current_error := some e } d rest hq hs
      exact ⟨t1, h1, hn1⟩
  | eos =>
      obtain ⟨t1, h1, _, _, _, _, hn1, _⟩ := flush_feed_live g t d rest hq hs
      exact ⟨t1, h1, hn1⟩
  | unknown_type =>
      obtain ⟨t1, h1, _, _, _, _, hn1, _⟩ :=
        flush_feed_live g { t with current_error := some unknown_type_error } d rest hq hs
      exact ⟨t1, h1, hn1⟩
  | handoff dur =>
      cases dur with
      | none =>
          obtain ⟨t1, h1, _, _, _, _, hn1, _⟩ := flush_feed_live g t d rest hq hs
          exact ⟨t1, (application_cb_handoff_none g t).trans h1, hn1⟩
      | some n =>
          obtain ⟨t1, h1, _, _, _, _, hn1, _⟩ :=
            flush_feed_live g (merge_duration t n) d rest hq hs
          exact ⟨t1, (application_cb_handoff_some g t n).trans h1, hn1⟩

/-- The notification that ends a job after a sequence of tag events. -/
theorem ending_after_tag_events (g : GStreamer) (t : TagReaderPrivate) (d : ScanUriData)
    (rest : List ScanUriData) (es : List GstTagList) (op : Op)
    (hq : t.queue = d :: rest) (hs : t.src = .attached d.uri)
    (hend : op.terminates = true ∨
      ∃ scan_id, op = .cancel scan_id ∧
        g_queue_find_custom t.queue scan_id find_scan_uri_data = some 0) :
    ∃ t1, run g t (es.map Op.tag ++ [op]) = .ok t1 ∧
      notifications t1.trace =
        notifications t.trace ++
          [(d.uri, op.notified_error t.current_error,
            op.delivered_tags (tag_events t es).current_tag_list)] := by
  obtain ⟨hq1, hs1, htr1, herr1⟩ := tag_events_fields es t
  have hs2 : (tag_events t es).src ≠ .released := by rw [hs1, hs]; simp
  have hend2 : op.terminates = true ∨
      ∃ scan_id, op = .cancel scan_id ∧
        g_queue_find_custom (tag_events t es).queue scan_id find_scan_uri_data = some 0 := by
    rw [hq1]; exact hend
  obtain ⟨t1, h1, hn1⟩ :=
    step_ending_notifies g (tag_events t es) d rest op (hq1.trans hq) hs2 hend2
  refine ⟨t1, ?_, by rw [hn1, htr1, herr1]⟩
  rw [run_tag_events]
  simp only [run, h1]

/-- C9, as stated, fails.  One tag event with a title arrives for the live job
`a`, and the job ends by a handoff whose duration query answers 5.  The tag
list delivered holds the name `duration` with the value 5, although no tag
event contained that name: it is not the value of the last event that
contained it, and the names delivered are not exactly those of the events. -/
theorem handoff_adds_a_name_of_no_event :
    (run all_uris fresh_live_a
        ([[("title", GValue.string "x")]].map Op.tag ++ [.handoff (some 5)])).map
        (fun r => notifications r.trace) =
      .ok [("a", none, some [("title", .string "x"), ("duration", .int64 5)])] ∧
    gst_tag_list_lookup [("title", .string "x"), ("duration", .int64 5)] "duration" =
      some (.int64 5) ∧
    last_value [[("title", .string "x")]] "duration" = none ∧
    ¬ (∀ name,
        gst_tag_list_lookup [("title", .string "x"), ("duration", .int64 5)] name =
          last_value [[("title", .string "x")]] name) ∧
    ¬ (∀ name, name ∈ gst_tag_list_names [("title", .string "x"), ("duration", .int64 5)] ↔
        ∃ e ∈ [[("title", GValue.string "x")]], name ∈ gst_tag_list_names e) := by
  refine ⟨rfl, by decide, by decide, ?_, ?_⟩
  · intro h
    exact absurd (h "duration") (by decide)
  · intro h
    have := (h "duration").mp (by decide)
    simp [gst_tag_list_names] at this

/-- C9, amended.  Let a job be live with no tag accumulated yet, and let a
sequence of tag events arrive, each a well-formed structure (no name twice),
before the job ends: by an error, end of stream, an unknown type, a handoff,
or a cancellation that finds the head.  The run succeeds and notifies the job
once.  The tag list delivered gives every name the value of the last event
that contains it, and its names are exactly the names that occur in some
event, except that after a handoff whose duration query answers `n` the name
`duration` is present with the value `n`.  Swapping two adjacent events whose
names are disjoint delivers a tag list with the same value for every name. -/
theorem tags_merge_last_wins (g : GStreamer) (t : TagReaderPrivate) (d : ScanUriData)
    (rest : List ScanUriData) (es : List GstTagList) (op : Op)
    (hq : t.queue = d :: rest) (hs : t.src = .attached d.uri)
    (hfresh : t.current_tag_list = none)
    (hwf : ∀ e ∈ es, (gst_tag_list_names e).Nodup)
    (hend : op.terminates = true ∨
      ∃ scan_id, op = .cancel scan_id ∧
        g_queue_find_custom t.queue scan_id find_scan_uri_data = some 0) :
    ∃ t1 T, run g t (es.map Op.tag ++ [op]) = .ok t1 ∧
      notifications t1.trace =
        notifications t.trace ++ [(d.uri, op.notified_error t.current_error, T)] ∧
      (∀ name, gst_tag_list_lookup (T.getD []) name =
        match op.queried_duration with
        | some n => if name = GST_TAG_DURATION then some (.int64 n) else last_value es name
        | none => last_value es name) ∧
      (∀ name, name ∈ gst_tag_list_names (T.getD []) ↔
        (∃ e ∈ es, name ∈ gst_tag_list_names e) ∨
          (op.queried_duration.isSome = true ∧ name = GST_TAG_DURATION)) ∧
      (∀ pre x y post, es = pre ++ x :: y :: post →
        (∀ n, n ∈ gst_tag_list_names x → n ∉ gst_tag_list_names y) →
        ∃ t2 T2, run g t ((pre ++ y :: x :: post).map Op.tag ++ [op]) = .ok t2 ∧
          notifications t2.trace =
            notifications t.trace ++ [(d.uri, op.notified_error t.current_error, T2)] ∧
          ∀ name, gst_tag_list_lookup (T2.getD []) name =
            gst_tag_list_lookup (T.getD []) name) := by
  obtain ⟨t1, hrun, hnote⟩ := ending_after_tag_events g t d rest es op hq hs hend
  have hlook : ∀ (es1 : List GstTagList), (∀ e ∈ es1, (gst_tag_list_names e).Nodup) →
      ∀ name, gst_tag_list_lookup
          ((op.delivered_tags (tag_events t es1).current_tag_list).getD []) name =
        match op.queried_duration with
        | some n => if name = GST_TAG_DURATION then some (.int64 n) else last_value es1 name
        | none => last_value es1 name := by
    intro es1 hwf1 name
    have h0 : gst_tag_list_lookup ((tag_events t es1).current_tag_list.getD []) name =
        last_value es1 name := by
      rw [lookup_tag_events es1 t name hwf1, hfresh]
      cases last_value es1 name <;> simp [gst_tag_list_lookup]
    rw [delivered_tags_eq]
    cases hd : op.queried_duration with
    | none => exact h0
    | some n =>
        simp only [Option.getD_some, gst_tag_list_add, lookup_set_value, h0]
        by_cases hn : name = GST_TAG_DURATION
        · simp [hn]
        · have hn2 : ¬ GST_TAG_DURATION = name := fun h => hn h.symm
          simp [hn, hn2]
  refine ⟨t1, op.delivered_tags (tag_events t es).current_tag_list, hrun, hnote, hlook es hwf,
    ?_, ?_⟩
  · intro name
    have hmem : name ∈ gst_tag_list_names
        ((op.delivered_tags (tag_events t es).current_tag_list).getD []) ↔
        gst_tag_list_lookup
          ((op.delivered_tags (tag_events t es).current_tag_list).getD []) name ≠ none := by
      rw [ne_eq, lookup_eq_none_iff, not_not]
    rw [hmem, hlook es hwf name, ← last_value_isSome es name]
    cases hd : op.queried_duration with
    | none => simp
    | some n =>
        by_cases hn : name = GST_TAG_DURATION
        · simp [hn]
        · simp [hn]
  · intro pre x y post hes hdis
    obtain ⟨t2, hrun2, hnote2⟩ :=
      ending_after_tag_events g t d rest (pre ++ y :: x :: post) op hq hs hend
    have hwf2 : ∀ e ∈ pre ++ y :: x :: post, (gst_tag_list_names e).Nodup := by
      intro e he
      apply hwf e
      rw [hes]
      simp only [List.mem_append, List.mem_cons] at he ⊢
      tauto
    refine ⟨t2, _, hrun2, hnote2, ?_⟩
    intro name
    rw [hlook _ hwf2 name, hlook es hwf name, hes, last_value_swap pre post x y name hdis]

/-- The three tag events on the fresh job, ended by a handoff whose duration
query answers 5, with the delivered list shown. -/
theorem tags_merge_last_wins_witness :
    fresh_live_a.queue = { addr := 94355207492144, uri := "a", id := 1 } :: [] ∧
      fresh_live_a.src = .attached "a" ∧
      fresh_live_a.current_tag_list = none ∧
      (∀ e ∈ three_tag_events, (gst_tag_list_names e).Nodup) ∧
      (Op.handoff (some 5)).terminates = true ∧
      (run all_uris fresh_live_a (three_tag_events.map Op.tag ++ [.handoff (some 5)])).map
          (fun r => notifications r.trace) =
        .ok [("a", none, some [("title", .string "z"), ("artist", .string "y"),
                                ("bitrate", .uint 128), ("duration", .int64 5)])] ∧
      ∃ t1 T, run all_uris fresh_live_a
          (three_tag_events.map Op.tag ++ [.handoff (some 5)]) = .ok t1 ∧
        notifications t1.trace =
          notifications fresh_live_a.trace ++
            [("a", (Op.handoff (some 5)).notified_error fresh_live_a.current_error, T)] ∧
        (∀ name, gst_tag_list_lookup (T.getD []) name =
          match (Op.handoff (some 5)).queried_duration with
          | some n =>
              if name = GST_TAG_DURATION then some (.int64 n)
              else last_value three_tag_events name
          | none => last_value three_tag_events name) ∧
        (∀ name, name ∈ gst_tag_list_names (T.getD []) ↔
          (∃ e ∈ three_tag_events, name ∈ gst_tag_list_names e) ∨
            ((Op.handoff (some 5)).queried_duration.isSome = true ∧
              name = GST_TAG_DURATION)) ∧
        (∀ pre x y post, three_tag_events = pre ++ x :: y :: post →
          (∀ n, n ∈ gst_tag_list_names x → n ∉ gst_tag_list_names y) →
          ∃ t2 T2, run all_uris fresh_live_a
              ((pre ++ y :: x :: post).map Op.tag ++ [.handoff (some 5)]) = .ok t2 ∧
            notifications t2.trace =
              notifications fresh_live_a.trace ++
                [("a", (Op.handoff (some 5)).notified_error fresh_live_a.current_error, T2)] ∧
            ∀ name, gst_tag_list_lookup (T2.getD []) name =
              gst_tag_list_lookup (T.getD []) name) :=
  ⟨rfl, rfl, rfl, by decide, rfl, rfl,
    tags_merge_last_wins all_uris fresh_live_a
      { addr := 94355207492144, uri := "a", id := 1 } []
      three_tag_events (.handoff (some 5)) rfl rfl rfl (by decide) (Or.inl rfl)⟩

/-! ## The handoff of the first buffer -/

/-- What the flush followed by the feed does on a live head: one notification
for the head, the head popped, and the framework asked for a source for the
next job, if any. -/
theorem flush_feed_spec (g : GStreamer) (t : TagReaderPrivate) (d : ScanUriData)
    (rest : List ScanUriData) (hq : t.queue = d :: rest) (hs : t.src = .attached d.uri) :
    ∃ t1, (flush_head t).map (feed_head g) = .ok t1 ∧ t1.queue = rest ∧
      notifications t1.trace =
        notifications t.trace ++ [(d.uri, t.current_error, t.current_tag_list)] ∧
      (rest = [] → t1.pipeline_state = .NULL ∧ t1.src = .released ∧
        t1.trace = t.trace ++
          [.set_state .NULL, .unlink d.uri, .bin_remove d.uri,
           .uri_scanned d.uri t.current_error t.current_tag_list]) ∧
      (∀ d2 r, rest = d2 :: r → t1.pipeline_state = .PLAYING ∧
        t1.src = gst_element_make_from_uri g d2.uri ∧
        t1.trace = t.trace ++
          [.set_state .NULL, .unlink d.uri, .bin_remove d.uri,
           .uri_scanned d.uri t.current_error t.current_tag_list, .make_from_uri d2.uri] ++
          (if g.has_source d2.uri then [.bin_add d2.uri, .link d2.uri]
           else [.critical, .critical]) ++ [.set_state .PLAYING]) := by
  refine ⟨_, flush_feed_attached g t d.uri d rest hs hq, ?_, ?_, ?_, ?_⟩
  · simp [feed_head_queue]
  · simp [feed_head_notifications, notifications_append, notifications]
  · intro hr; subst hr; simp [feed_head]
  · intro d2 r hr
    subst hr
    by_cases hg : g.has_source d2.uri = true <;>
      simp [feed_head, gst_element_make_from_uri, hg]

/-- A handoff message from the sink, handled while the head job is live,
succeeds in both cases.  If the duration query answers `n`, the job is
notified with a tag list whose duration entry is `n` and whose other names
have the values accumulated so far.  If the query fails, the job is notified
with exactly the tag list accumulated so far, absent if there is none.  In
both cases the head is popped and, when a job is queued behind it, the
framework is asked for a source for that job's URI and the pipeline is
started; the source is added and linked when the framework makes one, and
else `priv->src` is `NULL` and the two calls are refused. -/
theorem handoff_delivers_duration (g : GStreamer) (t : TagReaderPrivate) (d : ScanUriData)
    (rest : List ScanUriData) (hq : t.queue = d :: rest) (hs : t.src = .attached d.uri) :
    (∀ n : Int, ∃ t1 T,
      bus_message_application_cb g t true "handoff" (some n) = .ok t1 ∧
      notifications t1.trace = notifications t.trace ++ [(d.uri, t.current_error, some T)] ∧
      gst_tag_list_lookup T GST_TAG_DURATION = some (.int64 n) ∧
      (∀ name, name ≠ GST_TAG_DURATION →
        gst_tag_list_lookup T name = gst_tag_list_lookup (t.current_tag_list.getD []) name) ∧
      t1.queue = rest ∧
      (∀ d2 r, rest = d2 :: r → t1.pipeline_state = .PLAYING ∧
        t1.src = gst_element_make_from_uri g d2.uri ∧
        t1.trace = t.trace ++
          [.set_state .NULL, .unlink d.uri, .bin_remove d.uri,
           .uri_scanned d.uri t.current_error (some T), .make_from_uri d2.uri] ++
          (if g.has_source d2.uri then [.bin_add d2.uri, .link d2.uri]
           else [.critical, .critical]) ++ [.set_state .PLAYING])) ∧
    (∃ t1, bus_message_application_cb g t true "handoff" none = .ok t1 ∧
      notifications t1.trace =
        notifications t.trace ++ [(d.uri, t.current_error, t.current_tag_list)] ∧
      t1.queue = rest ∧
      (∀ d2 r, rest = d2 :: r → t1.pipeline_state = .PLAYING ∧
        t1.src = gst_element_make_from_uri g d2.uri ∧
        t1.trace = t.trace ++
          [.set_state .NULL, .unlink d.uri, .bin_remove d.uri,
           .uri_scanned d.uri t.current_error t.current_tag_list, .make_from_uri d2.uri] ++
          (if g.has_source d2.uri then [.bin_add d2.uri, .link d2.uri]
           else [.critical, .critical]) ++ [.set_state .PLAYING])) := by
  constructor
  · intro n
    obtain ⟨t1, h1, hq1, hn1, _, hfed⟩ := flush_feed_spec g (merge_duration t n) d rest hq hs
    refine ⟨t1, gst_tag_list_add (t.current_tag_list.getD []) GST_TAG_DURATION (.int64 n),
      (application_cb_handoff_some g t n).trans h1, hn1, ?_, ?_, hq1, hfed⟩
    · simp [gst_tag_list_add, lookup_set_value]
    · intro name hne
      have hne1 : ¬ GST_TAG_DURATION = name := fun h => hne h.symm
      simp [gst_tag_list_add, lookup_set_value, hne1]
  · obtain ⟨t1, h1, hq1, hn1, _, hfed⟩ := flush_feed_spec g t d rest hq hs
    exact ⟨t1, (application_cb_handoff_none g t).trans h1, hn1, hq1, hfed⟩

/-- C10. A handoff message from the sink, handled while the head job is live,
delivers the job with the queried duration replacing any earlier duration and
every other tag unchanged, or with exactly the accumulated tags when the query
fails, and pops the head: this holds for every framework.  But the next job
is fed without a check of what the framework answers.  In a framework with
sources for `file` URIs only, job `file:///a.ogg` is live with a title read
and job `mms://radio/b` waits behind it; the handoff for the first delivers
title and duration and leaves `priv->src` `NULL`: no source is made for the
second job, `gst_bin_add` and `gst_element_link` are called with `NULL`, and
the pipeline is started without a source. -/
theorem handoff_feeds_missing_source :
    (∀ (g : GStreamer) (t : TagReaderPrivate) (d : ScanUriData) (rest : List ScanUriData),
      t.queue = d :: rest → t.src = .attached d.uri →
      (∀ n : Int, ∃ t1 T,
        bus_message_application_cb g t true "handoff" (some n) = .ok t1 ∧
        notifications t1.trace = notifications t.trace ++ [(d.uri, t.current_error, some T)] ∧
        gst_tag_list_lookup T GST_TAG_DURATION = some (.int64 n) ∧
        (∀ name, name ≠ GST_TAG_DURATION →
          gst_tag_list_lookup T name =
            gst_tag_list_lookup (t.current_tag_list.getD []) name) ∧
        t1.queue = rest ∧
        (∀ d2 r, rest = d2 :: r → t1.pipeline_state = .PLAYING ∧
          t1.src = gst_element_make_from_uri g d2.uri ∧
          t1.trace = t.trace ++
            [.set_state .NULL, .unlink d.uri, .bin_remove d.uri,
             .uri_scanned d.uri t.current_error (some T), .make_from_uri d2.uri] ++
            (if g.has_source d2.uri then [.bin_add d2.uri, .link d2.uri]
             else [.critical, .critical]) ++ [.set_state .PLAYING])) ∧
      (∃ t1, bus_message_application_cb g t true "handoff" none = .ok t1 ∧
        notifications t1.trace =
          notifications t.trace ++ [(d.uri, t.current_error, t.current_tag_list)] ∧
        t1.queue = rest ∧
        (∀ d2 r, rest = d2 :: r → t1.pipeline_state = .PLAYING ∧
          t1.src = gst_element_make_from_uri g d2.uri ∧
          t1.trace = t.trace ++
            [.set_state .NULL, .unlink d.uri, .bin_remove d.uri,
             .uri_scanned d.uri t.current_error t.current_tag_list, .make_from_uri d2.uri] ++
            (if g.has_source d2.uri then [.bin_add d2.uri, .link d2.uri]
             else [.critical, .critical]) ++ [.set_state .PLAYING]))) ∧
    file_uris_only.has_source "file:///a.ogg" = true ∧
    file_uris_only.has_source "mms://radio/b" = false ∧
    run file_uris_only tag_reader_init
        [.scan_uri "file:///a.ogg" 94355207492144, .scan_uri "mms://radio/b" 94355207492176,
         .tag [("title", .string "x"), ("duration", .int64 1)], .handoff (some 5)] =
      .ok { src := .null
            queue := [{ addr := 94355207492176, uri := "mms://radio/b", id := 2 }]
            next_id := 3
            current_error := none
            current_tag_list := none
            pipeline_state := .PLAYING
            trace := [.make_from_uri "file:///a.ogg", .bin_add "file:///a.ogg",
                      .link "file:///a.ogg", .set_state .PLAYING,
                      .set_state .NULL, .unlink "file:///a.ogg", .bin_remove "file:///a.ogg",
                      .uri_scanned "file:///a.ogg" none
                        (some [("title", .string "x"), ("duration", .int64 5)]),
                      .make_from_uri "mms://radio/b", .critical, .critical,
                      .set_state .PLAYING] } :=
  ⟨handoff_delivers_duration, by decide, by decide, rfl⟩

/-! ## Cancelling an id that no job has -/

/-- C11. Two submits return the ids 1 and 2.  A cancel whose argument is the
low 32 bits of the pointer of job `b` (no queued job has that id) removes `b`
from the queue without a warning; a cancel whose argument is the low 32 bits
of the pointer of the head `a` stops the pipeline, detaches the source and
emits a `uri-scanned` notification for `a`.  In neither case is the state left
unchanged. -/
theorem cancel_of_unknown_id_changes_state :
    returned_ids all_uris tag_reader_init
        [.scan_uri "a" 94355207492144, .scan_uri "b" 94355207492176] = [1, 2] ∧
    94355207492176 % 2 ^ 32 = 3365933648 ∧
    run all_uris tag_reader_init
        [.scan_uri "a" 94355207492144, .scan_uri "b" 94355207492176, .cancel 3365933648] =
      .ok { src := .attached "a"
            queue := [{ addr := 94355207492144, uri := "a", id := 1 }]
            next_id := 3
            current_error := none
            current_tag_list := none
            pipeline_state := .PLAYING
            trace := [.make_from_uri "a", .bin_add "a", .link "a", .set_state .PLAYING] } ∧
    94355207492144 % 2 ^ 32 = 3365933616 ∧
    run all_uris tag_reader_init
        [.scan_uri "a" 94355207492144, .scan_uri "b" 94355207492176,
         .tag [("title", .string "x")], .cancel 3365933616] =
      .ok { src := .released
            queue := [{ addr := 94355207492176, uri := "b", id := 2 }]
            next_id := 3
            current_error := none
            current_tag_list := none
            pipeline_state := .NULL
            trace := [.make_from_uri "a", .bin_add "a", .link "a", .set_state .PLAYING,
                      .set_state .NULL, .unlink "a", .bin_remove "a",
                      .uri_scanned "a" none (some [("title", .string "x")])] } :=
  ⟨rfl, by decide, rfl, by decide, rfl⟩

/-! ## The lookup by scan id -/

/-- C26. The comparator answers 0 exactly when the low 32 bits of the element
pointer equal the requested id; the `id` field of the element is not read.  In
the queue that two submits build (ids 1 and 2), the lookup of id 2 finds no
link although job `b` has that id, and the lookup of 3365933648, which is no
job's id but the low 32 bits of the pointer of `b`, finds the link of `b`. -/
theorem lookup_compares_pointer_with_id :
    (∀ a b : Nat, find_scan_uri_data a b = 0 ↔ a % 2 ^ 32 = b % 2 ^ 32) ∧
    (tag_reader_scan_uri all_uris
      (tag_reader_scan_uri all_uris tag_reader_init (some "a") 94355207492144).1
        (some "b") 94355207492176).1.queue =
      [{ addr := 94355207492144, uri := "a", id := 1 },
       { addr := 94355207492176, uri := "b", id := 2 }] ∧
    find_scan_uri_data 94355207492176 2 = 1 ∧
    g_queue_find_custom
        [{ addr := 94355207492144, uri := "a", id := 1 },
         { addr := 94355207492176, uri := "b", id := 2 }] 2 find_scan_uri_data = none ∧
    find_scan_uri_data 94355207492176 3365933648 = 0 ∧
    g_queue_find_custom
        [{ addr := 94355207492144, uri := "a", id := 1 },
         { addr := 94355207492176, uri := "b", id := 2 }] 3365933648 find_scan_uri_data =
      some 1 := by
  refine ⟨?_, rfl, by decide, by decide, by decide, by decide⟩
  intro a b
  unfold find_scan_uri_data
  by_cases h1 : a % 2 ^ 32 < b % 2 ^ 32
  · simp only [h1, if_true]
    constructor
    · intro h; exact absurd h (by decide)
    · intro h; omega
  · by_cases h2 : a % 2 ^ 32 > b % 2 ^ 32
    · simp only [h1, h2, if_true, if_false]
      constructor
      · intro h; exact absurd h (by decide)
      · intro h; omega
    · simp only [h1, h2, if_false]
      constructor
      · intro _; omega
      · intro _; trivial

/-! ## Events on an empty queue -/

/-- C28. On a fresh reader, whose queue is empty, each of the four
job-terminating handlers ends in a null dereference: `flush_head` pops nothing
and reads the URI of the missing head.  A second handoff for a job that the
first handoff has flushed ends in the use of the released source. -/
theorem terminating_event_on_empty_queue_faults :
    bus_message_error_cb all_uris tag_reader_init decode_error = .error .null_deref ∧
    bus_message_eos_cb all_uris tag_reader_init = .error .null_deref ∧
    decodebin_unknown_type_cb all_uris tag_reader_init = .error .null_deref ∧
    bus_message_application_cb all_uris tag_reader_init true "handoff" none = .error .null_deref ∧
    flush_head tag_reader_init = .error .null_deref ∧
    (run all_uris tag_reader_init [.scan_uri "a" 94355207492144, .handoff (some 5)]).map
        (fun t => (t.queue, t.src)) = .ok ([], .released) ∧
    run all_uris tag_reader_init
        [.scan_uri "a" 94355207492144, .handoff (some 5), .handoff (some 5)] =
      .error .use_after_free :=
  ⟨rfl, rfl, rfl, rfl, rfl, rfl, rfl⟩

/-! ## A handler that submits -/

theorem flush_head_reentrant_nil (g : GStreamer) (t : TagReaderPrivate) :
    flush_head_reentrant g t [] = flush_head t := rfl

/-- C29. Job `a` is the only job and ends by end of stream; the handler of
`uri-scanned` submits `b`.  The submit sees a queue of length 1 and feeds `b`,
and the `feed_head` that the end-of-stream handler runs after `flush_head`
feeds `b` again: two sources are made for `b`, and the pipeline is started
twice. -/
theorem handler_submit_feeds_twice :
    (bus_message_eos_cb_reentrant all_uris
        (tag_reader_scan_uri all_uris tag_reader_init (some "a") 94355207492144).1
        [("b", 94355207492176)]) =
      .ok { src := .attached "b"
            queue := [{ addr := 94355207492176, uri := "b", id := 2 }]
            next_id := 3
            current_error := none
            current_tag_list := none
            pipeline_state := .PLAYING
            trace := [.make_from_uri "a", .bin_add "a", .link "a", .set_state .PLAYING,
                      .set_state .NULL, .unlink "a", .bin_remove "a",
                      .uri_scanned "a" none none,
                      .make_from_uri "b", .bin_add "b", .link "b", .set_state .PLAYING,
                      .make_from_uri "b", .bin_add "b", .link "b", .set_state .PLAYING] } ∧
    (bus_message_eos_cb_reentrant all_uris
        (tag_reader_scan_uri all_uris tag_reader_init (some "a") 94355207492144).1
        [("b", 94355207492176)]).map (fun t => sources_made t.trace "b") = .ok 2 :=
  ⟨rfl, rfl⟩

/-! ## Accumulators are per job -/

theorem flush_head_clears (t t1 : TagReaderPrivate) (h : flush_head t = .ok t1) :
    t1.current_error = none ∧ t1.current_tag_list = none := by
  unfold flush_head at h
  cases hs : t.src <;> cases hq : t.queue <;> simp [hs, hq] at h <;> subst h <;> exact ⟨rfl, rfl⟩

theorem feed_head_accumulators (g : GStreamer) (t : TagReaderPrivate) :
    (feed_head g t).current_error = t.current_error ∧
      (feed_head g t).current_tag_list = t.current_tag_list := by
  unfold feed_head
  split
  · exact ⟨rfl, rfl⟩
  · split <;> exact ⟨rfl, rfl⟩

theorem flush_feed_clears (g : GStreamer) (t t1 : TagReaderPrivate)
    (h : (flush_head t).map (feed_head g) = .ok t1) :
    t1.current_error = none ∧ t1.current_tag_list = none := by
  cases hf : flush_head t with
  | error f => simp [hf, Except.map] at h
  | ok t2 =>
      simp [hf, Except.map] at h
      subst h
      obtain ⟨h1, h2⟩ := flush_head_clears t t2 hf
      obtain ⟨h3, h4⟩ := feed_head_accumulators g t2
      exact ⟨h3.trans h1, h4.trans h2⟩

/-- Every job-terminating event and every cancellation that flushes the head
leaves both accumulators empty. -/
theorem step_clears (g : GStreamer) (t t1 : TagReaderPrivate) (op : Op) (h : step g t op = .ok t1)
    (hop : op.terminates = true ∨
      ∃ scan_id, op = .cancel scan_id ∧
        g_queue_find_custom t.queue scan_id find_scan_uri_data = some 0) :
    t1.current_error = none ∧ t1.current_tag_list = none := by
  cases op with
  | scan_uri uri addr => simp [Op.terminates] at hop
  | tag tags => simp [Op.terminates] at hop
  | error e => exact flush_feed_clears g _ t1 h
  | eos => exact flush_feed_clears g _ t1 h
  | unknown_type => exact flush_feed_clears g _ t1 h
  | handoff d =>
      cases d with
      | none => exact flush_feed_clears g t t1 ((application_cb_handoff_none g t).symm.trans h)
      | some n =>
          exact flush_feed_clears g (merge_duration t n) t1
            ((application_cb_handoff_some g t n).symm.trans h)
  | cancel scan_id =>
      rcases hop with hop | ⟨id2, heq, hfound⟩
      · simp [Op.terminates] at hop
      · cases heq
        simp only [step, tag_reader_cancel_scan_uri, hfound] at h
        exact flush_head_clears t t1 h

theorem step_terminating_spec (s : ScanEngine) (op : Op) (hop : op.terminates = true) :
    ScanEngine.step s op = s.deliver op.delivered_error op.delivered_tags := by
  cases op with
  | handoff d => cases d <;> rfl
  | scan_uri uri addr => simp [Op.terminates] at hop
  | tag tags => simp [Op.terminates] at hop
  | cancel scan_id => simp [Op.terminates] at hop
  | error e => rfl
  | eos => rfl
  | unknown_type => rfl

/-- A job-terminating event on a live head with no error recorded: the result
in full. -/
theorem step_terminates_full (g : GStreamer) (t : TagReaderPrivate) (op : Op) (d : ScanUriData)
    (rest : List ScanUriData) (hop : op.terminates = true) (hq : t.queue = d :: rest)
    (hinv : SourceFollowsHead g t) (herr : t.current_error = none) :
    ∃ t1, step g t op = .ok t1 ∧ t1.queue = rest ∧ SourceFollowsHead g t1 ∧
      t1.current_error = none ∧ t1.current_tag_list = none ∧
      notifications t1.trace =
        notifications t.trace ++
          [(d.uri, op.delivered_error, op.delivered_tags t.current_tag_list)] := by
  have hs : t.src ≠ .released := by
    have hsrc : t.src = gst_element_make_from_uri g d.uri := by
      simpa [SourceFollowsHead, hq] using hinv
    rw [hsrc]; exact make_from_uri_ne_released g d.uri
  obtain ⟨t1, h1, hq1, _, hinv1⟩ := step_terminates g t op d rest hop hq hinv
  obtain ⟨hc1, hc2⟩ := step_clears g t t1 op h1 (Or.inl hop)
  obtain ⟨t2, h2, hn2⟩ := step_ending_notifies g t d rest op hq hs (Or.inl hop)
  have h12 : t1 = t2 := Except.ok.inj (h1.symm.trans h2)
  subst h12
  refine ⟨t1, h1, hq1, hinv1, hc1, hc2, ?_⟩
  rw [hn2, herr]
  cases op <;> simp [Op.terminates] at hop <;> rfl

theorem events_while_live_terminating (n : Nat) (op : Op) (rest : List Op)
    (hop : op.terminates = true) :
    events_while_live n (op :: rest) = true ↔
      0 < n ∧ events_while_live (n - 1) rest = true := by
  cases op <;> cases n <;> simp_all [events_while_live, Op.terminates]

theorem events_while_live_tag (n : Nat) (tags : GstTagList) (rest : List Op) :
    events_while_live n (.tag tags :: rest) = true ↔
      0 < n ∧ events_while_live n rest = true := by
  cases n <;> simp [events_while_live]

theorem scan_uri_fields (g : GStreamer) (t : TagReaderPrivate) (uri : String) (addr : Nat) :
    notifications (tag_reader_scan_uri g t (some uri) addr).1.trace = notifications t.trace ∧
      (tag_reader_scan_uri g t (some uri) addr).1.current_error = t.current_error ∧
      (tag_reader_scan_uri g t (some uri) addr).1.current_tag_list = t.current_tag_list := by
  simp only [tag_reader_scan_uri]
  split
  · exact ⟨feed_head_notifications g _, (feed_head_accumulators g _).1,
      (feed_head_accumulators g _).2⟩
  · exact ⟨rfl, rfl, rfl⟩

theorem spec_run_cons (s : ScanEngine) (op : Op) (ops : List Op) :
    ScanEngine.run s (op :: ops) = ScanEngine.run (ScanEngine.step s op) ops := rfl

/-- The reader follows the scan engine of the data model along every run in
which tag events and job-terminating events arrive only while a job is
queued. -/
theorem run_agrees (g : GStreamer) (ops : List Op) :
    ∀ (t : TagReaderPrivate) (s : ScanEngine), Agrees g t s →
      events_while_live t.queue.length ops = true →
      ∃ t1, run g t ops = .ok t1 ∧ Agrees g t1 (ScanEngine.run s ops) := by
  induction ops with
  | nil => intro t s h _; exact ⟨t, rfl, h⟩
  | cons op rest ih =>
      intro t s hag hev
      obtain ⟨hq, hn, hinv, herr, hjerr, htail, htags⟩ := hag
      have hlen : t.queue.length = s.queue.length := by
        have := congrArg List.length hq
        simpa using this
      by_cases hterm : op.terminates = true
      · -- a job-terminating event
        obtain ⟨hpos, hev1⟩ := (events_while_live_terminating _ op rest hterm).mp hev
        cases htq : t.queue with
        | nil => simp [htq] at hpos
        | cons d q =>
            cases hsq : s.queue with
            | nil => simp [htq, hsq] at hlen
            | cons j sq =>
                obtain ⟨t1, h1, hq1, hinv1, he1, hc1, hn1⟩ :=
                  step_terminates_full g t op d q hterm htq hinv herr
                have huri : d.uri = j.uri ∧ q.map (fun d => d.uri) = sq.map (fun j => j.uri) := by
                  simpa [htq, hsq] using hq
                have hhead : t.current_tag_list = j.accumulated_tags := by
                  simpa [hsq] using htags
                have hag1 : Agrees g t1 (ScanEngine.step s op) := by
                  rw [step_terminating_spec s op hterm]
                  simp only [ScanEngine.deliver, hsq]
                  refine ⟨by rw [hq1]; exact huri.2, ?_, hinv1, he1, ?_, ?_, ?_⟩
                  · rw [hn1, hn, huri.1, hhead]
                  · intro j1 hj1
                    exact hjerr j1 (by rw [hsq]; exact List.mem_cons_of_mem _ hj1)
                  · intro j1 hj1
                    exact htail j1 (by rw [hsq]; exact List.mem_of_mem_tail hj1)
                  · rw [hc1]
                    cases sq with
                    | nil => rfl
                    | cons j2 sq2 =>
                        have := htail j2 (by rw [hsq]; simp)
                        simp [this]
                obtain ⟨t2, h2, hag2⟩ := ih t1 (ScanEngine.step s op) hag1
                  (by rw [hq1]; simpa [htq] using hev1)
                exact ⟨t2, by simp only [run, h1]; exact h2, by rw [spec_run_cons]; exact hag2⟩
      · cases op with
        | error e => simp [Op.terminates] at hterm
        | eos => simp [Op.terminates] at hterm
        | unknown_type => simp [Op.terminates] at hterm
        | handoff d => simp [Op.terminates] at hterm
        | cancel scan_id => simp [events_while_live] at hev
        | scan_uri uri addr =>
            obtain ⟨t1, h1, hq1, _, hinv1⟩ := step_scan_uri g t uri addr hinv
            have h1eq : t1 = (tag_reader_scan_uri g t (some uri) addr).1 :=
              (Except.ok.inj h1).symm
            obtain ⟨hf1, hf2, hf3⟩ := scan_uri_fields g t uri addr
            have hag1 : Agrees g t1 (ScanEngine.step s (.scan_uri uri addr)) := by
              subst h1eq
              simp only [ScanEngine.step]
              refine ⟨by rw [hq1]; simp [hq], by rw [hf1]; exact hn, hinv1,
                by rw [hf2]; exact herr, ?_, ?_, ?_⟩
              · intro j1 hj1
                rcases List.mem_append.mp hj1 with h | h
                · exact hjerr j1 h
                · simp at h; subst h; rfl
              · intro j1 hj1
                cases hsq : s.queue with
                | nil => simp [hsq] at hj1
                | cons j sq =>
                    simp only [hsq, List.cons_append, List.tail_cons, List.mem_append] at hj1
                    rcases hj1 with h | h
                    · exact htail j1 (by rw [hsq]; exact h)
                    · simp at h; subst h; rfl
              · rw [hf3, htags]
                cases hsq : s.queue <;> simp
            obtain ⟨t2, h2, hag2⟩ := ih t1 _ hag1
              (by rw [hq1]; simpa [events_while_live] using hev)
            exact ⟨t2, by simp only [run, h1]; exact h2, by rw [spec_run_cons]; exact hag2⟩
        | tag tags =>
            obtain ⟨hpos, hev1⟩ := (events_while_live_tag _ tags rest).mp hev
            cases hsq : s.queue with
            | nil => simp [hlen, hsq] at hpos
            | cons j sq =>
                have hhead : t.current_tag_list = j.accumulated_tags := by
                  simpa [hsq] using htags
                have hag1 :
                    Agrees g (bus_message_tag_cb t tags) (ScanEngine.step s (.tag tags)) := by
                  simp only [ScanEngine.step, hsq, bus_message_tag_cb]
                  refine ⟨by simpa [hsq] using hq, hn, hinv, herr, ?_, ?_, ?_⟩
                  · intro j1 hj1
                    rcases List.mem_cons.mp hj1 with h | h
                    · subst h; exact hjerr j (by rw [hsq]; simp)
                    · exact hjerr j1 (by rw [hsq]; exact List.mem_cons_of_mem _ h)
                  · intro j1 hj1
                    exact htail j1 (by rw [hsq]; exact hj1)
                  · simp [hhead]
                obtain ⟨t2, h2, hag2⟩ := ih _ _ hag1 hev1
                exact ⟨t2, h2, by rw [spec_run_cons]; exact hag2⟩

/-- C27. Every flush of the head job leaves the recorded error and the
accumulated tag list empty, whether it is caused by an error, end of stream,
an unknown type, a handoff or a cancellation that finds the head.  Hence, in
every run from a fresh reader in which tag events and job-terminating events
arrive only while a job is queued, the run completes and the notifications are
exactly those of the scan engine of the data model, in which every job has
accumulators of its own: no notification carries an error or a tag of an
earlier job.  This holds whatever the framework answers when it is asked for a
source. -/
theorem accumulators_are_per_job (g : GStreamer) (ops : List Op)
    (h : events_while_live 0 ops = true) :
    (∀ t t1 : TagReaderPrivate, flush_head t = .ok t1 →
      t1.current_error = none ∧ t1.current_tag_list = none) ∧
    (∀ (t t1 : TagReaderPrivate) (op : Op), step g t op = .ok t1 →
      (op.terminates = true ∨
        ∃ scan_id, op = .cancel scan_id ∧
          g_queue_find_custom t.queue scan_id find_scan_uri_data = some 0) →
      t1.current_error = none ∧ t1.current_tag_list = none) ∧
    (∃ t, run g tag_reader_init ops = .ok t ∧
      notifications t.trace = (ScanEngine.run ScanEngine.idle ops).delivered) := by
  refine ⟨flush_head_clears, step_clears g, ?_⟩
  have hag : Agrees g tag_reader_init ScanEngine.idle := by
    simp [Agrees, SourceFollowsHead, tag_reader_init, ScanEngine.idle, notifications]
  obtain ⟨t, hrun, hag1⟩ := run_agrees g ops tag_reader_init ScanEngine.idle hag h
  exact ⟨t, hrun, hag1.2.1⟩

/-- The run `two_jobs_with_tags`: job `a` is delivered with its error and its
title, job `b` with its artist only. -/
theorem accumulators_are_per_job_witness :
    events_while_live 0 two_jobs_with_tags = true ∧
      (run all_uris tag_reader_init two_jobs_with_tags).map (fun t => notifications t.trace) =
        .ok [("a", some decode_error, some [("title", .string "x")]),
             ("b", none, some [("artist", .string "y")])] ∧
      ((∀ t t1 : TagReaderPrivate, flush_head t = .ok t1 →
        t1.current_error = none ∧ t1.current_tag_list = none) ∧
      (∀ (t t1 : TagReaderPrivate) (op : Op), step all_uris t op = .ok t1 →
        (op.terminates = true ∨
          ∃ scan_id, op = .cancel scan_id ∧
            g_queue_find_custom t.queue scan_id find_scan_uri_data = some 0) →
        t1.current_error = none ∧ t1.current_tag_list = none) ∧
      (∃ t, run all_uris tag_reader_init two_jobs_with_tags = .ok t ∧
        notifications t.trace =
          (ScanEngine.run ScanEngine.idle two_jobs_with_tags).delivered)) :=
  ⟨by decide, rfl, accumulators_are_per_job all_uris two_jobs_with_tags (by decide)⟩

end TagReader

/-! # Theorems about the playback controller -/

namespace AudioPlayer

/-! ## Facts that hold of every reachable player -/

theorem live_sources_append (a b : List Effect) :
    live_sources (a ++ b) =
      b.foldl
        (fun acc e =>
          match e with
          | .timeout_add id => acc ++ [id]
          | .source_remove id => acc.erase id
          | _ => acc)
        (live_sources a) := by
  simp [live_sources, List.foldl_append]

theorem consistent_init (has_playbin : Bool) : Consistent (audio_player_init has_playbin) := by
  cases has_playbin <;> simp [Consistent, audio_player_init, live_sources]

theorem run_cons (p : AudioPlayerPrivate) (op : Op) (ops : List Op) :
    run p (op :: ops) = run (step p op) ops := rfl

theorem run_append (p : AudioPlayerPrivate) (a b : List Op) :
    run p (a ++ b) = run (run p a) b := by
  simp [run, List.foldl_append]

/-- A state-changed message that does not report the playbin going from ready
to paused changes nothing. -/
theorem state_change_other (p : AudioPlayerPrivate) (src_is_playbin : Bool)
    (old_state new_state : GstState) (seeking : Option Bool) (duration : Option Int)
    (h : ¬ (src_is_playbin = true ∧ old_state = .READY ∧ new_state = .PAUSED)) :
    bus_message_state_change_cb p src_is_playbin old_state new_state seeking duration = p := by
  cases src_is_playbin
  · simp [bus_message_state_change_cb]
  · have hc : ¬ (old_state = .READY ∧ new_state = .PAUSED) := fun hc => h ⟨rfl, hc⟩
    simp only [bus_message_state_change_cb, Bool.not_true, Bool.false_eq_true, if_false,
      if_neg hc]

theorem consistent_set_uri (p : AudioPlayerPrivate) (uri : Option String)
    (to_null restore : StateChange) (h : Consistent p) :
    Consistent (audio_player_set_uri p uri to_null restore) := by
  cases hp : p.playbin with
  | none => simp only [audio_player_set_uri, hp]; exact h
  | some e =>
      obtain ⟨h1, h2, h3⟩ := h
      cases uri with
      | some u =>
          by_cases ht : p.tick_timeout_id = 0
          · have hu : p.uri.isSome = false := by
              cases hx : p.uri.isSome
              · rfl
              · exact absurd ht (h2.mpr hx)
            simp [hu] at h3
            simp [Consistent, audio_player_set_uri, hp, ht, live_sources_append, h3]
          · have hu : p.uri.isSome = true := h2.mp ht
            simp [hu] at h3
            simp [Consistent, audio_player_set_uri, hp, ht, live_sources_append, h3]
      | none =>
          by_cases ht : p.tick_timeout_id = 0
          · have hu : p.uri.isSome = false := by
              cases hx : p.uri.isSome
              · rfl
              · exact absurd ht (h2.mpr hx)
            simp [hu] at h3
            simp [Consistent, audio_player_set_uri, hp, ht, live_sources_append, h3]
          · have hu : p.uri.isSome = true := h2.mp ht
            have hpos : p.tick_timeout_id > 0 := Nat.pos_of_ne_zero ht
            simp [hu] at h3
            simp [Consistent, audio_player_set_uri, hp, hpos, live_sources_append, h3]

/-- Every operation keeps a player consistent. -/
theorem consistent_step (p : AudioPlayerPrivate) (op : Op) (h : Consistent p) :
    Consistent (step p op) := by
  cases op with
  | set_uri uri to_null restore => exact consistent_set_uri p uri to_null restore h
  | set_playing playing how =>
      cases hp : p.playbin with
      | none => simp only [step, audio_player_set_playing, hp]; exact h
      | some e =>
          obtain ⟨h1, h2, h3⟩ := h
          cases hu : p.uri.isSome <;> cases playing <;>
            simp_all [Consistent, step, audio_player_set_playing, live_sources_append]
  | set_position position to_paused restore =>
      cases hp : p.playbin with
      | none => simp only [step, audio_player_set_position, hp]; exact h
      | some e =>
          obtain ⟨h1, h2, h3⟩ := h
          simp_all [Consistent, step, audio_player_set_position, live_sources_append]
  | set_volume volume =>
      simp only [step, audio_player_set_volume]
      split
      · obtain ⟨h1, h2, h3⟩ := h
        simp_all [Consistent, live_sources_append]
      · cases hp : p.playbin with
        | none => exact h
        | some e =>
            obtain ⟨h1, h2, h3⟩ := h
            simp_all [Consistent, live_sources_append]
  | error e =>
      obtain ⟨h1, h2, h3⟩ := h
      cases hp : p.playbin <;>
        simp_all [Consistent, step, bus_message_error_cb, live_sources_append]
  | eos =>
      obtain ⟨h1, h2, h3⟩ := h
      cases hp : p.playbin <;>
        simp_all [Consistent, step, bus_message_eos_cb, live_sources_append]
  | tag tag_list =>
      obtain ⟨h1, h2, h3⟩ := h
      cases hp : p.playbin <;>
        simp_all [Consistent, step, bus_message_tag_cb, live_sources_append]
  | buffering str =>
      obtain ⟨h1, h2, h3⟩ := h
      cases hp : p.playbin <;> rcases str with _ | _ | percent <;>
        simp_all [Consistent, step, bus_message_buffering_cb, live_sources_append]
  | duration format d =>
      obtain ⟨h1, h2, h3⟩ := h
      cases hp : p.playbin <;> by_cases hf : format = .TIME <;>
        simp_all [Consistent, step, bus_message_duration_cb, live_sources_append]
  | state_changed src_is_playbin old_state new_state seeking d =>
      cases hp : p.playbin with
      | none => simp only [step, hp, Option.isNone_none, if_true]; exact h
      | some e =>
          simp only [step, hp, Option.isNone_some, Bool.false_eq_true, if_false]
          by_cases hc : src_is_playbin = true ∧ old_state = .READY ∧ new_state = .PAUSED
          · obtain ⟨h1, h2, h3⟩ := h
            obtain ⟨hsrc, hold, hnew⟩ := hc
            subst hsrc hold hnew
            cases seeking <;> cases d <;> cases hu : p.uri <;>
              simp_all [Consistent, bus_message_state_change_cb, live_sources_append]
          · rw [state_change_other p src_is_playbin old_state new_state seeking d hc]
            exact h
  | tick =>
      obtain ⟨h1, h2, h3⟩ := h
      by_cases ht : p.tick_timeout_id = 0 <;>
        simp_all [Consistent, step, tick_timeout, live_sources_append]
  | element_moves state pending =>
      cases hp : p.playbin with
      | none => simp only [step, hp]; exact h
      | some e =>
          obtain ⟨h1, h2, h3⟩ := h
          simp_all [Consistent, step]

/-- Every player reached from a fresh one is consistent. -/
theorem consistent_run (ops : List Op) :
    ∀ p : AudioPlayerPrivate, Consistent p → Consistent (run p ops) := by
  induction ops with
  | nil => intro p h; exact h
  | cons op rest ih => intro p h; rw [run_cons]; exact ih _ (consistent_step p op h)

/-! ## Loading a URI resets the derived fields -/

theorem reaches_paused_false (src_is_playbin : Bool) (old_state new_state : GstState)
    (seeking : Option Bool) (d : Option Int)
    (h : (Op.state_changed src_is_playbin old_state new_state seeking d).reaches_paused = false) :
    ¬ (src_is_playbin = true ∧ old_state = .READY ∧ new_state = .PAUSED) := by
  rintro ⟨rfl, rfl, rfl⟩
  simp [Op.reaches_paused] at h

/-- An operation other than the ready-to-paused message leaves `can_seek`
false. -/
theorem step_can_seek (p : AudioPlayerPrivate) (op : Op) (h : op.reaches_paused = false)
    (hc : p.can_seek = false) : (step p op).can_seek = false := by
  cases op with
  | set_uri uri to_null restore =>
      cases hp : p.playbin <;> simp [step, audio_player_set_uri, hp, hc]
  | set_playing playing how =>
      cases hp : p.playbin <;> simp [step, audio_player_set_playing, hp, hc]
      split <;> (try split) <;> simp [hc]
  | set_position position to_paused restore =>
      cases hp : p.playbin <;> simp [step, audio_player_set_position, hp, hc]
  | set_volume volume =>
      simp only [step, audio_player_set_volume]
      split
      · exact hc
      · cases hp : p.playbin <;> simp [hc]
  | error e => simp only [step, bus_message_error_cb]; split <;> exact hc
  | eos => simp only [step, bus_message_eos_cb]; split <;> exact hc
  | tag tag_list => simp only [step, bus_message_tag_cb]; split <;> exact hc
  | buffering str =>
      simp only [step]
      split
      · exact hc
      · rcases str with _ | _ | percent <;> simp [bus_message_buffering_cb, hc]
  | duration format d =>
      simp only [step, bus_message_duration_cb]
      split
      · exact hc
      · split <;> exact hc
  | state_changed src_is_playbin old_state new_state seeking d =>
      simp only [step]
      split
      · exact hc
      · rw [state_change_other p _ _ _ _ _ (reaches_paused_false _ _ _ _ _ h)]; exact hc
  | tick => simp only [step, tick_timeout]; split <;> exact hc
  | element_moves state pending => cases hp : p.playbin <;> simp [step, hp, hc]

/-- An operation other than the ready-to-paused message and the duration
message in time format leaves `duration` zero. -/
theorem step_duration (p : AudioPlayerPrivate) (op : Op) (h : op.reaches_paused = false)
    (h2 : op.time_duration = false) (hd : p.duration = 0) : (step p op).duration = 0 := by
  cases op with
  | set_uri uri to_null restore =>
      cases hp : p.playbin <;> simp [step, audio_player_set_uri, hp, hd]
  | set_playing playing how =>
      cases hp : p.playbin <;> simp [step, audio_player_set_playing, hp, hd]
      split <;> (try split) <;> simp [hd]
  | set_position position to_paused restore =>
      cases hp : p.playbin <;> simp [step, audio_player_set_position, hp, hd]
  | set_volume volume =>
      simp only [step, audio_player_set_volume]
      split
      · exact hd
      · cases hp : p.playbin <;> simp [hd]
  | error e => simp only [step, bus_message_error_cb]; split <;> exact hd
  | eos => simp only [step, bus_message_eos_cb]; split <;> exact hd
  | tag tag_list => simp only [step, bus_message_tag_cb]; split <;> exact hd
  | buffering str =>
      simp only [step]
      split
      · exact hd
      · rcases str with _ | _ | percent <;> simp [bus_message_buffering_cb, hd]
  | duration format d =>
      have hf : format ≠ .TIME := by
        rintro rfl
        simp [Op.time_duration] at h2
      simp only [step, bus_message_duration_cb]
      split
      · exact hd
      · simp [hf, hd]
  | state_changed src_is_playbin old_state new_state seeking d =>
      simp only [step]
      split
      · exact hd
      · rw [state_change_other p _ _ _ _ _ (reaches_paused_false _ _ _ _ _ h)]; exact hd
  | tick => simp only [step, tick_timeout]; split <;> exact hd
  | element_moves state pending => cases hp : p.playbin <;> simp [step, hp, hd]

theorem run_can_seek (ops : List Op) :
    ∀ p : AudioPlayerPrivate, (∀ op ∈ ops, op.reaches_paused = false) → p.can_seek = false →
      (run p ops).can_seek = false := by
  induction ops with
  | nil => intro p _ hc; exact hc
  | cons op rest ih =>
      intro p h hc
      rw [run_cons]
      exact ih _ (fun o ho => h o (List.mem_cons_of_mem _ ho))
        (step_can_seek p op (h op (List.mem_cons_self _ _)) hc)

theorem run_duration (ops : List Op) :
    ∀ p : AudioPlayerPrivate, (∀ op ∈ ops, op.reaches_paused = false) →
      (∀ op ∈ ops, op.time_duration = false) → p.duration = 0 → (run p ops).duration = 0 := by
  induction ops with
  | nil => intro p _ _ hd; exact hd
  | cons op rest ih =>
      intro p h h2 hd
      rw [run_cons]
      exact ih _ (fun o ho => h o (List.mem_cons_of_mem _ ho))
        (fun o ho => h2 o (List.mem_cons_of_mem _ ho))
        (step_duration p op (h op (List.mem_cons_self _ _)) (h2 op (List.mem_cons_self _ _)) hd)

/-- After a load on a consistent player `can_seek` is false and `duration` is
zero. -/
theorem set_uri_resets (p : AudioPlayerPrivate) (uri : Option String)
    (to_null restore : StateChange) (h : Consistent p) :
    (audio_player_set_uri p uri to_null restore).can_seek = false ∧
      (audio_player_set_uri p uri to_null restore).duration = 0 := by
  cases hp : p.playbin with
  | none =>
      obtain ⟨_, hc, hd, _⟩ := h.1 hp
      simp [audio_player_set_uri, hp, hc, hd]
  | some e => simp [audio_player_set_uri, hp]

/-- C12, as stated, fails.  A URI is loaded and then a duration message in
time format arrives, with no state change reported yet: the duration is 5,
not 0. -/
theorem duration_message_sets_duration_before_paused :
    (Op.duration .TIME 5000000000).reaches_paused = false ∧
    audio_player_get_duration
        (run (audio_player_init true) [.set_uri (some "file:///a.ogg") .done .done]) = 0 ∧
    audio_player_get_duration
        (run (audio_player_init true)
          [.set_uri (some "file:///a.ogg") .done .done, .duration .TIME 5000000000]) = 5 :=
  ⟨rfl, rfl, by decide⟩

/-- C12, amended.  Take any player reached from a fresh one, load a URI, and
let any operations follow among which no state-changed message reports the
playbin going from ready to paused: `can_seek` is false afterwards.  If
moreover none of them is a duration message in time format, `duration` is 0
afterwards. -/
theorem load_resets_until_paused (has_playbin : Bool) (before : List Op) (uri : String)
    (to_null restore : StateChange) (after : List Op)
    (h : ∀ op ∈ after, op.reaches_paused = false) :
    audio_player_get_can_seek
        (run (audio_player_init has_playbin)
          (before ++ .set_uri (some uri) to_null restore :: after)) = false ∧
      ((∀ op ∈ after, op.time_duration = false) →
        audio_player_get_duration
          (run (audio_player_init has_playbin)
            (before ++ .set_uri (some uri) to_null restore :: after)) = 0) := by
  have hcons := consistent_run before _ (consistent_init has_playbin)
  obtain ⟨hc, hd⟩ := set_uri_resets _ (some uri) to_null restore hcons
  rw [run_append, run_cons]
  exact ⟨run_can_seek after _ h hc, fun h2 => run_duration after _ h h2 hd⟩

/-- A player that shows a seekable stream of 200 seconds loads another URI;
buffering, tag and state-changed messages other than ready-to-paused follow. -/
theorem load_resets_until_paused_witness :
    (∀ op ∈ [Op.state_changed true .NULL .READY none none, Op.buffering (some (some 40)),
        Op.tag [("title", .string "x")], Op.state_changed false .READY .PAUSED none none],
        op.reaches_paused = false) ∧
      (audio_player_get_can_seek
          (run (audio_player_init true)
            ([Op.set_uri (some "file:///a.ogg") .done .done,
              Op.state_changed true .READY .PAUSED (some true) (some 200000000000)] ++
             .set_uri (some "file:///b.ogg") .done (.in_flight .READY) ::
              [Op.state_changed true .NULL .READY none none, Op.buffering (some (some 40)),
               Op.tag [("title", .string "x")],
               Op.state_changed false .READY .PAUSED none none])) = false ∧
        ((∀ op ∈ [Op.state_changed true .NULL .READY none none, Op.buffering (some (some 40)),
            Op.tag [("title", .string "x")], Op.state_changed false .READY .PAUSED none none],
            op.time_duration = false) →
          audio_player_get_duration
            (run (audio_player_init true)
              ([Op.set_uri (some "file:///a.ogg") .done .done,
                Op.state_changed true .READY .PAUSED (some true) (some 200000000000)] ++
               .set_uri (some "file:///b.ogg") .done (.in_flight .READY) ::
                [Op.state_changed true .NULL .READY none none, Op.buffering (some (some 40)),
                 Op.tag [("title", .string "x")],
                 Op.state_changed false .READY .PAUSED none none])) = 0)) :=
  ⟨by decide, load_resets_until_paused true _ "file:///b.ogg" .done (.in_flight .READY) _
    (by decide)⟩

/-- C13. A stream is loaded and a buffering message reports 57 percent; then
another URI is loaded.  The load changes the URI, resets `can_seek` and
`duration` in its block `Reset properties`, and emits its four notifications
so that no property of the old URI is shown; but none of them is for
`buffer-percent`, and `audio_player_get_buffer_percent` still returns 57, the
value of the old stream. -/
theorem load_keeps_buffer_percent :
    audio_player_get_buffer_percent
        (run (audio_player_init true)
          [.set_uri (some "http://radio/stream") .done .done, .buffering (some (some 57))]) =
      57 ∧
    audio_player_get_buffer_percent
        (run (audio_player_init true)
          [.set_uri (some "http://radio/stream") .done .done, .buffering (some (some 57)),
           .set_uri (some "file:///b.ogg") .done .done]) = 57 ∧
    audio_player_get_can_seek
        (run (audio_player_init true)
          [.set_uri (some "http://radio/stream") .done .done, .buffering (some (some 57)),
           .set_uri (some "file:///b.ogg") .done .done]) = false ∧
    audio_player_get_duration
        (run (audio_player_init true)
          [.set_uri (some "http://radio/stream") .done .done, .buffering (some (some 57)),
           .set_uri (some "file:///b.ogg") .done .done]) = 0 ∧
    audio_player_get_uri
        (run (audio_player_init true)
          [.set_uri (some "http://radio/stream") .done .done, .buffering (some (some 57)),
           .set_uri (some "file:///b.ogg") .done .done]) = some "file:///b.ogg" ∧
    (run (audio_player_init true)
          [.set_uri (some "http://radio/stream") .done .done, .buffering (some (some 57)),
           .set_uri (some "file:///b.ogg") .done .done]).trace =
      [.timeout_add 1, .set_state .NULL, .set_uri (some "http://radio/stream"),
       .set_state .NULL, .notify "uri", .notify "can-seek", .notify "duration",
       .notify "position", .notify "buffer-percent",
       .set_state .NULL, .set_uri (some "file:///b.ogg"), .set_state .NULL,
       .notify "uri", .notify "can-seek", .notify "duration", .notify "position"] :=
  ⟨by decide, by decide, by decide, by decide, by decide, by decide⟩

/-- A load, of a URI or of none, leaves `buffer_percent` as it was, on every
player: `audio_player_get_buffer_percent` returns after the call what it
returned before it.  On a player with a playbin the load resets `can_seek` to
false and `duration` to 0.  A buffering message that carries an integer
`buffer-percent` is what sets `buffer_percent`. -/
theorem load_resets_all_but_buffer_percent (p : AudioPlayerPrivate) (uri : Option String)
    (to_null restore : StateChange) :
    audio_player_get_buffer_percent (audio_player_set_uri p uri to_null restore) =
        audio_player_get_buffer_percent p ∧
      (∀ e, p.playbin = some e →
        audio_player_get_can_seek (audio_player_set_uri p uri to_null restore) = false ∧
        audio_player_get_duration (audio_player_set_uri p uri to_null restore) = 0) ∧
      (∀ percent : Int,
        audio_player_get_buffer_percent (bus_message_buffering_cb p (some (some percent))) =
          percent) := by
  refine ⟨?_, ?_, fun percent => rfl⟩
  · cases hp : p.playbin <;> cases uri <;>
      simp [audio_player_get_buffer_percent, audio_player_set_uri, hp] <;> split <;> rfl
  · intro e hp
    simp [audio_player_get_can_seek, audio_player_get_duration, audio_player_set_uri, hp]

/-! ## The position tick -/

/-- C14. In every player reached from a fresh one, with or without a playbin,
by any sequence of public calls, bus messages, ticks and moves of the element,
the tick timeout is installed exactly when a URI is loaded, and it is then the
only timeout source the player has installed and not removed.  Loading a URI
while the tick is installed keeps its id and installs no second timeout. -/
theorem tick_installed_iff_uri_loaded (has_playbin : Bool) (ops : List Op) :
    ((run (audio_player_init has_playbin) ops).tick_timeout_id ≠ 0 ↔
        (audio_player_get_uri (run (audio_player_init has_playbin) ops)).isSome = true) ∧
      live_sources (run (audio_player_init has_playbin) ops).trace =
        (if (audio_player_get_uri (run (audio_player_init has_playbin) ops)).isSome then
          [(run (audio_player_init has_playbin) ops).tick_timeout_id]
        else []) ∧
      (∀ (uri : String) (to_null restore : StateChange),
        (run (audio_player_init has_playbin) ops).tick_timeout_id ≠ 0 →
        (audio_player_set_uri (run (audio_player_init has_playbin) ops) (some uri)
            to_null restore).tick_timeout_id =
          (run (audio_player_init has_playbin) ops).tick_timeout_id ∧
        live_sources
            (audio_player_set_uri (run (audio_player_init has_playbin) ops) (some uri)
              to_null restore).trace =
          [(run (audio_player_init has_playbin) ops).tick_timeout_id]) := by
  have hcons := consistent_run ops _ (consistent_init has_playbin)
  refine ⟨hcons.2.1, hcons.2.2, ?_⟩
  intro uri to_null restore ht
  have hnext := consistent_set_uri _ (some uri) to_null restore hcons
  have htick : (audio_player_set_uri (run (audio_player_init has_playbin) ops) (some uri)
      to_null restore).tick_timeout_id =
      (run (audio_player_init has_playbin) ops).tick_timeout_id := by
    cases hp : (run (audio_player_init has_playbin) ops).playbin <;>
      simp [audio_player_set_uri, hp, ht]
  refine ⟨htick, ?_⟩
  have hne : (audio_player_set_uri (run (audio_player_init has_playbin) ops) (some uri)
      to_null restore).tick_timeout_id ≠ 0 := by rw [htick]; exact ht
  have hsome := hnext.2.1.mp hne
  have hlive := hnext.2.2
  rw [hsome] at hlive
  simpa [htick] using hlive

/-! ## The playing state across a load and a seek -/

/-- What `audio_player_get_playing` reads on a player with a playbin. -/
theorem get_playing_eq (p : AudioPlayerPrivate) (e : Playbin) (hp : p.playbin = some e) :
    audio_player_get_playing p = decide (stored_state e = .PLAYING) := by
  simp only [audio_player_get_playing, hp, stored_state]
  split <;> rfl

/-- After a state request the player reads the requested state, whether the
element completed the request or left it in flight. -/
theorem stored_state_set_state (e : Playbin) (target : GstState) (how : StateChange)
    (h : target ≠ .VOID_PENDING) :
    stored_state (gst_element_set_state e target how) = target := by
  cases how <;> simp [gst_element_set_state, stored_state, h]

theorem stored_state_ne_void (e : Playbin) (h : e.state ≠ .VOID_PENDING) :
    stored_state e ≠ .VOID_PENDING := by
  unfold stored_state
  split
  · assumption
  · exact h

theorem to_gint_of_range (n : Int) (h : -2 ^ 31 ≤ n ∧ n < 2 ^ 31) : to_gint n = n := by
  unfold to_gint; omega

/-- C15. On a player with a playbin whose current state is a real state, a
load of a URI installs the tick if it is missing, requests the state `NULL`,
sets the property `uri`, requests the state stored before the call (the
pending state if a transition was in flight, else the current state) and emits
the four notifications, in this order.  The element then holds the URI, and
`audio_player_get_playing` returns after the load what it returned before
it. -/
theorem load_restores_stored_state (p : AudioPlayerPrivate) (e : Playbin) (uri : String)
    (to_null restore : StateChange) (hp : p.playbin = some e)
    (hwf : e.state ≠ .VOID_PENDING) :
    (audio_player_set_uri p (some uri) to_null restore).trace =
        p.trace ++ (if p.tick_timeout_id = 0 then [.timeout_add (p.last_source_id + 1)] else []) ++
          [.set_state .NULL, .set_uri (some uri),
           .set_state (if e.pending ≠ .VOID_PENDING then e.pending else e.state),
           .notify "uri", .notify "can-seek", .notify "duration", .notify "position"] ∧
      (∃ e1, (audio_player_set_uri p (some uri) to_null restore).playbin = some e1 ∧
        e1.uri = some uri) ∧
      audio_player_get_uri (audio_player_set_uri p (some uri) to_null restore) = some uri ∧
      audio_player_get_playing (audio_player_set_uri p (some uri) to_null restore) =
        audio_player_get_playing p := by
  have hne := stored_state_ne_void e hwf
  refine ⟨?_, ?_, ?_, ?_⟩
  · by_cases ht : p.tick_timeout_id = 0 <;>
      simp [audio_player_set_uri, hp, ht, stored_state]
  · refine ⟨_, by simp [audio_player_set_uri, hp]; rfl, ?_⟩
    cases restore <;> simp [gst_element_set_state]
  · by_cases ht : p.tick_timeout_id = 0 <;>
      simp [audio_player_get_uri, audio_player_set_uri, hp, ht]
  · rw [get_playing_eq p e hp]
    rw [get_playing_eq (audio_player_set_uri p (some uri) to_null restore)
      (gst_element_set_state { gst_element_set_state e .NULL to_null with uri := some uri }
        (stored_state e) restore) (by simp [audio_player_set_uri, hp])]
    rw [stored_state_set_state _ _ _ hne]

/-- Loading another URI while playing: the element is asked for `NULL`, then
for `PLAYING` again, and the player still reports playing. -/
theorem load_restores_stored_state_witness :
    playing_a.playbin =
        some { state := .PLAYING, pending := .VOID_PENDING,
               uri := some "file:///a.ogg", volume := .finite 1 } ∧
      GstState.PLAYING ≠ GstState.VOID_PENDING ∧
      audio_player_get_playing playing_a = true ∧
      ((audio_player_set_uri playing_a (some "file:///b.ogg") .done (.in_flight .READY)).trace =
          playing_a.trace ++
            (if playing_a.tick_timeout_id = 0 then
              [.timeout_add (playing_a.last_source_id + 1)] else []) ++
            [.set_state .NULL, .set_uri (some "file:///b.ogg"),
             .set_state (if GstState.VOID_PENDING ≠ GstState.VOID_PENDING then
               GstState.VOID_PENDING else GstState.PLAYING),
             .notify "uri", .notify "can-seek", .notify "duration", .notify "position"] ∧
        (∃ e1, (audio_player_set_uri playing_a (some "file:///b.ogg") .done
            (.in_flight .READY)).playbin = some e1 ∧ e1.uri = some "file:///b.ogg") ∧
        audio_player_get_uri
            (audio_player_set_uri playing_a (some "file:///b.ogg") .done (.in_flight .READY)) =
          some "file:///b.ogg" ∧
        audio_player_get_playing
            (audio_player_set_uri playing_a (some "file:///b.ogg") .done (.in_flight .READY)) =
          audio_player_get_playing playing_a) :=
  ⟨rfl, by decide, by decide,
    load_restores_stored_state playing_a
      { state := .PLAYING, pending := .VOID_PENDING, uri := some "file:///a.ogg",
        volume := .finite 1 }
      "file:///b.ogg" .done (.in_flight .READY) rfl (by decide)⟩

/-- C16. On a player with a playbin whose current state is a real state, a
seek to `position` seconds, `position` being an `int`, requests the state
`PAUSED`, issues a flushing seek to the absolute time of `position` times
`10 ^ 9` nanoseconds and requests the state stored before the call (the
pending state if a transition was in flight, else the current state), in this
order; `audio_player_get_playing` returns after the seek what it returned
before it. -/
theorem seek_restores_stored_state (p : AudioPlayerPrivate) (e : Playbin) (position : Int)
    (to_paused restore : StateChange) (hp : p.playbin = some e)
    (hwf : e.state ≠ .VOID_PENDING) (hint : -2 ^ 31 ≤ position ∧ position < 2 ^ 31) :
    (audio_player_set_position p position to_paused restore).trace =
        p.trace ++
          [.set_state .PAUSED, .seek (position * 10 ^ 9),
           .set_state (if e.pending ≠ .VOID_PENDING then e.pending else e.state)] ∧
      audio_player_get_playing (audio_player_set_position p position to_paused restore) =
        audio_player_get_playing p := by
  have hne := stored_state_ne_void e hwf
  have hcur : to_gint64 (to_gint position * GST_SECOND) = position * 10 ^ 9 := by
    rw [to_gint_of_range position hint]
    unfold to_gint64 GST_SECOND
    omega
  refine ⟨?_, ?_⟩
  · simp [audio_player_set_position, hp, stored_state, hcur]
  · rw [get_playing_eq p e hp]
    rw [get_playing_eq (audio_player_set_position p position to_paused restore)
      (gst_element_set_state (gst_element_set_state e .PAUSED to_paused) (stored_state e) restore)
      (by simp [audio_player_set_position, hp])]
    rw [stored_state_set_state _ _ _ hne]

/-- A seek to 90 seconds while the element is on its way to playing. -/
theorem seek_restores_stored_state_witness :
    starting_a.playbin =
        some { state := .READY, pending := .PLAYING,
               uri := some "file:///a.ogg", volume := .finite 1 } ∧
      GstState.READY ≠ GstState.VOID_PENDING ∧
      (-2 ^ 31 ≤ (90 : Int) ∧ (90 : Int) < 2 ^ 31) ∧
      audio_player_get_playing starting_a = true ∧
      ((audio_player_set_position starting_a 90 (.in_flight .READY) (.in_flight .PAUSED)).trace =
          starting_a.trace ++
            [.set_state .PAUSED, .seek (90 * 10 ^ 9),
             .set_state (if GstState.PLAYING ≠ GstState.VOID_PENDING then
               GstState.PLAYING else GstState.READY)] ∧
        audio_player_get_playing
            (audio_player_set_position starting_a 90 (.in_flight .READY) (.in_flight .PAUSED)) =
          audio_player_get_playing starting_a) :=
  ⟨rfl, by decide, by decide, by decide,
    seek_restores_stored_state starting_a
      { state := .READY, pending := .PLAYING, uri := some "file:///a.ogg", volume := .finite 1 }
      90 (.in_flight .READY) (.in_flight .PAUSED) rfl (by decide) (by decide)⟩

/-! ## Volume -/

/-- A value below `0.0` or above `4.0` fails the range check. -/
theorem out_of_range (v : GDouble)
    (h : double_lt v (.finite 0) = true ∨ double_lt GST_VOL_MAX v = true) :
    (GDouble.ge v (.finite 0) && GDouble.le v GST_VOL_MAX) = false := by
  cases v with
  | finite q =>
      simp only [double_lt, GDouble.le, GDouble.ge, GST_VOL_MAX, Bool.and_eq_true,
        decide_eq_true_eq, Bool.not_eq_true', decide_eq_false_iff_not,
        Bool.and_eq_false_iff] at h ⊢
      rcases h with ⟨_, h2⟩ | ⟨_, h2⟩
      · exact Or.inl h2
      · exact Or.inr h2
  | inf => simp [GDouble.le, GDouble.ge, GST_VOL_MAX]
  | neg_inf => simp [GDouble.le, GDouble.ge]
  | nan => simp [GDouble.le, GDouble.ge]

/-- C17. On a player with a playbin: a volume below `0.0` or above `4.0` is
rejected, that is, the call only logs the failed precondition, the volume of
the element keeps its value and no notification is emitted; a volume with
`0.0 <= volume` and `volume <= 4.0` is stored in the element, one `volume`
notification is emitted, and `audio_player_get_volume` returns it. -/
theorem set_volume_checks_range (p : AudioPlayerPrivate) (e : Playbin) (v : GDouble)
    (hp : p.playbin = some e) :
    ((double_lt v (.finite 0) = true ∨ double_lt (.finite 4) v = true) →
      audio_player_set_volume p v = { p with trace := p.trace ++ [.critical] } ∧
      audio_player_get_volume (audio_player_set_volume p v) = audio_player_get_volume p) ∧
    ((GDouble.le (.finite 0) v = true ∧ GDouble.le v (.finite 4) = true) →
      (audio_player_set_volume p v).playbin = some { e with volume := v } ∧
      (audio_player_set_volume p v).trace = p.trace ++ [.set_volume v, .notify "volume"] ∧
      audio_player_get_volume (audio_player_set_volume p v) = v) := by
  constructor
  · intro h
    have hr := out_of_range v h
    have heq : audio_player_set_volume p v = { p with trace := p.trace ++ [.critical] } := by
      simp [audio_player_set_volume, hr]
    exact ⟨heq, by rw [heq]; simp [audio_player_get_volume]⟩
  · rintro ⟨h0, h4⟩
    have hr : (GDouble.ge v (.finite 0) && GDouble.le v GST_VOL_MAX) = true := by
      simp [GDouble.ge, GST_VOL_MAX, h0, h4]
    simp [audio_player_set_volume, hr, hp, audio_player_get_volume]

/-- The volumes 5, -1/2, 4, 0 and 3/2 on the idle player. -/
theorem set_volume_checks_range_witness :
    idle_player.playbin =
        some { state := .NULL, pending := .VOID_PENDING, uri := none, volume := .finite 1 } ∧
      audio_player_get_volume (audio_player_set_volume idle_player (.finite 5)) = .finite 1 ∧
      audio_player_get_volume (audio_player_set_volume idle_player (.finite (-1 / 2))) =
        .finite 1 ∧
      audio_player_get_volume (audio_player_set_volume idle_player (.finite 4)) = .finite 4 ∧
      audio_player_get_volume (audio_player_set_volume idle_player (.finite 0)) = .finite 0 ∧
      (((double_lt (.finite (3 / 2)) (.finite 0) = true ∨
            double_lt (.finite 4) (.finite (3 / 2)) = true) →
          audio_player_set_volume idle_player (.finite (3 / 2)) =
            { idle_player with trace := idle_player.trace ++ [.critical] } ∧
          audio_player_get_volume (audio_player_set_volume idle_player (.finite (3 / 2))) =
            audio_player_get_volume idle_player) ∧
        ((GDouble.le (.finite 0) (.finite (3 / 2)) = true ∧
            GDouble.le (.finite (3 / 2)) (.finite 4) = true) →
          (audio_player_set_volume idle_player (.finite (3 / 2))).playbin =
            some { ({ state := .NULL, pending := .VOID_PENDING, uri := none,
                      volume := .finite 1 } : Playbin) with volume := .finite (3 / 2) } ∧
          (audio_player_set_volume idle_player (.finite (3 / 2))).trace =
            idle_player.trace ++ [.set_volume (.finite (3 / 2)), .notify "volume"] ∧
          audio_player_get_volume (audio_player_set_volume idle_player (.finite (3 / 2))) =
            .finite (3 / 2))) :=
  ⟨rfl, by decide,
    by norm_num [audio_player_set_volume, audio_player_get_volume, idle_player,
      audio_player_init, GDouble.ge, GDouble.le, GST_VOL_MAX, GST_VOL_DEFAULT],
    by decide, by decide,
    set_volume_checks_range idle_player
      { state := .NULL, pending := .VOID_PENDING, uri := none, volume := .finite 1 }
      (.finite (3 / 2)) rfl⟩

/-! ## Play and pause -/

/-- C18, as stated, fails.  On a player with a playbin and no URI loaded,
`audio_player_set_playing` with `FALSE` requests no state of the element: it
only emits the two notifications and the element stays as it was. -/
theorem pause_without_uri_requests_nothing :
    audio_player_get_uri idle_player = none ∧
    (audio_player_set_playing idle_player false .done).trace =
      [.notify "playing", .notify "position"] ∧
    requested_states (audio_player_set_playing idle_player false .done).trace = [] ∧
    (audio_player_set_playing idle_player false .done).playbin = idle_player.playbin :=
  ⟨rfl, by decide, by decide, by decide⟩

/-- C18, amended.  On a player with a playbin: with no URI loaded,
`audio_player_set_playing` requests no state of the element for either
argument and warns only when the argument is `TRUE`; with a URI loaded it
requests `PLAYING` when the argument is `TRUE` and `PAUSED` when it is
`FALSE`.  In both cases the notifications `playing` and `position` follow. -/
theorem set_playing_requests (p : AudioPlayerPrivate) (e : Playbin) (playing : Bool)
    (how : StateChange) (hp : p.playbin = some e) :
    (p.uri = none →
      (audio_player_set_playing p playing how).trace =
          p.trace ++
            (if playing then [.warning "Tried to play, but no URI is loaded."] else []) ++
            [.notify "playing", .notify "position"] ∧
        (audio_player_set_playing p playing how).playbin = p.playbin) ∧
    (∀ u, p.uri = some u →
      (audio_player_set_playing p playing how).trace =
          p.trace ++
            [.set_state (if playing then .PLAYING else .PAUSED),
             .notify "playing", .notify "position"] ∧
        (audio_player_set_playing p playing how).playbin =
          some (gst_element_set_state e (if playing then .PLAYING else .PAUSED) how)) := by
  constructor
  · intro hu
    cases playing <;> simp [audio_player_set_playing, hp, hu]
  · intro u hu
    cases playing <;> simp [audio_player_set_playing, hp, hu]

/-- Pausing the playing player, with the request left in flight. -/
theorem set_playing_requests_witness :
    playing_a.playbin =
        some { state := .PLAYING, pending := .VOID_PENDING,
               uri := some "file:///a.ogg", volume := .finite 1 } ∧
      (audio_player_set_playing playing_a false (.in_flight .PLAYING)).trace =
        [.set_state .PAUSED, .notify "playing", .notify "position"] ∧
      (audio_player_set_playing idle_player true .done).trace =
        [.warning "Tried to play, but no URI is loaded.", .notify "playing",
         .notify "position"] ∧
      ((playing_a.uri = none →
        (audio_player_set_playing playing_a false (.in_flight .PLAYING)).trace =
            playing_a.trace ++
              (if false = true then [.warning "Tried to play, but no URI is loaded."] else []) ++
              [.notify "playing", .notify "position"] ∧
          (audio_player_set_playing playing_a false (.in_flight .PLAYING)).playbin =
            playing_a.playbin) ∧
      (∀ u, playing_a.uri = some u →
        (audio_player_set_playing playing_a false (.in_flight .PLAYING)).trace =
            playing_a.trace ++
              [.set_state (if false = true then .PLAYING else .PAUSED),
               .notify "playing", .notify "position"] ∧
          (audio_player_set_playing playing_a false (.in_flight .PLAYING)).playbin =
            some (gst_element_set_state
              { state := .PLAYING, pending := .VOID_PENDING,
                uri := some "file:///a.ogg", volume := .finite 1 }
              (if false = true then .PLAYING else .PAUSED) (.in_flight .PLAYING)))) :=
  ⟨rfl, by decide, by decide,
    set_playing_requests playing_a
      { state := .PLAYING, pending := .VOID_PENDING, uri := some "file:///a.ogg",
        volume := .finite 1 }
      false (.in_flight .PLAYING) rfl⟩

/-- C19. On a player with a playbin `audio_player_get_playing` tells whether
the pending state is `PLAYING` when a state is pending, and whether the
current state is `PLAYING` otherwise.  In every player reached from a fresh one
that has a URI loaded, `audio_player_get_playing` called right after
`audio_player_set_playing` with argument `b` returns `b`, whether the element
completed the request or left it in flight. -/
theorem get_playing_after_set_playing (has_playbin : Bool) (ops : List Op) (b : Bool)
    (how : StateChange) :
    (∀ (p : AudioPlayerPrivate) (e : Playbin), p.playbin = some e →
      audio_player_get_playing p =
        if e.pending ≠ .VOID_PENDING then decide (e.pending = .PLAYING)
        else decide (e.state = .PLAYING)) ∧
    ((audio_player_get_uri (run (audio_player_init has_playbin) ops)).isSome = true →
      audio_player_get_playing
        (audio_player_set_playing (run (audio_player_init has_playbin) ops) b how) = b) := by
  constructor
  · intro p e hp
    simp [audio_player_get_playing, hp]
  · intro hu
    have hcons := consistent_run ops _ (consistent_init has_playbin)
    cases hp : (run (audio_player_init has_playbin) ops).playbin with
    | none =>
        have hnone := (hcons.1 hp).1
        simp [audio_player_get_uri, hnone] at hu
    | some e =>
        have hu1 : (run (audio_player_init has_playbin) ops).uri.isSome = true := hu
        rw [get_playing_eq (audio_player_set_playing (run (audio_player_init has_playbin) ops) b how)
          (gst_element_set_state e (if b then .PLAYING else .PAUSED) how)
          (by simp [audio_player_set_playing, hp, hu1])]
        cases b
        · rw [stored_state_set_state _ _ _ (by decide)]; rfl
        · rw [stored_state_set_state _ _ _ (by decide)]; rfl

/-- A paused player is asked to play and the request stays in flight: the
player reports playing at once; asked to pause while playing, it reports not
playing at once. -/
theorem get_playing_after_set_playing_witness :
    audio_player_get_playing
        (run (audio_player_init true)
          [.set_uri (some "file:///a.ogg") .done .done, .set_playing false .done]) = false ∧
      audio_player_get_playing
        (run (audio_player_init true)
          [.set_uri (some "file:///a.ogg") .done .done, .set_playing false .done,
           .set_playing true (.in_flight .PAUSED)]) = true ∧
      audio_player_get_playing
        (run (audio_player_init true)
          [.set_uri (some "file:///a.ogg") .done .done, .set_playing true .done,
           .set_playing false (.in_flight .PLAYING)]) = false ∧
      (audio_player_get_uri (run (audio_player_init true)
          [.set_uri (some "file:///a.ogg") .done .done, .set_playing false .done])).isSome =
        true ∧
      audio_player_get_playing
        (audio_player_set_playing
          (run (audio_player_init true)
            [.set_uri (some "file:///a.ogg") .done .done, .set_playing false .done])
          true (.in_flight .PAUSED)) = true :=
  ⟨by decide, by decide, by decide, by decide,
    (get_playing_after_set_playing true
      [.set_uri (some "file:///a.ogg") .done .done, .set_playing false .done]
      true (.in_flight .PAUSED)).2 (by decide)⟩

/-! ## Position -/

theorem tdiv_second_range (pos : Int)
    (h : -(2 ^ 31 * 10 ^ 9) ≤ pos ∧ pos < 2 ^ 31 * 10 ^ 9) :
    -2 ^ 31 ≤ Int.tdiv pos GST_SECOND ∧ Int.tdiv pos GST_SECOND < 2 ^ 31 := by
  unfold GST_SECOND
  by_cases h0 : 0 ≤ pos
  · rw [Int.tdiv_eq_ediv h0 (by decide)]
    omega
  · have hneg : Int.tdiv pos 1000000000 = -(Int.tdiv (-pos) 1000000000) := by
      rw [Int.neg_tdiv, neg_neg]
    rw [hneg, Int.tdiv_eq_ediv (by omega) (by decide)]
    omega

/-- C20, as stated, fails.  Without a playbin the function returns -1,
whatever the position is; with a playbin and a position of `2 ^ 31` seconds
the result, converted to `int`, is negative. -/
theorem get_position_negative :
    audio_player_get_position player_without_playbin none = -1 ∧
    audio_player_get_position player_without_playbin (some 5000000000) = -1 ∧
    audio_player_get_position idle_player (some (2 ^ 31 * 10 ^ 9)) = -2 ^ 31 :=
  ⟨by decide, by decide, by decide⟩

/-- C20, amended.  On a player with a playbin `audio_player_get_position`
returns 0 when the position query fails; when the query answers a position
`pos` in nanoseconds whose number of seconds fits an `int`, it returns `pos`
divided by `10 ^ 9` and rounded toward zero, which is not negative when `pos`
is not negative.  On a player without a playbin it returns -1. -/
theorem get_position_value (p : AudioPlayerPrivate) (pos : Int)
    (h : -(2 ^ 31 * 10 ^ 9) ≤ pos ∧ pos < 2 ^ 31 * 10 ^ 9) :
    (∀ e, p.playbin = some e →
      audio_player_get_position p none = 0 ∧
      audio_player_get_position p (some pos) = Int.tdiv pos (10 ^ 9) ∧
      (0 ≤ pos → 0 ≤ audio_player_get_position p (some pos))) ∧
    (p.playbin = none →
      audio_player_get_position p none = -1 ∧ audio_player_get_position p (some pos) = -1) := by
  have hr := tdiv_second_range pos h
  have hq : to_gint (Int.tdiv pos GST_SECOND) = Int.tdiv pos (10 ^ 9) := by
    rw [to_gint_of_range _ hr]; rfl
  constructor
  · intro e hp
    refine ⟨by simp [audio_player_get_position, hp]; decide, ?_, ?_⟩
    · simp only [audio_player_get_position, hp]; exact hq
    · intro h0
      simp only [audio_player_get_position, hp]
      rw [hq]
      exact Int.tdiv_nonneg h0 (by decide)
  · intro hp
    simp [audio_player_get_position, hp]

/-- The positions 90.5 s and -1.5 s on the idle player, and a failed query. -/
theorem get_position_value_witness :
    (-(2 ^ 31 * 10 ^ 9) ≤ (90500000000 : Int) ∧ (90500000000 : Int) < 2 ^ 31 * 10 ^ 9) ∧
      audio_player_get_position idle_player (some 90500000000) = 90 ∧
      audio_player_get_position idle_player (some (-1500000000)) = -1 ∧
      ((∀ e, idle_player.playbin = some e →
        audio_player_get_position idle_player none = 0 ∧
        audio_player_get_position idle_player (some 90500000000) =
          Int.tdiv 90500000000 (10 ^ 9) ∧
        (0 ≤ (90500000000 : Int) →
          0 ≤ audio_player_get_position idle_player (some 90500000000))) ∧
      (idle_player.playbin = none →
        audio_player_get_position idle_player none = -1 ∧
        audio_player_get_position idle_player (some 90500000000) = -1)) :=
  ⟨by decide, by decide, by decide, get_position_value idle_player 90500000000 (by decide)⟩

/-! ## The ready-to-paused state change -/

/-- A string has a prefix exactly when it is the prefix followed by some
text. -/
theorem has_prefix_iff (u pre : String) :
    g_str_has_prefix (some u) pre = true ↔ ∃ rest : String, u = pre ++ rest := by
  simp only [ g_str_has_prefix]
  rw [ List.isPrefixOf_iff_prefix]
  constructor
  · rintro ⟨t, ht⟩
    exact ⟨String.mk t, String.ext (by rw [String.data_append]; exact ht.symm)⟩
  · rintro ⟨rest, rfl⟩
    exact ⟨rest.data, (String.data_append pre rest).symm⟩

/-- C21. When a state-changed message of the playbin itself reports ready to
paused: if the seeking query answers `b`, `can_seek` becomes `b`; if it fails,
`can_seek` becomes false when the loaded URI is `http://` followed by any
text, and true for every other loaded URI (the comparison is exact, so
`HTTP://` does not count).  A `can-seek` notification is emitted in both
cases, followed by a `duration` notification when the duration query
succeeds.  A state-changed message from another element, or between other
states, leaves the player unchanged, `can_seek` and `duration` included. -/
theorem ready_to_paused_sets_can_seek (p : AudioPlayerPrivate) (d : Option Int) :
    (∀ b : Bool,
      audio_player_get_can_seek
          (bus_message_state_change_cb p true .READY .PAUSED (some b) d) = b ∧
      (bus_message_state_change_cb p true .READY .PAUSED (some b) d).trace =
        p.trace ++ [.notify "can-seek"] ++ (if d.isSome then [.notify "duration"] else [])) ∧
    (∀ rest : String, p.uri = some ("http://" ++ rest) →
      audio_player_get_can_seek
          (bus_message_state_change_cb p true .READY .PAUSED none d) = false) ∧
    (∀ u : String, p.uri = some u → (¬ ∃ rest : String, u = "http://" ++ rest) →
      audio_player_get_can_seek
          (bus_message_state_change_cb p true .READY .PAUSED none d) = true) ∧
    (∀ u : String, p.uri = some u →
      (bus_message_state_change_cb p true .READY .PAUSED none d).trace =
        p.trace ++ [.notify "can-seek"] ++ (if d.isSome then [.notify "duration"] else [])) ∧
    (∀ (src_is_playbin : Bool) (old_state new_state : GstState) (seeking : Option Bool),
      ¬ (src_is_playbin = true ∧ old_state = .READY ∧ new_state = .PAUSED) →
      bus_message_state_change_cb p src_is_playbin old_state new_state seeking d = p) ∧
    audio_player_get_can_seek
        (bus_message_state_change_cb
          { p with uri := some "HTTP://radio/stream" } true .READY .PAUSED none d) = true ∧
    audio_player_get_can_seek
        (bus_message_state_change_cb paused_on_http true .READY .PAUSED none d) = false := by
  refine ⟨?_, ?_, ?_, ?_, ?_, ?_, ?_⟩
  · intro b
    cases d <;> simp [bus_message_state_change_cb, audio_player_get_can_seek]
  · intro rest hu
    have hpre : g_str_has_prefix p.uri "http://" = true := by
      rw [hu]; exact (has_prefix_iff _ _).mpr ⟨rest, rfl⟩
    cases d <;> simp [bus_message_state_change_cb, audio_player_get_can_seek, hpre]
  · intro u hu hno
    have hpre : g_str_has_prefix p.uri "http://" = false := by
      rw [hu]
      cases hx : g_str_has_prefix (some u) "http://"
      · rfl
      · exact absurd ((has_prefix_iff _ _).mp hx) hno
    cases d <;> simp [bus_message_state_change_cb, audio_player_get_can_seek, hpre]
  · intro u hu
    cases d <;> simp [bus_message_state_change_cb, hu]
  · intro src_is_playbin old_state new_state seeking h
    exact state_change_other p src_is_playbin old_state new_state seeking d h
  · have hpre : g_str_has_prefix (some "HTTP://radio/stream") "http://" = false := by decide
    cases d <;> simp [bus_message_state_change_cb, audio_player_get_can_seek, hpre]
  · have hpre : g_str_has_prefix paused_on_http.uri "http://" = true := by decide
    cases d <;> simp [bus_message_state_change_cb, audio_player_get_can_seek, hpre]

/-! ## A player without a playbin -/

/-- C22. On a player without a playbin, `audio_player_set_uri`,
`audio_player_set_playing`, `audio_player_set_position` and
`audio_player_set_volume` with a volume in range return the player as it was,
so `uri`, `can_seek`, `duration`, `buffer_percent` and the tick keep their
values and nothing is notified; `audio_player_get_playing` returns false. -/
theorem without_playbin_nothing_happens (p : AudioPlayerPrivate) (hp : p.playbin = none) :
    (∀ (uri : Option String) (to_null restore : StateChange),
      audio_player_set_uri p uri to_null restore = p) ∧
    (∀ (playing : Bool) (how : StateChange), audio_player_set_playing p playing how = p) ∧
    (∀ (position : Int) (to_paused restore : StateChange),
      audio_player_set_position p position to_paused restore = p) ∧
    (∀ v : GDouble, GDouble.le (.finite 0) v = true → GDouble.le v (.finite 4) = true →
      audio_player_set_volume p v = p) ∧
    audio_player_get_playing p = false := by
  refine ⟨?_, ?_, ?_, ?_, ?_⟩
  · intro uri to_null restore; simp [audio_player_set_uri, hp]
  · intro playing how; simp [audio_player_set_playing, hp]
  · intro position to_paused restore; simp [audio_player_set_position, hp]
  · intro v h0 h4
    have hr : (GDouble.ge v (.finite 0) && GDouble.le v GST_VOL_MAX) = true := by
      simp [GDouble.ge, GST_VOL_MAX, h0, h4]
    simp [audio_player_set_volume, hr, hp]
  · simp [audio_player_get_playing, hp]

/-- The player built when the factory has no playbin. -/
theorem without_playbin_nothing_happens_witness :
    player_without_playbin.playbin = none ∧
      audio_player_set_uri player_without_playbin (some "file:///a.ogg") .done .done =
        player_without_playbin ∧
      ((∀ (uri : Option String) (to_null restore : StateChange),
        audio_player_set_uri player_without_playbin uri to_null restore =
          player_without_playbin) ∧
      (∀ (playing : Bool) (how : StateChange),
        audio_player_set_playing player_without_playbin playing how =
          player_without_playbin) ∧
      (∀ (position : Int) (to_paused restore : StateChange),
        audio_player_set_position player_without_playbin position to_paused restore =
          player_without_playbin) ∧
      (∀ v : GDouble, GDouble.le (.finite 0) v = true → GDouble.le v (.finite 4) = true →
        audio_player_set_volume player_without_playbin v = player_without_playbin) ∧
      audio_player_get_playing player_without_playbin = false) :=
  ⟨rfl, by decide, without_playbin_nothing_happens player_without_playbin rfl⟩

/-! ## Loading no URI -/

/-- An operation that loads nothing leaves a player without a URI without
one. -/
theorem step_keeps_uri_none (p : AudioPlayerPrivate) (op : Op) (hop : op.loads = false)
    (hu : p.uri = none) : (step p op).uri = none := by
  cases op with
  | set_uri uri to_null restore =>
      cases uri with
      | some u => simp [Op.loads] at hop
      | none =>
          cases hp : p.playbin with
          | none => simp [step, audio_player_set_uri, hp, hu]
          | some e =>
              by_cases ht : p.tick_timeout_id > 0 <;>
                simp [step, audio_player_set_uri, hp, ht]
  | set_playing playing how =>
      cases hp : p.playbin <;> cases playing <;>
        simp [step, audio_player_set_playing, hp, hu]
  | set_position position to_paused restore =>
      cases hp : p.playbin <;> simp [step, audio_player_set_position, hp, hu]
  | set_volume volume =>
      simp only [step, audio_player_set_volume]
      split
      · exact hu
      · cases hp : p.playbin <;> simp [hu]
  | error e => cases hp : p.playbin <;> simp [step, bus_message_error_cb, hp, hu]
  | eos => cases hp : p.playbin <;> simp [step, bus_message_eos_cb, hp, hu]
  | tag tag_list => cases hp : p.playbin <;> simp [step, bus_message_tag_cb, hp, hu]
  | buffering str =>
      cases hp : p.playbin <;> rcases str with _ | _ | percent <;>
        simp [step, bus_message_buffering_cb, hp, hu]
  | duration format d =>
      cases hp : p.playbin <;> by_cases hf : format = .TIME <;>
        simp [step, bus_message_duration_cb, hp, hu, hf]
  | state_changed src_is_playbin old_state new_state seeking d =>
      cases hp : p.playbin with
      | none => simp [step, hp, hu]
      | some e =>
          simp only [step, hp, Option.isNone_some, Bool.false_eq_true, if_false]
          by_cases hc : src_is_playbin = true ∧ old_state = .READY ∧ new_state = .PAUSED
          · obtain ⟨hsrc, hold, hnew⟩ := hc
            subst hsrc hold hnew
            cases seeking <;> cases d <;> simp [bus_message_state_change_cb, hu]
          · rw [state_change_other p src_is_playbin old_state new_state seeking d hc]
            exact hu
  | tick => by_cases ht : p.tick_timeout_id = 0 <;> simp [step, tick_timeout, ht, hu]
  | element_moves state pending => cases hp : p.playbin <;> simp [step, hp, hu]

/-- Operations that load nothing leave a player without a URI without one. -/
theorem run_keeps_uri_none (ops : List Op) :
    ∀ p : AudioPlayerPrivate, (∀ op ∈ ops, op.loads = false) → p.uri = none →
      (run p ops).uri = none := by
  induction ops with
  | nil => intro p _ hu; exact hu
  | cons op rest ih =>
      intro p hops hu
      rw [run_cons]
      exact ih _ (fun o ho => hops o (List.mem_cons_of_mem _ ho))
        (step_keeps_uri_none p op (hops op (List.mem_cons_self _ _)) hu)

/-- C23. On a player reached from `audio_player_init` that has a URI loaded,
whatever its playback state, `audio_player_set_uri` with no URI gives a player
whose `audio_player_get_uri` is absent and whose tick timeout is removed: the
call removes the installed source, no timeout source is left, and until the
next load of a URI the tick stays uninstalled, so a tick changes nothing.  The
call requests the state null of the playbin and no state after it, so the
stored state is not restored; `audio_player_get_playing` returns false,
`can_seek` is false and `duration` is 0. -/
theorem unload_stops_player (has_playbin : Bool) (ops : List Op)
    (to_null restore : StateChange)
    (h : (audio_player_get_uri (run (audio_player_init has_playbin) ops)).isSome = true) :
    let q := run (audio_player_init has_playbin) ops
    let r := audio_player_set_uri q none to_null restore
    audio_player_get_uri r = none ∧
    r.tick_timeout_id = 0 ∧
    live_sources r.trace = [] ∧
    (∀ after : List Op, (∀ op ∈ after, op.loads = false) →
      (run r after).tick_timeout_id = 0 ∧
      live_sources (run r after).trace = [] ∧
      step (run r after) .tick = run r after) ∧
    r.trace = q.trace ++
      [.source_remove q.tick_timeout_id, .set_state .NULL, .set_uri none,
       .notify "uri", .notify "can-seek", .notify "duration", .notify "position"] ∧
    requested_states r.trace = requested_states q.trace ++ [.NULL] ∧
    audio_player_get_playing r = false ∧
    audio_player_get_can_seek r = false ∧
    audio_player_get_duration r = 0 := by
  intro q r
  have hq : Consistent q := consistent_run ops _ (consistent_init has_playbin)
  have hr : Consistent r := consistent_set_uri q none to_null restore hq
  have hqu : q.uri.isSome = true := h
  obtain ⟨h1, h2, h3⟩ := hq
  cases hp : q.playbin with
  | none => rw [(h1 hp).1] at hqu; simp at hqu
  | some e =>
      have ht : q.tick_timeout_id > 0 := Nat.pos_of_ne_zero (h2.mpr hqu)
      have hru : r.uri = none := by
        simp [r, audio_player_set_uri, hp, ht]
      have htr : r.trace = q.trace ++
          [.source_remove q.tick_timeout_id, .set_state .NULL, .set_uri none,
           .notify "uri", .notify "can-seek", .notify "duration", .notify "position"] := by
        simp [r, audio_player_set_uri, hp, ht]
      have hafter : ∀ after : List Op, (∀ op ∈ after, op.loads = false) →
          (run r after).tick_timeout_id = 0 ∧ live_sources (run r after).trace = [] := by
        intro after hops
        have hc : Consistent (run r after) := consistent_run after r hr
        have hu : (run r after).uri = none := run_keeps_uri_none after r hops hru
        obtain ⟨_, c2, c3⟩ := hc
        rw [hu] at c2 c3
        constructor
        · by_contra hne
          have := c2.mp hne
          simp at this
        · simpa using c3
      refine ⟨hru, ?_, ?_, ?_, htr, ?_, ?_, ?_, ?_⟩
      · simpa [run] using (hafter [] (by simp)).1
      · simpa [run] using (hafter [] (by simp)).2
      · intro after hops
        obtain ⟨a1, a2⟩ := hafter after hops
        exact ⟨a1, a2, by simp [step, a1]⟩
      · rw [htr]
        have happ : ∀ (a b : List Effect),
            requested_states (a ++ b) = requested_states a ++ requested_states b := by
          intro a b
          induction a with
          | nil => rfl
          | cons x xs ih => cases x <;> simp [requested_states, ih]
        rw [happ]; simp [requested_states]
      · cases to_null <;>
          simp [r, audio_player_set_uri, hp, audio_player_get_playing, gst_element_set_state]
      · simp [r, audio_player_set_uri, hp, audio_player_get_can_seek]
      · simp [r, audio_player_set_uri, hp, audio_player_get_duration]

/-- A stream is loaded and playing, then no URI is loaded. -/
theorem unload_stops_player_witness :
    (audio_player_get_uri
        (run (audio_player_init true)
          [.set_uri (some "file:///track1.mp3") .done .done, .set_playing true .done])).isSome
        = true ∧
      audio_player_get_playing
        (run (audio_player_init true)
          [.set_uri (some "file:///track1.mp3") .done .done, .set_playing true .done]) = true ∧
      (let q := run (audio_player_init true)
          [.set_uri (some "file:///track1.mp3") .done .done, .set_playing true .done]
       let r := audio_player_set_uri q none .done .done
       audio_player_get_uri r = none ∧
       r.tick_timeout_id = 0 ∧
       live_sources r.trace = [] ∧
       (∀ after : List Op, (∀ op ∈ after, op.loads = false) →
         (run r after).tick_timeout_id = 0 ∧
         live_sources (run r after).trace = [] ∧
         step (run r after) .tick = run r after) ∧
       r.trace = q.trace ++
         [.source_remove q.tick_timeout_id, .set_state .NULL, .set_uri none,
          .notify "uri", .notify "can-seek", .notify "duration", .notify "position"] ∧
       requested_states r.trace = requested_states q.trace ++ [.NULL] ∧
       audio_player_get_playing r = false ∧
       audio_player_get_can_seek r = false ∧
       audio_player_get_duration r = 0) :=
  ⟨by decide, by decide,
    unload_stops_player true
      [.set_uri (some "file:///track1.mp3") .done .done, .set_playing true .done]
      .done .done (by decide)⟩

end AudioPlayer

/-! # Theorems about the playlist parser -/

namespace PlaylistParser

/-! ## The C string functions -/

theorem char_toNat_eq_zero (c : Char) (h : c ≠ '\x00') : (c.toNat : Int) ≠ 0 := by
  intro h0
  apply h
  apply Char.ext
  apply UInt32.ext
  have : c.toNat = 0 := by exact_mod_cast h0
  simpa [Char.toNat] using this

theorem char_toNat_inj (a b : Char) (h : (a.toNat : Int) = b.toNat) : a = b := by
  apply Char.ext
  apply UInt32.ext
  have : a.toNat = b.toNat := by exact_mod_cast h
  simpa [Char.toNat] using this

/-- The function `strrchr` finds nothing exactly when the character does not
occur. -/
theorem strrchr_none (s : List Char) (c : Char) : strrchr s c = none ↔ c ∉ s := by
  induction s with
  | nil => simp [strrchr]
  | cons x rest ih =>
      unfold strrchr
      cases hr : strrchr rest c with
      | some r =>
          have : ¬ c ∉ rest := fun hn => by rw [ih.mpr hn] at hr; cases hr
          simp only [List.mem_cons, not_or]
          constructor
          · intro h; cases h
          · intro h; exact absurd h.2 this
      | none =>
          have hn : c ∉ rest := ih.mp hr
          by_cases hx : x = c
          · simp [hx]
          · simp [hx, hn, Ne.symm hx]

/-- The function `strrchr` returns the text from the last occurrence. -/
theorem strrchr_some (s : List Char) (c : Char) (t : List Char) :
    strrchr s c = some t ↔ ∃ pre ext, s = pre ++ c :: ext ∧ c ∉ ext ∧ t = c :: ext := by
  induction s generalizing t with
  | nil => simp [strrchr]
  | cons x rest ih =>
      unfold strrchr
      cases hr : strrchr rest c with
      | some r =>
          obtain ⟨pre, ext, hs, hne, ht⟩ := (ih r).mp hr
          constructor
          · intro h
            cases h
            exact ⟨x :: pre, ext, by rw [hs]; rfl, hne, ht⟩
          · rintro ⟨pre2, ext2, hs2, hne2, ht2⟩
            cases pre2 with
            | nil =>
                simp only [List.nil_append, List.cons.injEq] at hs2
                exfalso; apply hne2; rw [← hs2.2, hs]; simp
            | cons y pre3 =>
                simp only [List.cons_append, List.cons.injEq] at hs2
                have := (ih t).mpr ⟨pre3, ext2, hs2.2, hne2, ht2⟩
                rw [hr] at this
                exact this
      | none =>
          have hn : c ∉ rest := (strrchr_none rest c).mp hr
          by_cases hx : x = c
          · subst hx
            simp only [if_true, Option.some.injEq]
            constructor
            · intro h; exact ⟨[], rest, rfl, hn, h.symm⟩
            · rintro ⟨pre2, ext2, hs2, hne2, ht2⟩
              cases pre2 with
              | nil =>
                  simp only [List.nil_append, List.cons.injEq] at hs2
                  rw [ht2, hs2.2]
              | cons y pre3 =>
                  simp only [List.cons_append, List.cons.injEq] at hs2
                  exfalso; apply hn; rw [hs2.2]; simp
          · simp only [if_neg hx]
            constructor
            · intro h; cases h
            · rintro ⟨pre2, ext2, hs2, hne2, ht2⟩
              cases pre2 with
              | nil =>
                  simp only [List.nil_append, List.cons.injEq] at hs2
                  exact absurd hs2.1 hx
              | cons y pre3 =>
                  simp only [List.cons_append, List.cons.injEq] at hs2
                  exfalso; apply hn; rw [hs2.2]; simp

/-- Two strings compare equal under `g_ascii_strcasecmp` exactly when they are
equal once their upper case letters are lowered. -/
theorem strcasecmp_zero (s1 : List Char) :
    ∀ s2 : List Char, '\x00' ∉ s1 → '\x00' ∉ s2 →
      (g_ascii_strcasecmp s1 s2 = 0 ↔ s1.map g_ascii_tolower = s2.map g_ascii_tolower) := by
  induction s1 with
  | nil =>
      intro s2 _ h2
      cases s2 with
      | nil => simp [g_ascii_strcasecmp, cur]
      | cons y r2 =>
          have hy : y ≠ '\x00' := fun h => h2 (by simp [h])
          have := char_toNat_eq_zero y hy
          simp [g_ascii_strcasecmp, cur, this]
  | cons x r1 ih =>
      intro s2 h1 h2
      cases s2 with
      | nil =>
          have hx : x ≠ '\x00' := fun h => h1 (by simp [h])
          have := char_toNat_eq_zero x hx
          simp [g_ascii_strcasecmp, cur, this]
      | cons y r2 =>
          have h1r : '\x00' ∉ r1 := fun h => h1 (List.mem_cons_of_mem _ h)
          have h2r : '\x00' ∉ r2 := fun h => h2 (List.mem_cons_of_mem _ h)
          unfold g_ascii_strcasecmp
          by_cases hc : ((g_ascii_tolower x).toNat : Int) = (g_ascii_tolower y).toNat
          · have hxy := char_toNat_inj _ _ hc
            simp only [ne_eq, hc, not_true_eq_false, if_false, List.map_cons, List.cons.injEq,
              hxy, true_and]
            exact ih r2 h1r h2r
          · have hxy : g_ascii_tolower x ≠ g_ascii_tolower y := fun h => hc (by rw [h])
            simp only [ne_eq, hc, not_false_eq_true, if_true, List.map_cons, List.cons.injEq,
              hxy, false_and, iff_false]
            omega

/-- Two strings compare equal under `g_ascii_strncasecmp` exactly when their
first `n` characters are equal once upper case letters are lowered. -/
theorem strncasecmp_zero (n : Nat) :
    ∀ s1 s2 : List Char, '\x00' ∉ s1 → '\x00' ∉ s2 →
      (g_ascii_strncasecmp s1 s2 n = 0 ↔
        (s1.take n).map g_ascii_tolower = (s2.take n).map g_ascii_tolower) := by
  induction n with
  | zero => intro s1 s2 _ _; simp [g_ascii_strncasecmp]
  | succ n ih =>
      intro s1 s2 h1 h2
      cases s1 with
      | nil =>
          cases s2 with
          | nil => simp [g_ascii_strncasecmp, cur]
          | cons y r2 =>
              have hy : y ≠ '\x00' := fun h => h2 (by simp [h])
              have := char_toNat_eq_zero y hy
              simp [g_ascii_strncasecmp, cur, this]
      | cons x r1 =>
          cases s2 with
          | nil =>
              have hx : x ≠ '\x00' := fun h => h1 (by simp [h])
              have := char_toNat_eq_zero x hx
              simp [g_ascii_strncasecmp, cur, this]
          | cons y r2 =>
              have h1r : '\x00' ∉ r1 := fun h => h1 (List.mem_cons_of_mem _ h)
              have h2r : '\x00' ∉ r2 := fun h => h2 (List.mem_cons_of_mem _ h)
              unfold g_ascii_strncasecmp
              by_cases hc : ((g_ascii_tolower x).toNat : Int) = (g_ascii_tolower y).toNat
              · have hxy := char_toNat_inj _ _ hc
                simp only [ne_eq, hc, not_true_eq_false, if_false, List.take_succ_cons,
                  List.map_cons, List.cons.injEq, hxy, true_and]
                exact ih r1 r2 h1r h2r
              · have hxy : g_ascii_tolower x ≠ g_ascii_tolower y := fun h => hc (by rw [h])
                simp only [ne_eq, hc, not_false_eq_true, if_true, List.take_succ_cons,
                  List.map_cons, List.cons.injEq, hxy, false_and, iff_false]
                omega

/-! ## The two errors of `playlist_parser_parse` -/

/-- The first check of `playlist_parser_parse` fails exactly when the URI has
no dot or the text from its last dot is not `.m3u` in any case of letters. -/
theorem type_check_fails_iff (uri : List Char) (hnul : '\x00' ∉ uri) :
    (match strrchr uri '.' with
      | none => true
      | some ext => g_ascii_strcasecmp ext ".m3u".toList != 0) = true ↔
    ('.' ∉ uri ∨
      ∃ pre ext, uri = pre ++ '.' :: ext ∧ '.' ∉ ext ∧
        ('.' :: ext).map g_ascii_tolower ≠ ".m3u".toList) := by
  cases hs : strrchr uri '.' with
  | none =>
      simp only [true_iff]
      exact Or.inl ((strrchr_none uri '.').mp hs)
  | some t =>
      obtain ⟨pre, ext, hu, hne, ht⟩ := (strrchr_some uri '.' t).mp hs
      have htn : '\x00' ∉ t := by
        intro h; apply hnul; rw [hu, ← ht]; exact List.mem_append_right _ h
      have hz := strcasecmp_zero t ".m3u".toList htn (by decide)
      have hm : ".m3u".toList.map g_ascii_tolower = ".m3u".toList := by decide
      rw [hm] at hz
      simp only [bne_iff_ne, ne_eq, hz]
      constructor
      · intro h
        exact Or.inr ⟨pre, ext, hu, hne, by rw [← ht]; exact h⟩
      · rintro (h | ⟨pre2, ext2, hu2, hne2, hd2⟩)
        · exfalso; apply h; rw [hu]; simp
        · have := (strrchr_some uri '.' ('.' :: ext2)).mpr ⟨pre2, ext2, hu2, hne2, rfl⟩
          rw [hs] at this
          cases this
          exact hd2

/-- C24. For a URI, `playlist_parser_parse` returns `FALSE` with the error
`PLAYLIST_PARSER_ERROR_UNKNOWN_TYPE` and no signal when the URI has no dot or
the text from its last dot differs from `.m3u` once upper case ASCII letters
are lowered, whatever its scheme; otherwise it returns `FALSE` with the error
`PLAYLIST_PARSER_ERROR_UNSUPPORTED_SCHEME` and no signal when its first five
characters differ from `file:` once lowered.  As GLib sets no error of the
domain of the parser, an error of the parser with the first code is set
exactly in the first case and one with the second code exactly in the
second. -/
theorem parse_errors_are_distinguished (g : GLib) (uri : String)
    (hnul : '\x00' ∉ uri.toList)
    (hconv : ∀ u e, g.g_filename_from_uri u = .error e → e.domain ≠ PLAYLIST_PARSER_ERROR)
    (hopen : ∀ f e, g.g_io_channel_new_file f = .error e → e.domain ≠ PLAYLIST_PARSER_ERROR) :
    let not_m3u : Prop :=
      '.' ∉ uri.toList ∨
        ∃ pre ext, uri.toList = pre ++ '.' :: ext ∧ '.' ∉ ext ∧
          ('.' :: ext).map g_ascii_tolower ≠ ".m3u".toList
    let is_file : Prop := (uri.toList.take 5).map g_ascii_tolower = "file:".toList
    let o := playlist_parser_parse g (some uri)
    (not_m3u →
      o = { ret := false
            error := some
              { domain := PLAYLIST_PARSER_ERROR
                code := PLAYLIST_PARSER_ERROR_UNKNOWN_TYPE
                message := "Unknown type" }
            signals := []
            critical := false }) ∧
    (¬ not_m3u → ¬ is_file →
      o = { ret := false
            error := some
              { domain := PLAYLIST_PARSER_ERROR
                code := PLAYLIST_PARSER_ERROR_UNSUPPORTED_SCHEME
                message := "Unsupported scheme in URI \x27" ++ uri ++ "\x27" }
            signals := []
            critical := false }) ∧
    ((∃ e, o.error = some e ∧ e.domain = PLAYLIST_PARSER_ERROR ∧
        e.code = PLAYLIST_PARSER_ERROR_UNKNOWN_TYPE) ↔ not_m3u) ∧
    ((∃ e, o.error = some e ∧ e.domain = PLAYLIST_PARSER_ERROR ∧
        e.code = PLAYLIST_PARSER_ERROR_UNSUPPORTED_SCHEME) ↔ ¬ not_m3u ∧ ¬ is_file) := by
  intro not_m3u is_file o
  have hcheck := type_check_fails_iff uri.toList hnul
  have hscheme := strncasecmp_zero 5 uri.toList "file:".toList hnul (by decide)
  have hm : ("file:".toList.take 5).map g_ascii_tolower = "file:".toList := by decide
  rw [hm] at hscheme
  by_cases h1 : not_m3u
  · have hb := hcheck.mpr h1
    have ho : o = { ret := false
                    error := some
                      { domain := PLAYLIST_PARSER_ERROR
                        code := PLAYLIST_PARSER_ERROR_UNKNOWN_TYPE
                        message := "Unknown type" }
                    signals := []
                    critical := false } := by
      simp only [o, playlist_parser_parse, hb, if_true]
    refine ⟨fun _ => ho, fun h => absurd h1 h, ?_, ?_⟩
    · rw [ho]
      exact ⟨fun _ => h1, fun _ => ⟨_, rfl, rfl, rfl⟩⟩
    · rw [ho]
      constructor
      · rintro ⟨e, he, _, hc⟩
        simp only [Option.some.injEq] at he
        rw [← he] at hc
        simp [PLAYLIST_PARSER_ERROR_UNKNOWN_TYPE, PLAYLIST_PARSER_ERROR_UNSUPPORTED_SCHEME] at hc
      · intro h; exact absurd h1 h.1
  · have hb : (match strrchr uri.toList '.' with
        | none => true
        | some ext => g_ascii_strcasecmp ext ".m3u".toList != 0) = false := by
      cases hx : (match strrchr uri.toList '.' with
        | none => true
        | some ext => g_ascii_strcasecmp ext ".m3u".toList != 0)
      · rfl
      · exact absurd (hcheck.mp hx) h1
    by_cases h2 : is_file
    · have hz : (g_ascii_strncasecmp uri.toList "file:".toList 5 != 0) = false := by
        rw [hscheme.mpr h2]; rfl
      have ho : o = (match g.g_filename_from_uri uri with
          | .error e => { ret := false, error := some e, signals := [], critical := false }
          | .ok filename =>
              match g.g_io_channel_new_file filename with
              | .error e => { ret := false, error := some e, signals := [], critical := false }
              | .ok channel =>
                  { ret := true
                    error := none
                    signals := parse_m3u g channel (g.g_path_get_dirname filename)
                    critical := false }) := by
        simp only [o, playlist_parser_parse, hb, hz, Bool.false_eq_true, if_false]
      have hdom : ∀ e, o.error = some e → e.domain ≠ PLAYLIST_PARSER_ERROR := by
        intro e he
        rw [ho] at he
        cases hf : g.g_filename_from_uri uri with
        | error e1 =>
            simp only [hf, Option.some.injEq] at he
            rw [← he]; exact hconv uri e1 hf
        | ok filename =>
            simp only [hf] at he
            cases hc : g.g_io_channel_new_file filename with
            | error e1 =>
                simp only [hc, Option.some.injEq] at he
                rw [← he]; exact hopen filename e1 hc
            | ok channel =>
                simp [hc] at he
      refine ⟨fun h => absurd h h1, fun _ h => absurd h2 h, ?_, ?_⟩
      · constructor
        · rintro ⟨e, he, hd, _⟩; exact absurd hd (hdom e he)
        · intro h; exact absurd h h1
      · constructor
        · rintro ⟨e, he, hd, _⟩; exact absurd hd (hdom e he)
        · intro h; exact absurd h2 h.2
    · have hz : (g_ascii_strncasecmp uri.toList "file:".toList 5 != 0) = true := by
        simp only [bne_iff_ne, ne_eq, hscheme]; exact h2
      have ho : o = { ret := false
                      error := some
                        { domain := PLAYLIST_PARSER_ERROR
                          code := PLAYLIST_PARSER_ERROR_UNSUPPORTED_SCHEME
                          message := "Unsupported scheme in URI \x27" ++ uri ++ "\x27" }
                      signals := []
                      critical := false } := by
        simp only [o, playlist_parser_parse, hb, hz, Bool.false_eq_true, if_false, if_true]
      refine ⟨fun h => absurd h h1, fun _ _ => ho, ?_, ?_⟩
      · rw [ho]
        constructor
        · rintro ⟨e, he, _, hc⟩
          simp only [Option.some.injEq] at he
          rw [← he] at hc
          simp [PLAYLIST_PARSER_ERROR_UNKNOWN_TYPE, PLAYLIST_PARSER_ERROR_UNSUPPORTED_SCHEME] at hc
        · intro h; exact absurd h h1
      · rw [ho]
        exact ⟨fun _ => ⟨h1, h2⟩, fun _ => ⟨_, rfl, rfl, rfl⟩⟩

/-- A URI that is neither M3U nor a file reports the unknown type. -/
theorem parse_errors_are_distinguished_witness :
    '\x00' ∉ "http://host/list.pls".toList ∧
      (∀ u e, example_glib.g_filename_from_uri u = .error e →
        e.domain ≠ PLAYLIST_PARSER_ERROR) ∧
      (∀ f e, example_glib.g_io_channel_new_file f = .error e →
        e.domain ≠ PLAYLIST_PARSER_ERROR) ∧
      ("http://host/list.pls".toList.take 5).map g_ascii_tolower ≠ "file:".toList ∧
      playlist_parser_parse example_glib (some "http://host/list.pls") =
        { ret := false
          error := some
            { domain := PLAYLIST_PARSER_ERROR
              code := PLAYLIST_PARSER_ERROR_UNKNOWN_TYPE
              message := "Unknown type" }
          signals := []
          critical := false } :=
  have hconv : ∀ u e, example_glib.g_filename_from_uri u = .error e →
      e.domain ≠ PLAYLIST_PARSER_ERROR := by
    intro u e h
    simp only [example_glib] at h
    split at h
    · cases h
    · cases h; decide
  have hopen : ∀ f e, example_glib.g_io_channel_new_file f = .error e →
      e.domain ≠ PLAYLIST_PARSER_ERROR := by
    intro f e h
    simp only [example_glib] at h
    split at h
    · cases h
    · cases h; decide
  ⟨by decide, hconv, hopen, by decide,
    (parse_errors_are_distinguished example_glib "http://host/list.pls" (by decide)
      hconv hopen).1
      (Or.inr ⟨"http://host/list".toList, "pls".toList, by decide, by decide, by decide⟩)⟩

/-! ## The entries of a playlist -/

/-- What the C library sees of a line after the loop that de-DOSes it: the
line up to its first CR or LF, with slashes for backslashes. -/
theorem c_str_de_dos (line : List Char) (h : '\x00' ∉ line) :
    c_str (de_dos line) =
      String.mk ((line.takeWhile (fun c => c ≠ '\r' ∧ c ≠ '\n')).map
        (fun c => if c = '\\' then '/' else c)) := by
  unfold c_str
  congr 1
  induction line with
  | nil => simp [de_dos]
  | cons c rest ih =>
      have hc : c ≠ '\x00' := fun e => h (by simp [e])
      have hr : '\x00' ∉ rest := fun e => h (List.mem_cons_of_mem _ e)
      unfold de_dos
      rw [if_neg hc]
      by_cases h1 : c = '\\'
      · subst h1
        simpa [List.takeWhile_cons] using ih hr
      · by_cases h2 : c = '\r'
        · subst h2
          simp [List.takeWhile_cons]
        · by_cases h3 : c = '\n'
          · subst h3
            simp [List.takeWhile_cons]
          · simpa [List.takeWhile_cons, h1, h2, h3, hc] using ih hr

/-- The function `strstr` finds something exactly when the needle occurs. -/
theorem strstr_isSome (haystack needle : List Char) :
    (strstr haystack needle).isSome = true ↔ needle <:+: haystack := by
  induction haystack with
  | nil =>
      cases needle <;> simp [strstr]
  | cons c rest ih =>
      unfold strstr
      rw [List.infix_cons_iff]
      by_cases hp : needle.isPrefixOf (c :: rest) = true
      · rw [if_pos hp]
        simp only [Option.isSome_some, true_iff]
        exact Or.inl (( List.isPrefixOf_iff_prefix).mp hp)
      · rw [if_neg hp, ih]
        constructor
        · intro h; exact Or.inr h
        · rintro (h | h)
          · exact absurd (( List.isPrefixOf_iff_prefix).mpr h) hp
          · exact h

/-- One line gives the entry that the text of the playlist says. -/
theorem parse_line_entry (g : GLib) (dirname : String) (line : List Char)
    (h : '\x00' ∉ line) :
    parse_line g dirname line = (line_entry g dirname line).toList.map Signal.entry := by
  unfold parse_line line_entry
  by_cases hh : line.head? = some '#'
  · simp [hh]
  · rw [if_neg hh, if_neg hh]
    simp only [c_str_de_dos line h]
    by_cases hi : "://".toList <:+:
        (String.mk ((line.takeWhile (fun c => c ≠ '\r' ∧ c ≠ '\n')).map
          (fun c => if c = '\\' then '/' else c))).toList
    · rw [if_pos ((strstr_isSome _ _).mpr hi), if_pos hi]
      rfl
    · rw [if_neg (fun e => hi ((strstr_isSome _ _).mp e)), if_neg hi]
      split <;> (unfold got_absolute_path; split <;> simp_all)

/-- C25. For an M3U text, `parse_m3u` emits `playlist-start`, then the entries
of the lines in line order, at most one for a line, then `playlist-end`.  A
line that begins with `#` gives none; another line is cut at its first CR or
LF, with its backslashes turned into slashes, and is emitted as it is if it
holds `://`, converted with `g_filename_to_uri` if it is an absolute path, and
else joined with `g_build_filename` to the directory of the playlist and
converted. -/
theorem parse_m3u_entries (g : GLib) (channel : List (List Char)) (dirname : String)
    (htext : ∀ line ∈ channel, '\x00' ∉ line) :
    parse_m3u g channel dirname =
      [.playlist_start] ++ (channel.filterMap (line_entry g dirname)).map Signal.entry ++
        [.playlist_end] := by
  unfold parse_m3u
  congr 2
  induction channel with
  | nil => rfl
  | cons line rest ih =>
      unfold parse_lines
      rw [parse_line_entry g dirname line (htext line (List.mem_cons_self _ _)),
        ih (fun l hl => htext l (List.mem_cons_of_mem _ hl))]
      cases hl : line_entry g dirname line <;> simp [List.filterMap_cons, hl]

/-- A playlist with a comment, a relative path, a DOS path, an absolute path
and a URI. -/
theorem parse_m3u_entries_witness :
    (∀ line ∈ ["#EXTM3U\r\n".toList, "one.ogg\r\n".toList, "C:\\albums\\two.ogg\r\n".toList,
        "/srv/three.ogg\n".toList, "http://radio/stream\n".toList], '\x00' ∉ line) ∧
      parse_m3u example_glib
        ["#EXTM3U\r\n".toList, "one.ogg\r\n".toList, "C:\\albums\\two.ogg\r\n".toList,
          "/srv/three.ogg\n".toList, "http://radio/stream\n".toList] "/music" =
        [.playlist_start] ++
          (["#EXTM3U\r\n".toList, "one.ogg\r\n".toList, "C:\\albums\\two.ogg\r\n".toList,
            "/srv/three.ogg\n".toList, "http://radio/stream\n".toList].filterMap
              (line_entry example_glib "/music")).map Signal.entry ++
          [.playlist_end] ∧
      parse_m3u example_glib
        ["#EXTM3U\r\n".toList, "one.ogg\r\n".toList, "C:\\albums\\two.ogg\r\n".toList,
          "/srv/three.ogg\n".toList, "http://radio/stream\n".toList] "/music" =
        [.playlist_start, .entry "file:///music/one.ogg",
         .entry "file:///music/C:/albums/two.ogg", .entry "file:///srv/three.ogg",
         .entry "http://radio/stream", .playlist_end] :=
  ⟨by decide,
    parse_m3u_entries example_glib
      ["#EXTM3U\r\n".toList, "one.ogg\r\n".toList, "C:\\albums\\two.ogg\r\n".toList,
        "/srv/three.ogg\n".toList, "http://radio/stream\n".toList] "/music" (by decide),
    by decide⟩

/-! ## A blank line -/

/-- C30. A line that is empty once it is cut at its CR or LF is not skipped:
when the empty path is not absolute, and `g_build_filename` of a directory
and the empty path is the directory, `parse_m3u` emits for the line one
entry, the URI of the directory of the playlist. -/
theorem blank_line_yields_directory (g : GLib) (dirname u : String) (line : List Char)
    (hblank : line = [] ∨ line.head? = some '\r' ∨ line.head? = some '\n')
    (habs : g.g_path_is_absolute "" = false)
    (hjoin : g.g_build_filename dirname "" = dirname)
    (huri : g.g_filename_to_uri dirname = some u) :
    parse_line g dirname line = [.entry u] ∧
      parse_m3u g [line] dirname = [.playlist_start, .entry u, .playlist_end] := by
  have hline : parse_line g dirname line = [.entry u] := by
    have hs : (strstr "".toList "://".toList).isSome = false := by decide
    rcases hblank with h | h | h
    · subst h
      have hc : c_str (de_dos []) = "" := by decide
      simp only [parse_line, List.head?_nil, hc, hs, habs, hjoin, got_absolute_path, huri]
      simp
    · cases line with
      | nil => simp at h
      | cons c rest =>
          simp only [List.head?_cons, Option.some.injEq] at h
          subst h
          have hc : c_str (de_dos ('\r' :: rest)) = "" := by
            simp [c_str, de_dos]
          simp only [parse_line, List.head?_cons, hc, hs, habs, hjoin, got_absolute_path, huri]
          simp
    · cases line with
      | nil => simp at h
      | cons c rest =>
          simp only [List.head?_cons, Option.some.injEq] at h
          subst h
          have hc : c_str (de_dos ('\n' :: rest)) = "" := by
            simp [c_str, de_dos]
          simp only [parse_line, List.head?_cons, hc, hs, habs, hjoin, got_absolute_path, huri]
          simp
  exact ⟨hline, by simp [parse_m3u, parse_lines, hline]⟩

/-- A blank DOS line in a playlist of the directory `/music`. -/
theorem blank_line_yields_directory_witness :
    ("\r\n".toList = [] ∨ "\r\n".toList.head? = some '\r' ∨ "\r\n".toList.head? = some '\n') ∧
      example_glib.g_path_is_absolute "" = false ∧
      example_glib.g_build_filename "/music" "" = "/music" ∧
      example_glib.g_filename_to_uri "/music" = some "file:///music" ∧
      parse_line example_glib "/music" "\r\n".toList = [.entry "file:///music"] ∧
      parse_m3u example_glib ["\r\n".toList] "/music" =
        [.playlist_start, .entry "file:///music", .playlist_end] :=
  ⟨by decide, by decide, by decide, by decide,
    blank_line_yields_directory example_glib "/music" "file:///music" "\r\n".toList
      (by decide) (by decide) (by decide) (by decide)⟩

end PlaylistParser

end Gaku
